import Mathlib

/-!
# Connection handshake and liveness core of yojimbo (`yojimbo_client_server.cpp`)

A shallow embedding of the server and the client of
`yojimbo_client_server.cpp` and theorems about them.

Conventions of the embedding.

* `double` times are values of `Time`: the integer `n` stands for the
  finite double `n * 2^-1074`, every finite double being a whole multiple of
  the smallest one.  The order of the integers is the order of the doubles.
  The sums and the difference of the code are `addDouble` and `subDouble`,
  which round the exact result to 53 significant bits, to nearest, ties to
  even, as IEEE 754 binary64 does.  Infinities and NaN are not values of
  `Time`; a sum beyond the largest double is a larger number here and
  compares with every finite double as the infinity of the code does.
* Fixed-size C arrays (`m_clientConnected[MaxClients]`, ...) are total maps
  `Nat → α`; the code only touches indices below the array bound.
* Byte buffers are `List Nat`.
* Constants of the absent header `yojimbo_client_server.h` are the fields of
  `Constants`.
* `assert` is compiled out (release build): the functions below continue
  where a debug build would abort.  The assertions on the way into
  `ConnectClient` are evaluated separately, by
  `Server.ProcessConnectionResponse_assertions`.
* `printf` logging is not modelled.
-/

namespace yojimbo

/-- Monotonic time argument of the driver methods, a `double` in the source:
`n` stands for the finite double `n * 2^-1074`. -/
abbrev Time := Int

/-- The loop of `bitLength`. -/
def bitLengthLoop : Nat → Nat → Nat
  | 0, _ => 0
  | fuel + 1, n => if n = 0 then 0 else bitLengthLoop fuel (n / 2) + 1

/-- Number of bits of a natural number: the least `k` with `n < 2^k`. -/
def bitLength (n : Nat) : Nat := bitLengthLoop n n

/-- Rounding of a magnitude to the 53 significant bits of a `double`: to
nearest, ties to the even significand.  Magnitudes below `2^53` (the
subnormal doubles and the lowest binade of the normal ones) are kept as they
are. -/
def roundNat (n : Nat) : Nat :=
  let shift := bitLength n - 53
  if shift = 0 then n
  else
    let quotient := n >>> shift
    let remainder := n - quotient <<< shift
    let half := 1 <<< (shift - 1)
    if half < remainder ∨ (remainder = half ∧ quotient % 2 = 1) then (quotient + 1) <<< shift
    else quotient <<< shift

/-- Rounding of an exact result to a `double`; a `Time` is a double when
rounding leaves it as it is. -/
def roundDouble (n : Int) : Int :=
  if n < 0 then -((roundNat n.natAbs : Nat) : Int) else ((roundNat n.natAbs : Nat) : Int)

/-- The sum `a + b` of two doubles as the code computes it. -/
def addDouble (a b : Time) : Time := roundDouble (a + b)

/-- The difference `a - b` of two doubles as the code computes it. -/
def subDouble (a b : Time) : Time := roundDouble (a - b)

/-- The double `significand * 2^exponent`, for `exponent >= -1074` and a
significand of at most 53 bits. -/
def double (significand : Int) (exponent : Int) : Time :=
  significand * ((1 <<< (exponent + 1074).toNat : Nat) : Int)

/-- Modelled from the spec: the `Address` class of the absent network header.
`Address()` is the invalid address; two addresses are equal when they name
the same endpoint. -/
inductive Address
  | undefined
  | endpoint (host : Nat) (port : Nat)
  deriving DecidableEq, Repr

instance : Inhabited Address := ⟨Address.undefined⟩

/-- Modelled from the spec: `Address::IsValid`, false exactly for `Address()`. -/
def Address.IsValid : Address → Bool
  | Address.undefined => false
  | Address.endpoint _ _ => true

/-- Constants declared in the absent header; fixed per deployment. -/
structure Constants where
  MaxClients : Nat
  MaxServersPerConnectToken : Nat
  MaxConnectTokenEntries : Nat
  ConnectTokenBytes : Nat
  ChallengeTokenBytes : Nat
  KeyBytes : Nat
  NonceBytes : Nat
  MacBytes : Nat
  AuthBytes : Nat
  ConnectTokenExpirySeconds : Nat
  ConnectionRequestSendRate : Time
  ConnectionResponseSendRate : Time
  ConnectionHeartBeatRate : Time
  ConnectionConfirmSendRate : Time
  ConnectionRequestTimeOut : Time
  ChallengeResponseTimeOut : Time
  ConnectionTimeOut : Time

/-- Plaintext connect token (`struct ConnectToken`). -/
structure ConnectToken where
  protocolId : Nat
  clientId : Nat
  expiryTimestamp : Nat
  numServerAddresses : Int
  serverAddresses : List Address
  clientToServerKey : List Nat
  serverToClientKey : List Nat
  random : List Nat
  deriving DecidableEq, Repr

/-- Plaintext challenge token (`struct ChallengeToken`). -/
structure ChallengeToken where
  clientId : Nat
  clientAddress : Address
  serverAddress : Address
  connectTokenMac : List Nat
  clientToServerKey : List Nat
  serverToClientKey : List Nat
  random : List Nat
  deriving DecidableEq, Repr

/-- Entry of the connect-token cache (`struct ConnectTokenEntry`). -/
structure ConnectTokenEntry where
  time : Time
  address : Address
  mac : List Nat
  deriving DecidableEq, Repr

/-- Per-slot timing data (`struct ServerClientData`). -/
structure ServerClientData where
  address : Address
  clientId : Nat
  connectTime : Time
  lastPacketSendTime : Time
  lastPacketReceiveTime : Time
  deriving DecidableEq, Repr

/-- Modelled from the spec: the default constructor `ServerClientData()` of
the absent header; the spec says resetting a slot zeroes it. -/
def ServerClientData.default : ServerClientData :=
  { address := Address.undefined, clientId := 0, connectTime := 0,
    lastPacketSendTime := 0, lastPacketReceiveTime := 0 }

/-- Packet type tags (`PACKET_CONNECTION_*`). -/
inductive PacketType
  | PACKET_CONNECTION_REQUEST
  | PACKET_CONNECTION_DENIED
  | PACKET_CONNECTION_CHALLENGE
  | PACKET_CONNECTION_RESPONSE
  | PACKET_CONNECTION_HEARTBEAT
  | PACKET_CONNECTION_DISCONNECT
  deriving DecidableEq, Repr

/-- The six packet kinds with their payload, and any other packet the
transport may deliver. -/
inductive Packet
  | ConnectionRequest (connectTokenData connectTokenNonce : List Nat)
  | ConnectionDenied
  | ConnectionChallenge (challengeTokenData challengeTokenNonce : List Nat)
  | ConnectionResponse (challengeTokenData challengeTokenNonce : List Nat)
  | ConnectionHeartBeat
  | ConnectionDisconnect
  | Other (type : Nat)
  deriving DecidableEq, Repr

/-- A freshly created packet of a type; its payload is written by the caller. -/
def Packet.blank : PacketType → Packet
  | PacketType.PACKET_CONNECTION_REQUEST => Packet.ConnectionRequest [] []
  | PacketType.PACKET_CONNECTION_DENIED => Packet.ConnectionDenied
  | PacketType.PACKET_CONNECTION_CHALLENGE => Packet.ConnectionChallenge [] []
  | PacketType.PACKET_CONNECTION_RESPONSE => Packet.ConnectionResponse [] []
  | PacketType.PACKET_CONNECTION_HEARTBEAT => Packet.ConnectionHeartBeat
  | PacketType.PACKET_CONNECTION_DISCONNECT => Packet.ConnectionDisconnect

/-- Observable calls made by the core: output calls on the transport and the
server callbacks, in the order they happen.  A packet argument of `none` is
a null pointer handed to `SendPacket`. -/
inductive Event
  | SendPacket (address : Address) (packet : Option Packet)
  | WritePackets (time : Time)
  | ResetEncryptionMappings
  | AddEncryptionMapping (address : Address) (sendKey receiveKey : List Nat) (ok : Bool)
  | OnClientConnect (clientIndex : Nat)
  | OnClientDisconnect (clientIndex : Nat)
  | OnClientTimedOut (clientIndex : Nat)
  deriving DecidableEq, Repr

/-- Modelled from the spec: everything outside the `Server` object.  The
transport (`NetworkInterface`, absent header) with its receive queue, the
outcomes of its next `CreatePacket` and `AddEncryptionMapping` calls, the
readings of the wall clock `::time(NULL)`, the output of `GenerateKey`, and
the trace of observable calls so far (oldest first).  An exhausted outcome
list means success; an exhausted clock reads 0. -/
structure World where
  incoming : List (Address × Packet)
  createPacketResults : List Bool
  addMappingResults : List Bool
  wallClock : List Nat
  entropy : List (List Nat)
  trace : List Event

/-- Modelled from the spec: `NetworkInterface::CreatePacket`, returning a
packet or nothing. -/
def World.CreatePacket (w : World) (type : PacketType) : Option Packet × World :=
  match w.createPacketResults with
  | [] => (some (Packet.blank type), w)
  | ok :: rest =>
    (if ok then some (Packet.blank type) else none, { w with createPacketResults := rest })

/-- Modelled from the spec: `NetworkInterface::SendPacket`, best effort. -/
def World.SendPacket (w : World) (address : Address) (packet : Option Packet) : World :=
  { w with trace := w.trace ++ [Event.SendPacket address packet] }

/-- Modelled from the spec: `NetworkInterface::AddEncryptionMapping`. -/
def World.AddEncryptionMapping (w : World) (address : Address)
    (sendKey receiveKey : List Nat) : Bool × World :=
  match w.addMappingResults with
  | [] => (true, { w with trace := w.trace ++ [Event.AddEncryptionMapping address sendKey receiveKey true] })
  | ok :: rest =>
    (ok, { w with addMappingResults := rest,
                  trace := w.trace ++ [Event.AddEncryptionMapping address sendKey receiveKey ok] })

/-- The wall clock `(uint64_t) ::time( NULL )`. -/
def World.time (w : World) : Nat × World :=
  match w.wallClock with
  | [] => (0, w)
  | t :: rest => (t % 2 ^ 64, { w with wallClock := rest })

/-- Modelled from the spec: `GenerateKey`, `KeyBytes` octets of entropy. -/
def World.GenerateKey (w : World) : List Nat × World :=
  match w.entropy with
  | [] => ([], w)
  | k :: rest => (k, { w with entropy := rest })

/-- A server callback (`OnClientConnect` and the like) being fired. -/
def World.fire (w : World) (e : Event) : World :=
  { w with trace := w.trace ++ [e] }

/-- The packets handed to `SendPacket` in a trace, in order. -/
def packetsSent : List Event → List (Address × Option Packet)
  | [] => []
  | Event.SendPacket a p :: rest => (a, p) :: packetsSent rest
  | _ :: rest => packetsSent rest

/-- The encryption mappings requested in a trace, in order. -/
def mappingsRequested : List Event → List Address
  | [] => []
  | Event.AddEncryptionMapping a _ _ _ :: rest => a :: mappingsRequested rest
  | _ :: rest => mappingsRequested rest

/-- Modelled from the spec: the AEAD primitive and the token serializers of
the absent headers.  `none` is a failure (authentication failure, stream
error). -/
structure Primitives where
  Encrypt_AEAD : (message additional nonce key : List Nat) → Option (List Nat)
  Decrypt_AEAD : (encrypted additional nonce key : List Nat) → Option (List Nat)
  writeConnectToken : ConnectToken → Option (List Nat)
  readConnectToken : List Nat → Option ConnectToken
  writeChallengeToken : ChallengeToken → Option (List Nat)
  readChallengeToken : List Nat → Option ChallengeToken

/-- Members of `class Server`. -/
structure Server where
  m_privateKey : List Nat
  m_serverAddress : Address
  m_numConnectedClients : Int
  m_challengeTokenNonce : Nat
  m_clientConnected : Nat → Bool
  m_clientId : Nat → Nat
  m_clientAddress : Nat → Address
  m_clientData : Nat → ServerClientData
  m_connectTokenEntries : Nat → ConnectTokenEntry

/-- Result of `memcmp( a, b, n ) == 0`. -/
def memcmpEq (a b : List Nat) (n : Nat) : Bool :=
  decide (a.take n = b.take n)

/-- Locals of the scan in `FindOrAddConnectTokenEntry`. -/
structure TokenScan where
  matchingTokenIndex : Int
  oldestTokenIndex : Int
  oldestTokenTime : Time
  deriving DecidableEq, Repr

/-- The `for` loop of `FindOrAddConnectTokenEntry`: the locals after the
iterations `i = 0 .. n - 1`. -/
def Server.scanConnectTokenEntries (c : Constants) (s : Server) (mac : List Nat) :
    Nat → TokenScan
  | 0 => { matchingTokenIndex := -1, oldestTokenIndex := -1, oldestTokenTime := 0 }
  | i + 1 =>
    let st := Server.scanConnectTokenEntries c s mac i
    let st1 :=
      if memcmpEq mac (s.m_connectTokenEntries i).mac c.MacBytes then
        { st with matchingTokenIndex := (i : Int) }
      else st
    if st1.oldestTokenIndex = -1 ∨ st1.oldestTokenTime < (s.m_connectTokenEntries i).time then
      { st1 with oldestTokenTime := (s.m_connectTokenEntries i).time,
                 oldestTokenIndex := (i : Int) }
    else st1

/-- Write to `array[index]` for an `int` index; a negative index (never
produced when the array is not empty) writes nothing. -/
def writeAt {α : Type} (array : Nat → α) (index : Int) (value : α) : Nat → α :=
  if 0 ≤ index then Function.update array index.toNat value else array

/-- Method `Server::FindOrAddConnectTokenEntry`. -/
def Server.FindOrAddConnectTokenEntry (c : Constants) (s : Server) (address : Address)
    (mac : List Nat) (time : Time) : Bool × Server :=
  let st := s.scanConnectTokenEntries c mac c.MaxConnectTokenEntries
  if st.matchingTokenIndex = -1 then
    let entry : ConnectTokenEntry := { time := time, address := address, mac := mac.take c.MacBytes }
    (true, { s with
      m_connectTokenEntries := writeAt s.m_connectTokenEntries st.oldestTokenIndex entry })
  else if (s.m_connectTokenEntries st.matchingTokenIndex.toNat).address = address then
    (true, s)
  else
    (false, s)

/-- The zeroed `capacity`-byte buffer after `written` has been stored at its
start, cut to its first `n` bytes. -/
def bufferPrefix (written : List Nat) (capacity n : Nat) : List Nat :=
  ((written ++ List.replicate (capacity - written.length) 0).take capacity).take n

/-- Function `EncryptConnectToken`: serialize into a zeroed buffer of
`ConnectTokenBytes`, encrypt its first `ConnectTokenBytes - AuthBytes` bytes. -/
def EncryptConnectToken (c : Constants) (p : Primitives) (token : ConnectToken)
    (additional nonce key : List Nat) : Option (List Nat) :=
  match p.writeConnectToken token with
  | none => none
  | some written =>
    if c.ConnectTokenBytes < written.length then none
    else
      p.Encrypt_AEAD (bufferPrefix written c.ConnectTokenBytes (c.ConnectTokenBytes - c.AuthBytes))
        additional nonce key

/-- Function `DecryptConnectToken`: decrypt `ConnectTokenBytes` of ciphertext, read the
token from the first `ConnectTokenBytes - AuthBytes` bytes of the plaintext. -/
def DecryptConnectToken (c : Constants) (p : Primitives) (encryptedMessage : List Nat)
    (additional nonce key : List Nat) : Option ConnectToken :=
  match p.Decrypt_AEAD (encryptedMessage.take c.ConnectTokenBytes) additional nonce key with
  | none => none
  | some decryptedMessage =>
    p.readConnectToken (decryptedMessage.take (c.ConnectTokenBytes - c.AuthBytes))

/-- Function `GenerateChallengeToken`; `none` is the `false` return. -/
def GenerateChallengeToken (c : Constants) (w : World) (connectToken : ConnectToken)
    (clientAddress serverAddress : Address) (connectTokenMac : List Nat) :
    Option ChallengeToken × World :=
  if connectToken.clientId = 0 then (none, w)
  else if !clientAddress.IsValid then (none, w)
  else
    let r := w.GenerateKey
    (some { clientId := connectToken.clientId,
            clientAddress := clientAddress,
            serverAddress := serverAddress,
            connectTokenMac := connectTokenMac.take c.MacBytes,
            clientToServerKey := connectToken.clientToServerKey.take c.KeyBytes,
            serverToClientKey := connectToken.serverToClientKey.take c.KeyBytes,
            random := r.1 }, r.2)

/-- Function `EncryptChallengeToken`. -/
def EncryptChallengeToken (c : Constants) (p : Primitives) (token : ChallengeToken)
    (additional nonce key : List Nat) : Option (List Nat) :=
  match p.writeChallengeToken token with
  | none => none
  | some written =>
    if c.ChallengeTokenBytes < written.length then none
    else
      p.Encrypt_AEAD
        (bufferPrefix written c.ChallengeTokenBytes (c.ChallengeTokenBytes - c.AuthBytes))
        additional nonce key

/-- Function `DecryptChallengeToken`. -/
def DecryptChallengeToken (c : Constants) (p : Primitives) (encryptedMessage : List Nat)
    (additional nonce key : List Nat) : Option ChallengeToken :=
  match p.Decrypt_AEAD (encryptedMessage.take c.ChallengeTokenBytes) additional nonce key with
  | none => none
  | some decryptedMessage =>
    p.readChallengeToken (decryptedMessage.take (c.ChallengeTokenBytes - c.AuthBytes))

/-- Method `Server::ResetClientState`. -/
def Server.ResetClientState (s : Server) (clientIndex : Nat) : Server :=
  { s with
    m_clientConnected := Function.update s.m_clientConnected clientIndex false,
    m_clientId := Function.update s.m_clientId clientIndex 0,
    m_clientAddress := Function.update s.m_clientAddress clientIndex Address.undefined,
    m_clientData := Function.update s.m_clientData clientIndex ServerClientData.default }

/-- The loop of the constructor: the server after `ResetClientState( i )` for
`i = 0 .. n - 1`. -/
def Server.resetClientStates (s : Server) : Nat → Server
  | 0 => s
  | i + 1 => (Server.resetClientStates s i).ResetClientState i

/-- Constructor `Server::Server`.  `raw` is the object before the constructor body runs;
the members the body does not assign (`m_serverAddress`,
`m_connectTokenEntries`) keep their value. -/
def Server.new (c : Constants) (raw : Server) : Server :=
  Server.resetClientStates
    { raw with
      m_privateKey := List.replicate c.KeyBytes 0,
      m_numConnectedClients := 0,
      m_challengeTokenNonce := 0 }
    c.MaxClients

/-- Method `Server::SendPacketToConnectedClient`. -/
def Server.SendPacketToConnectedClient (s : Server) (w : World) (clientIndex : Nat)
    (packet : Option Packet) (time : Time) : Server × World :=
  ({ s with
     m_clientData := Function.update s.m_clientData clientIndex
       { s.m_clientData clientIndex with lastPacketSendTime := time } },
   w.SendPacket (s.m_clientAddress clientIndex) packet)

/-- The loop of `Server::SendPackets` from index `i` with `fuel` iterations
left; a connected slot that is not yet due returns from the method. -/
def Server.sendPacketsLoop (c : Constants) (time : Time) :
    Nat → Nat → Server → World → Server × World
  | 0, _, s, w => (s, w)
  | fuel + 1, i, s, w =>
    if !s.m_clientConnected i then
      Server.sendPacketsLoop c time fuel (i + 1) s w
    else if addDouble (s.m_clientData i).lastPacketSendTime c.ConnectionHeartBeatRate > time then
      (s, w)
    else
      let r := w.CreatePacket PacketType.PACKET_CONNECTION_HEARTBEAT
      let sw := s.SendPacketToConnectedClient r.2 i r.1 time
      Server.sendPacketsLoop c time fuel (i + 1) sw.1 sw.2

/-- Method `Server::SendPackets`. -/
def Server.SendPackets (c : Constants) (s : Server) (w : World) (time : Time) :
    Server × World :=
  Server.sendPacketsLoop c time c.MaxClients 0 s w

/-- The loop of `Server::FindFreeClientIndex` from index `i`. -/
def Server.findFreeClientIndexLoop (s : Server) : Nat → Nat → Int
  | 0, _ => -1
  | fuel + 1, i =>
    if !s.m_clientConnected i then (i : Int)
    else Server.findFreeClientIndexLoop s fuel (i + 1)

/-- Method `Server::FindFreeClientIndex`. -/
def Server.FindFreeClientIndex (c : Constants) (s : Server) : Int :=
  Server.findFreeClientIndexLoop s c.MaxClients 0

/-- The loop of `Server::FindExistingClientIndex( address )` from index `i`. -/
def Server.findExistingByAddressLoop (s : Server) (address : Address) : Nat → Nat → Int
  | 0, _ => -1
  | fuel + 1, i =>
    if s.m_clientConnected i && decide (s.m_clientAddress i = address) then (i : Int)
    else Server.findExistingByAddressLoop s address fuel (i + 1)

/-- Method `Server::FindExistingClientIndex( address )`. -/
def Server.FindExistingClientIndex_address (c : Constants) (s : Server) (address : Address) :
    Int :=
  Server.findExistingByAddressLoop s address c.MaxClients 0

/-- The loop of `Server::FindExistingClientIndex( address, clientId )` from
index `i`. -/
def Server.findExistingByAddressAndIdLoop (s : Server) (address : Address) (clientId : Nat) :
    Nat → Nat → Int
  | 0, _ => -1
  | fuel + 1, i =>
    if decide (s.m_clientId i = clientId) && s.m_clientConnected i
        && decide (s.m_clientAddress i = address) then (i : Int)
    else Server.findExistingByAddressAndIdLoop s address clientId fuel (i + 1)

/-- Method `Server::FindExistingClientIndex( address, clientId )`. -/
def Server.FindExistingClientIndex_address_clientId (c : Constants) (s : Server)
    (address : Address) (clientId : Nat) : Int :=
  Server.findExistingByAddressAndIdLoop s address clientId c.MaxClients 0

/-- The loop of `Server::IsConnected( address, clientId )` from index `i`. -/
def Server.isConnectedLoop (s : Server) (address : Address) (clientId : Nat) :
    Nat → Nat → Bool
  | 0, _ => false
  | fuel + 1, i =>
    if !s.m_clientConnected i then Server.isConnectedLoop s address clientId fuel (i + 1)
    else if decide (s.m_clientAddress i = address) && decide (s.m_clientId i = clientId) then true
    else Server.isConnectedLoop s address clientId fuel (i + 1)

/-- Method `Server::IsConnected( address, clientId )`. -/
def Server.IsConnected_address_clientId (c : Constants) (s : Server) (address : Address)
    (clientId : Nat) : Bool :=
  Server.isConnectedLoop s address clientId c.MaxClients 0

/-- Method `Server::ConnectClient`. -/
def Server.ConnectClient (s : Server) (w : World) (clientIndex : Nat)
    (challengeToken : ChallengeToken) (time : Time) : Server × World :=
  let s1 : Server :=
    { s with
      m_numConnectedClients := s.m_numConnectedClients + 1,
      m_clientConnected := Function.update s.m_clientConnected clientIndex true,
      m_clientId := Function.update s.m_clientId clientIndex challengeToken.clientId,
      m_clientAddress :=
        Function.update s.m_clientAddress clientIndex challengeToken.clientAddress,
      m_clientData := Function.update s.m_clientData clientIndex
        { address := challengeToken.clientAddress,
          clientId := challengeToken.clientId,
          connectTime := time,
          lastPacketSendTime := time,
          lastPacketReceiveTime := time } }
  let w1 := w.fire (Event.OnClientConnect clientIndex)
  let r := w1.CreatePacket PacketType.PACKET_CONNECTION_HEARTBEAT
  match r.1 with
  | some connectionHeartBeatPacket =>
    s1.SendPacketToConnectedClient r.2 clientIndex (some connectionHeartBeatPacket) time
  | none => (s1, r.2)

/-- Method `Server::DisconnectClient`. -/
def Server.DisconnectClient (s : Server) (w : World) (clientIndex : Nat) (time : Time) :
    Server × World :=
  let w1 := w.fire (Event.OnClientDisconnect clientIndex)
  let r := w1.CreatePacket PacketType.PACKET_CONNECTION_DISCONNECT
  let sw := s.SendPacketToConnectedClient r.2 clientIndex r.1 time
  let s2 := sw.1.ResetClientState clientIndex
  ({ s2 with m_numConnectedClients := s2.m_numConnectedClients - 1 }, sw.2)

/-- The loop of `Server::CheckForTimeOut`: the state after the iterations
`i = 0 .. n - 1`. -/
def Server.checkForTimeOutLoop (time : Time) (c : Constants) (s : Server) (w : World) :
    Nat → Server × World
  | 0 => (s, w)
  | i + 1 =>
    let sw := Server.checkForTimeOutLoop time c s w i
    if !sw.1.m_clientConnected i then sw
    else if addDouble (sw.1.m_clientData i).lastPacketReceiveTime c.ConnectionTimeOut < time then
      sw.1.DisconnectClient (sw.2.fire (Event.OnClientTimedOut i)) i time
    else sw

/-- Method `Server::CheckForTimeOut`. -/
def Server.CheckForTimeOut (c : Constants) (s : Server) (w : World) (time : Time) :
    Server × World :=
  Server.checkForTimeOutLoop time c s w c.MaxClients

/-- The whitelist loop of `ProcessConnectionRequest` from index `i`. -/
def serverAddressInWhiteListLoop (serverAddress : Address) (connectToken : ConnectToken) :
    Nat → Nat → Bool
  | 0, _ => false
  | fuel + 1, i =>
    if serverAddress = connectToken.serverAddresses.getD i Address.undefined then true
    else serverAddressInWhiteListLoop serverAddress connectToken fuel (i + 1)

/-- The bytes `memcpy` reads from the 64-bit counter (little endian). -/
def nonceBytes (counter : Nat) (n : Nat) : List Nat :=
  (List.range n).map (fun k => counter / 256 ^ k % 256)

/-- Method `Server::ProcessConnectionRequest`. -/
def Server.ProcessConnectionRequest (c : Constants) (p : Primitives) (s : Server) (w : World)
    (connectTokenData connectTokenNonce : List Nat) (address : Address) (time : Time) :
    Server × World :=
  match DecryptConnectToken c p connectTokenData [] connectTokenNonce s.m_privateKey with
  | none => (s, w)
  | some connectToken =>
    if !serverAddressInWhiteListLoop s.m_serverAddress connectToken
        connectToken.numServerAddresses.toNat 0 then (s, w)
    else if connectToken.clientId = 0 then (s, w)
    else if s.IsConnected_address_clientId c address connectToken.clientId then (s, w)
    else
      let clock := w.time
      if connectToken.expiryTimestamp ≤ clock.1 then (s, clock.2)
      else
        let m := clock.2.AddEncryptionMapping address connectToken.serverToClientKey
          connectToken.clientToServerKey
        if !m.1 then (s, m.2)
        else if s.m_numConnectedClients = (c.MaxClients : Int) then
          let r := m.2.CreatePacket PacketType.PACKET_CONNECTION_DENIED
          (s, r.2.SendPacket address r.1)
        else
          let f := s.FindOrAddConnectTokenEntry c address connectTokenData time
          if !f.1 then (f.2, m.2)
          else
            let g := GenerateChallengeToken c m.2 connectToken address f.2.m_serverAddress
              connectTokenData
            match g.1 with
            | none => (f.2, g.2)
            | some challengeToken =>
              let r := g.2.CreatePacket PacketType.PACKET_CONNECTION_CHALLENGE
              match r.1 with
              | none => (f.2, r.2)
              | some _ =>
                let challengeTokenNonce := nonceBytes f.2.m_challengeTokenNonce c.NonceBytes
                match EncryptChallengeToken c p challengeToken [] challengeTokenNonce
                    f.2.m_privateKey with
                | none => (f.2, r.2)
                | some challengeTokenData =>
                  (f.2, r.2.SendPacket address
                    (some (Packet.ConnectionChallenge challengeTokenData challengeTokenNonce)))

/-- Method `Server::ProcessConnectionResponse`. -/
def Server.ProcessConnectionResponse (c : Constants) (p : Primitives) (s : Server) (w : World)
    (challengeTokenData challengeTokenNonce : List Nat) (address : Address) (time : Time) :
    Server × World :=
  match DecryptChallengeToken c p challengeTokenData [] challengeTokenNonce s.m_privateKey with
  | none => (s, w)
  | some challengeToken =>
    if challengeToken.clientAddress ≠ address then (s, w)
    else if challengeToken.serverAddress ≠ s.m_serverAddress then (s, w)
    else
      let existingClientIndex :=
        s.FindExistingClientIndex_address_clientId c address challengeToken.clientId
      if existingClientIndex ≠ -1 then
        if addDouble (s.m_clientData existingClientIndex.toNat).lastPacketSendTime
            c.ConnectionConfirmSendRate < time then
          let r := w.CreatePacket PacketType.PACKET_CONNECTION_HEARTBEAT
          match r.1 with
          | some connectionHeartBeatPacket =>
            s.SendPacketToConnectedClient r.2 existingClientIndex.toNat
              (some connectionHeartBeatPacket) time
          | none => (s, r.2)
        else (s, w)
      else if s.m_numConnectedClients = (c.MaxClients : Int) then
        let r := w.CreatePacket PacketType.PACKET_CONNECTION_DENIED
        match r.1 with
        | some connectionDeniedPacket => (s, r.2.SendPacket address (some connectionDeniedPacket))
        | none => (s, r.2)
      else
        let clientIndex := s.FindFreeClientIndex c
        if clientIndex = -1 then (s, w)
        else s.ConnectClient w clientIndex.toNat challengeToken time

/-- Method `Server::ProcessConnectionHeartBeat`. -/
def Server.ProcessConnectionHeartBeat (c : Constants) (s : Server) (w : World)
    (address : Address) (time : Time) : Server × World :=
  let clientIndex := s.FindExistingClientIndex_address c address
  if clientIndex = -1 then (s, w)
  else
    ({ s with
       m_clientData := Function.update s.m_clientData clientIndex.toNat
         { s.m_clientData clientIndex.toNat with lastPacketReceiveTime := time } }, w)

/-- Method `Server::ProcessConnectionDisconnect`. -/
def Server.ProcessConnectionDisconnect (c : Constants) (s : Server) (w : World)
    (address : Address) (time : Time) : Server × World :=
  let clientIndex := s.FindExistingClientIndex_address c address
  if clientIndex = -1 then (s, w)
  else s.DisconnectClient w clientIndex.toNat time

/-- The `switch` of `Server::ReceivePackets` for one received packet. -/
def Server.dispatch (c : Constants) (p : Primitives) (s : Server) (w : World)
    (address : Address) (packet : Packet) (time : Time) : Server × World :=
  match packet with
  | Packet.ConnectionRequest connectTokenData connectTokenNonce =>
    s.ProcessConnectionRequest c p w connectTokenData connectTokenNonce address time
  | Packet.ConnectionResponse challengeTokenData challengeTokenNonce =>
    s.ProcessConnectionResponse c p w challengeTokenData challengeTokenNonce address time
  | Packet.ConnectionHeartBeat => s.ProcessConnectionHeartBeat c w address time
  | Packet.ConnectionDisconnect => s.ProcessConnectionDisconnect c w address time
  | _ => (s, w)

/-- The `while` loop of `Server::ReceivePackets` over the packets the
transport has queued. -/
def Server.receivePacketsLoop (c : Constants) (p : Primitives) (time : Time) :
    List (Address × Packet) → Server → World → Server × World
  | [], s, w => (s, w)
  | (address, packet) :: rest, s, w =>
    let sw := s.dispatch c p w address packet time
    Server.receivePacketsLoop c p time rest sw.1 sw.2

/-- Method `Server::ReceivePackets`: every queued packet is received, dispatched
and destroyed. -/
def Server.ReceivePackets (c : Constants) (p : Primitives) (s : Server) (w : World)
    (time : Time) : Server × World :=
  Server.receivePacketsLoop c p time w.incoming s { w with incoming := [] }

/-- Server states reachable from the constructor by the three driver
methods, the world being arbitrary at every call. -/
inductive Server.Reachable (c : Constants) (p : Primitives) : Server → Prop
  | ctor (raw : Server) : Server.Reachable c p (Server.new c raw)
  | SendPackets (s : Server) (w : World) (time : Time) :
    Server.Reachable c p s → Server.Reachable c p (s.SendPackets c w time).1
  | ReceivePackets (s : Server) (w : World) (time : Time) :
    Server.Reachable c p s → Server.Reachable c p (s.ReceivePackets c p w time).1
  | CheckForTimeOut (s : Server) (w : World) (time : Time) :
    Server.Reachable c p s → Server.Reachable c p (s.CheckForTimeOut c w time).1

/-- Number of indices below `n` at which the flag array holds `true`. -/
def countConnected (connected : Nat → Bool) : Nat → Nat
  | 0 => 0
  | i + 1 => countConnected connected i + (if connected i then 1 else 0)

/-! ### Concrete inputs used by the witnesses -/

/-- Constants of the examples (`MaxClients = 4`,
`MaxConnectTokenEntries = 16` as in the end-to-end scenarios of the
specification), with small token sizes.  Rates, timeouts and the times of
the examples are small whole numbers of the unit `2^-1074`, doubles on which
the sums of the code are exact. -/
def exampleConstants : Constants :=
  { MaxClients := 4,
    MaxServersPerConnectToken := 2,
    MaxConnectTokenEntries := 16,
    ConnectTokenBytes := 64,
    ChallengeTokenBytes := 64,
    KeyBytes := 8,
    NonceBytes := 8,
    MacBytes := 16,
    AuthBytes := 16,
    ConnectTokenExpirySeconds := 10,
    ConnectionRequestSendRate := 100,
    ConnectionResponseSendRate := 100,
    ConnectionHeartBeatRate := 100,
    ConnectionConfirmSendRate := 100,
    ConnectionRequestTimeOut := 5000,
    ChallengeResponseTimeOut := 5000,
    ConnectionTimeOut := 5000 }

/-- Address of the example server. -/
def addressS : Address := Address.endpoint 1 40

/-- Address of a first client. -/
def addressA : Address := Address.endpoint 2 50

/-- Address of a second client. -/
def addressB : Address := Address.endpoint 3 50

/-- Address of a third client. -/
def addressC : Address := Address.endpoint 4 50

/-- A 16-byte mac ending in `n`. -/
def exampleMac (n : Nat) : List Nat := List.replicate 15 0 ++ [n]

/-- A cache entry that has never been written. -/
def exampleEntry : ConnectTokenEntry :=
  { time := 0, address := Address.undefined, mac := List.replicate 16 0 }

/-- The object a server is constructed over: the example server address and
a cache of never-written entries. -/
def exampleRaw : Server :=
  { m_privateKey := [],
    m_serverAddress := addressS,
    m_numConnectedClients := 0,
    m_challengeTokenNonce := 0,
    m_clientConnected := fun _ => false,
    m_clientId := fun _ => 0,
    m_clientAddress := fun _ => Address.undefined,
    m_clientData := fun _ => ServerClientData.default,
    m_connectTokenEntries := fun _ => exampleEntry }

/-- A freshly constructed example server. -/
def exampleServer : Server := Server.new exampleConstants exampleRaw

/-- The example server after the connect token with mac `exampleMac 1` has
been accepted from `addressA` at time 10. -/
def exampleServerAfterA : Server :=
  (exampleServer.FindOrAddConnectTokenEntry exampleConstants addressA (exampleMac 1) 10).2

/-- A buffer cut or zero-padded to exactly `n` bytes. -/
def fixedWidth (bytes : List Nat) (n : Nat) : List Nat :=
  (bytes ++ List.replicate (n - bytes.length) 0).take n

/-- Two bytes naming an address in the example serializer. -/
def exampleAddressBytes : Address → List Nat
  | Address.undefined => [0, 0]
  | Address.endpoint host port => [host, port]

/-- The address named by two bytes in the example serializer. -/
def exampleAddressOfBytes (host port : Nat) : Address :=
  if host = 0 then Address.undefined else Address.endpoint host port

/-- Stand-in for the AEAD and the serializers, used to run the code on
concrete packets: the ciphertext is 16 tag bytes (fifteen ones and a
checksum of the plaintext) followed by the plaintext, and a token is written field by field with fixed widths (two server
addresses, 8-byte keys, 16-byte mac). -/
def examplePrimitives : Primitives :=
  { Encrypt_AEAD := fun message _ _ _ =>
      some (List.replicate 15 1 ++ [message.sum % 256] ++ message),
    Decrypt_AEAD := fun encrypted _ _ _ =>
      if encrypted.length < 16 then none else some (encrypted.drop 16),
    writeConnectToken := fun t =>
      some ([t.protocolId, t.clientId, t.expiryTimestamp, t.numServerAddresses.toNat]
        ++ exampleAddressBytes (t.serverAddresses.getD 0 Address.undefined)
        ++ exampleAddressBytes (t.serverAddresses.getD 1 Address.undefined)
        ++ fixedWidth t.clientToServerKey 8 ++ fixedWidth t.serverToClientKey 8
        ++ fixedWidth t.random 8),
    readConnectToken := fun bytes =>
      match bytes with
      | protocolId :: clientId :: expiry :: n :: h0 :: p0 :: h1 :: p1 :: rest =>
        if rest.length < 24 then none
        else some
          { protocolId := protocolId,
            clientId := clientId,
            expiryTimestamp := expiry,
            numServerAddresses := (n : Int),
            serverAddresses := [exampleAddressOfBytes h0 p0, exampleAddressOfBytes h1 p1],
            clientToServerKey := rest.take 8,
            serverToClientKey := (rest.drop 8).take 8,
            random := (rest.drop 16).take 8 }
      | _ => none,
    writeChallengeToken := fun t =>
      some ([t.clientId] ++ exampleAddressBytes t.clientAddress
        ++ exampleAddressBytes t.serverAddress
        ++ fixedWidth t.connectTokenMac 16
        ++ fixedWidth t.clientToServerKey 8 ++ fixedWidth t.serverToClientKey 8
        ++ fixedWidth t.random 8),
    readChallengeToken := fun bytes =>
      match bytes with
      | clientId :: ch :: cp :: sh :: sp :: rest =>
        if rest.length < 40 then none
        else some
          { clientId := clientId,
            clientAddress := exampleAddressOfBytes ch cp,
            serverAddress := exampleAddressOfBytes sh sp,
            connectTokenMac := rest.take 16,
            clientToServerKey := (rest.drop 16).take 8,
            serverToClientKey := (rest.drop 24).take 8,
            random := (rest.drop 32).take 8 }
      | _ => none }

/-- A world in which every transport call succeeds, the wall clock reads 0
and the given packets are queued. -/
def exampleWorld (incoming : List (Address × Packet)) : World :=
  { incoming := incoming,
    createPacketResults := [],
    addMappingResults := [],
    wallClock := [],
    entropy := [],
    trace := [] }

/-- A connect token for the example server and a client id, valid until
second 100; `salt` fills its random field. -/
def exampleConnectToken (clientId salt : Nat) : ConnectToken :=
  { protocolId := 1,
    clientId := clientId,
    expiryTimestamp := 100,
    numServerAddresses := 1,
    serverAddresses := [addressS, Address.undefined],
    clientToServerKey := List.replicate 8 1,
    serverToClientKey := List.replicate 8 2,
    random := List.replicate 8 salt }

/-- The encrypted connect token of a `ConnectionRequest` packet. -/
def exampleConnectTokenData (clientId salt : Nat) : List Nat :=
  (EncryptConnectToken exampleConstants examplePrimitives (exampleConnectToken clientId salt) []
    (nonceBytes 0 8) exampleServer.m_privateKey).getD []

/-- A `ConnectionRequest` packet presenting an example connect token. -/
def exampleRequest (clientId salt : Nat) : Packet :=
  Packet.ConnectionRequest (exampleConnectTokenData clientId salt) (nonceBytes 0 8)

/-- What the clients do with the challenges found in a trace: each
`ConnectionChallenge` sent to an address comes back from that address as a
`ConnectionResponse` with the same token data and nonce. -/
def challengeResponses : List Event → List (Address × Packet)
  | [] => []
  | Event.SendPacket address (some (Packet.ConnectionChallenge data nonce)) :: rest =>
    (address, Packet.ConnectionResponse data nonce) :: challengeResponses rest
  | _ :: rest => challengeResponses rest

/-- The example server after the requests have been received at time 25. -/
def exampleAfterRequests (requests : List (Address × Packet)) : Server × World :=
  exampleServer.ReceivePackets exampleConstants examplePrimitives (exampleWorld requests) 25

/-- The example server after a whole handshake: the requests are received
at time 25 and the challenges it answered with are echoed back at time 26. -/
def exampleHandshake (requests : List (Address × Packet)) : Server :=
  ((exampleAfterRequests requests).1.ReceivePackets exampleConstants examplePrimitives
    (exampleWorld (challengeResponses (exampleAfterRequests requests).2.trace)) 26).1

/-- The example server after two clients holding connect tokens for the same
client id have connected from two addresses. -/
def sameIdServer : Server :=
  exampleHandshake [(addressA, exampleRequest 7 1), (addressB, exampleRequest 7 2)]

/-- The example server after two clients with different client ids have
connected from one address. -/
def sameAddressServer : Server :=
  exampleHandshake [(addressA, exampleRequest 7 1), (addressA, exampleRequest 8 2)]

/-- The example server with all four slots taken. -/
def fullServer : Server :=
  exampleHandshake [(addressA, exampleRequest 1 1), (addressA, exampleRequest 2 2),
                    (addressB, exampleRequest 3 3), (addressB, exampleRequest 4 4)]

/-- An elementary change of the slot table: a change that leaves the
connection flags, ids, addresses and count alone and touches the data of
connected slots only (`frame`), `ConnectClient` on a free slot for a pair
no connected slot holds, or `DisconnectClient` on a connected slot. -/
inductive Server.SlotStep (c : Constants) : Server → Server → Prop
  | frame (s s' : Server) :
    s'.m_clientConnected = s.m_clientConnected →
    s'.m_clientId = s.m_clientId →
    s'.m_clientAddress = s.m_clientAddress →
    s'.m_numConnectedClients = s.m_numConnectedClients →
    (∀ i, s.m_clientConnected i = false → s'.m_clientData i = s.m_clientData i) →
    Server.SlotStep c s s'
  | connect (s : Server) (w : World) (i : Nat) (challengeToken : ChallengeToken) (time : Time) :
    i < c.MaxClients →
    s.m_clientConnected i = false →
    (∀ k, k < c.MaxClients → s.m_clientConnected k = true →
      ¬ (s.m_clientAddress k = challengeToken.clientAddress ∧
         s.m_clientId k = challengeToken.clientId)) →
    s.m_numConnectedClients ≠ (c.MaxClients : Int) →
    Server.SlotStep c s (s.ConnectClient w i challengeToken time).1
  | disconnect (s : Server) (w : World) (i : Nat) (time : Time) :
    i < c.MaxClients →
    s.m_clientConnected i = true →
    Server.SlotStep c s (s.DisconnectClient w i time).1

/-- A finite sequence of elementary changes of the slot table. -/
def Server.SlotSteps (c : Constants) : Server → Server → Prop :=
  Relation.ReflTransGen (Server.SlotStep c)

/-- The nonces of the `ConnectionChallenge` packets sent in a trace. -/
def challengeNonces : List Event → List (List Nat)
  | [] => []
  | Event.SendPacket _ (some (Packet.ConnectionChallenge _ nonce)) :: rest =>
    nonce :: challengeNonces rest
  | _ :: rest => challengeNonces rest

/-- A world in which the wall clock reads 100 and every transport call
succeeds. -/
def exampleWorldAt100 : World :=
  { exampleWorld [] with wallClock := [100] }

/-- A world in which the next `CreatePacket` returns nothing. -/
def exampleWorldNoPacket : World :=
  { exampleWorld [] with createPacketResults := [false] }

/-- The token data and nonce of the first `ConnectionChallenge` sent in a
trace. -/
def firstChallenge : List Event → List Nat × List Nat
  | [] => ([], [])
  | Event.SendPacket _ (some (Packet.ConnectionChallenge data nonce)) :: _ => (data, nonce)
  | _ :: rest => firstChallenge rest

/-- The example server after it has answered the connection request of the
client at `addressA` with a challenge. -/
def pendingServer : Server :=
  (exampleAfterRequests [(addressA, exampleRequest 7 1)]).1

/-- The encrypted challenge token and nonce sent to the client at
`addressA`. -/
def challengeA : List Nat × List Nat :=
  firstChallenge (exampleAfterRequests [(addressA, exampleRequest 7 1)]).2.trace

/-- The challenge token inside `challengeA`. -/
def challengeTokenA : ChallengeToken :=
  { clientId := 7,
    clientAddress := addressA,
    serverAddress := addressS,
    connectTokenMac := (exampleConnectTokenData 7 1).take 16,
    clientToServerKey := List.replicate 8 1,
    serverToClientKey := List.replicate 8 2,
    random := List.replicate 8 0 }

/-- A world in which the next `CreatePacket` returns nothing and the given
packets are queued. -/
def exampleWorldFailing (incoming : List (Address × Packet)) : World :=
  { exampleWorld incoming with createPacketResults := [false] }

/-- The server `sameIdServer` after the client at `addressA` has repeated
its `ConnectionResponse` at time 200 and has been sent a heartbeat for it:
slot 0 was last sent to at time 200, slot 1 at time 26. -/
def staggeredServer : Server :=
  (sameIdServer.ProcessConnectionResponse exampleConstants examplePrimitives (exampleWorld [])
    challengeA.1 challengeA.2 addressA 200).1

/-- Whether `CheckForTimeOut( time )` finds slot `i` connected and timed out:
`lastPacketReceiveTime + ConnectionTimeOut < time`, the sum as the code
computes it. -/
def Server.timedOut (c : Constants) (s : Server) (time : Time) (i : Nat) : Bool :=
  s.m_clientConnected i &&
    decide (addDouble (s.m_clientData i).lastPacketReceiveTime c.ConnectionTimeOut < time)

/-- The calls that removing the timed-out slots below `n` in increasing index
order amounts to: for each such slot `OnClientTimedOut`, `OnClientDisconnect`
and a `ConnectionDisconnect` packet to the address of the slot. -/
def Server.timeOutEvents (c : Constants) (s : Server) (time : Time) : Nat → List Event
  | 0 => []
  | i + 1 =>
    Server.timeOutEvents c s time i ++
      (if s.timedOut c time i then
        [Event.OnClientTimedOut i, Event.OnClientDisconnect i,
         Event.SendPacket (s.m_clientAddress i) (some Packet.ConnectionDisconnect)]
       else [])

/-! ### The client -/

/-- Modelled from the spec: the connection states of the client (the `enum`
of the absent header), in the order in which the specification lists
them. -/
inductive ClientState
  | CLIENT_STATE_DISCONNECTED
  | CLIENT_STATE_SENDING_CONNECTION_REQUEST
  | CLIENT_STATE_SENDING_CHALLENGE_RESPONSE
  | CLIENT_STATE_CONNECTED
  | CLIENT_STATE_CONNECTION_REQUEST_TIMED_OUT
  | CLIENT_STATE_CHALLENGE_RESPONSE_TIMED_OUT
  | CLIENT_STATE_CONNECTION_TIMED_OUT
  | CLIENT_STATE_CONNECTION_DENIED
  deriving DecidableEq, Repr

/-- Modelled from the spec: the integer value of a client state, its
position in the list of states; the code compares states with `<`. -/
def ClientState.toNat : ClientState → Nat
  | ClientState.CLIENT_STATE_DISCONNECTED => 0
  | ClientState.CLIENT_STATE_SENDING_CONNECTION_REQUEST => 1
  | ClientState.CLIENT_STATE_SENDING_CHALLENGE_RESPONSE => 2
  | ClientState.CLIENT_STATE_CONNECTED => 3
  | ClientState.CLIENT_STATE_CONNECTION_REQUEST_TIMED_OUT => 4
  | ClientState.CLIENT_STATE_CHALLENGE_RESPONSE_TIMED_OUT => 5
  | ClientState.CLIENT_STATE_CONNECTION_TIMED_OUT => 6
  | ClientState.CLIENT_STATE_CONNECTION_DENIED => 7

/-- Members of `class Client`; the four buffers are arrays of
`ConnectTokenBytes`, `NonceBytes`, `ChallengeTokenBytes` and `NonceBytes`
bytes. -/
structure Client where
  m_clientState : ClientState
  m_serverAddress : Address
  m_lastPacketSendTime : Time
  m_lastPacketReceiveTime : Time
  m_clientId : Nat
  m_connectTokenData : List Nat
  m_connectTokenNonce : List Nat
  m_challengeTokenData : List Nat
  m_challengeTokenNonce : List Nat
  deriving DecidableEq, Repr

/-- The double `1.0`, one second on the clock; the code uses the literals
`1.0f` and `-1000.0`. -/
def oneSecond : Time := double 1 0

/-- Modelled from the spec: `NetworkInterface::WritePackets`, the forced
flush. -/
def World.WritePackets (w : World) (time : Time) : World :=
  { w with trace := w.trace ++ [Event.WritePackets time] }

/-- Modelled from the spec: `NetworkInterface::ResetEncryptionMappings`. -/
def World.ResetEncryptionMappings (w : World) : World :=
  { w with trace := w.trace ++ [Event.ResetEncryptionMappings] }

/-- Method `Client::ResetConnectionData`; `memset` fills a whole buffer. -/
def Client.ResetConnectionData (c : Constants) (cl : Client) (w : World) : Client × World :=
  ({ cl with
     m_serverAddress := Address.undefined,
     m_clientState := ClientState.CLIENT_STATE_DISCONNECTED,
     m_lastPacketSendTime := -1000 * oneSecond,
     m_lastPacketReceiveTime := -1000 * oneSecond,
     m_clientId := 0,
     m_connectTokenData := List.replicate c.ConnectTokenBytes 0,
     m_connectTokenNonce := List.replicate c.NonceBytes 0,
     m_challengeTokenData := List.replicate c.ChallengeTokenBytes 0,
     m_challengeTokenNonce := List.replicate c.NonceBytes 0 },
   w.ResetEncryptionMappings)

/-- Constructor `Client::Client`; `raw` is the object before the constructor
body runs. -/
def Client.new (c : Constants) (raw : Client) (w : World) : Client × World :=
  raw.ResetConnectionData c w

/-- Method `Client::SendPacketToServer`. -/
def Client.SendPacketToServer (cl : Client) (w : World) (packet : Packet) (time : Time) :
    Client × World :=
  ({ cl with m_lastPacketSendTime := time }, w.SendPacket cl.m_serverAddress (some packet))

/-- Method `Client::Disconnect`. -/
def Client.Disconnect (c : Constants) (cl : Client) (w : World) (time : Time) :
    Client × World :=
  if cl.m_clientState = ClientState.CLIENT_STATE_CONNECTED then
    let r := w.CreatePacket PacketType.PACKET_CONNECTION_DISCONNECT
    match r.1 with
    | some packet =>
      let sent := cl.SendPacketToServer r.2 packet time
      sent.1.ResetConnectionData c (sent.2.WritePackets time)
    | none => cl.ResetConnectionData c r.2
  else
    cl.ResetConnectionData c w

/-- Method `Client::Connect`; each `memcpy` fills a whole buffer from the
first bytes of its source. -/
def Client.Connect (c : Constants) (cl : Client) (w : World) (address : Address) (time : Time)
    (clientId : Nat) (connectTokenData connectTokenNonce : List Nat)
    (clientToServerKey serverToClientKey : List Nat) : Client × World :=
  let d := cl.Disconnect c w time
  let cl1 : Client :=
    { d.1 with
      m_serverAddress := address,
      m_clientState := ClientState.CLIENT_STATE_SENDING_CONNECTION_REQUEST,
      m_lastPacketSendTime := subDouble time oneSecond,
      m_lastPacketReceiveTime := time,
      m_clientId := clientId,
      m_connectTokenData := connectTokenData.take c.ConnectTokenBytes,
      m_connectTokenNonce := connectTokenNonce.take c.NonceBytes }
  (cl1, (d.2.ResetEncryptionMappings.AddEncryptionMapping address clientToServerKey
    serverToClientKey).2)

/-- Method `Client::SendPackets`. -/
def Client.SendPackets (c : Constants) (cl : Client) (w : World) (time : Time) :
    Client × World :=
  match cl.m_clientState with
  | ClientState.CLIENT_STATE_SENDING_CONNECTION_REQUEST =>
    if addDouble cl.m_lastPacketSendTime c.ConnectionRequestSendRate > time then (cl, w)
    else
      let r := w.CreatePacket PacketType.PACKET_CONNECTION_REQUEST
      match r.1 with
      | some _ =>
        cl.SendPacketToServer r.2
          (Packet.ConnectionRequest (cl.m_connectTokenData.take c.ConnectTokenBytes)
            (cl.m_connectTokenNonce.take c.NonceBytes)) time
      | none => (cl, r.2)
  | ClientState.CLIENT_STATE_SENDING_CHALLENGE_RESPONSE =>
    if addDouble cl.m_lastPacketSendTime c.ConnectionResponseSendRate > time then (cl, w)
    else
      let r := w.CreatePacket PacketType.PACKET_CONNECTION_RESPONSE
      match r.1 with
      | some _ =>
        cl.SendPacketToServer r.2
          (Packet.ConnectionResponse (cl.m_challengeTokenData.take c.ChallengeTokenBytes)
            (cl.m_challengeTokenNonce.take c.NonceBytes)) time
      | none => (cl, r.2)
  | ClientState.CLIENT_STATE_CONNECTED =>
    if addDouble cl.m_lastPacketSendTime c.ConnectionHeartBeatRate > time then (cl, w)
    else
      let r := w.CreatePacket PacketType.PACKET_CONNECTION_HEARTBEAT
      match r.1 with
      | some packet => cl.SendPacketToServer r.2 packet time
      | none => (cl, r.2)
  | _ => (cl, w)

/-- Method `Client::ProcessConnectionDenied`. -/
def Client.ProcessConnectionDenied (cl : Client) (w : World) (address : Address) :
    Client × World :=
  if cl.m_clientState ≠ ClientState.CLIENT_STATE_SENDING_CONNECTION_REQUEST then (cl, w)
  else if address ≠ cl.m_serverAddress then (cl, w)
  else ({ cl with m_clientState := ClientState.CLIENT_STATE_CONNECTION_DENIED }, w)

/-- Method `Client::ProcessConnectionChallenge`. -/
def Client.ProcessConnectionChallenge (c : Constants) (cl : Client) (w : World)
    (challengeTokenData challengeTokenNonce : List Nat) (address : Address) (time : Time) :
    Client × World :=
  if cl.m_clientState ≠ ClientState.CLIENT_STATE_SENDING_CONNECTION_REQUEST then (cl, w)
  else if address ≠ cl.m_serverAddress then (cl, w)
  else
    ({ cl with
       m_challengeTokenData := challengeTokenData.take c.ChallengeTokenBytes,
       m_challengeTokenNonce := challengeTokenNonce.take c.NonceBytes,
       m_clientState := ClientState.CLIENT_STATE_SENDING_CHALLENGE_RESPONSE,
       m_lastPacketReceiveTime := time }, w)

/-- Method `Client::ProcessConnectionHeartBeat`. -/
def Client.ProcessConnectionHeartBeat (c : Constants) (cl : Client) (w : World)
    (address : Address) (time : Time) : Client × World :=
  if cl.m_clientState.toNat < ClientState.CLIENT_STATE_SENDING_CHALLENGE_RESPONSE.toNat then
    (cl, w)
  else if address ≠ cl.m_serverAddress then (cl, w)
  else if cl.m_clientState = ClientState.CLIENT_STATE_SENDING_CHALLENGE_RESPONSE then
    ({ cl with
       m_connectTokenData := List.replicate c.ConnectTokenBytes 0,
       m_connectTokenNonce := List.replicate c.NonceBytes 0,
       m_challengeTokenData := List.replicate c.ChallengeTokenBytes 0,
       m_challengeTokenNonce := List.replicate c.NonceBytes 0,
       m_clientState := ClientState.CLIENT_STATE_CONNECTED,
       m_lastPacketReceiveTime := time }, w)
  else ({ cl with m_lastPacketReceiveTime := time }, w)

/-- Method `Client::ProcessConnectionDisconnect`. -/
def Client.ProcessConnectionDisconnect (c : Constants) (cl : Client) (w : World)
    (address : Address) (time : Time) : Client × World :=
  if cl.m_clientState ≠ ClientState.CLIENT_STATE_CONNECTED then (cl, w)
  else if address ≠ cl.m_serverAddress then (cl, w)
  else cl.Disconnect c w time

/-- The `switch` of `Client::ReceivePackets` for one received packet. -/
def Client.dispatch (c : Constants) (cl : Client) (w : World) (address : Address)
    (packet : Packet) (time : Time) : Client × World :=
  match packet with
  | Packet.ConnectionDenied => cl.ProcessConnectionDenied w address
  | Packet.ConnectionChallenge challengeTokenData challengeTokenNonce =>
    cl.ProcessConnectionChallenge c w challengeTokenData challengeTokenNonce address time
  | Packet.ConnectionHeartBeat => cl.ProcessConnectionHeartBeat c w address time
  | Packet.ConnectionDisconnect => cl.ProcessConnectionDisconnect c w address time
  | _ => (cl, w)

/-- The `while` loop of `Client::ReceivePackets` over the packets the
transport has queued. -/
def Client.receivePacketsLoop (c : Constants) (time : Time) :
    List (Address × Packet) → Client → World → Client × World
  | [], cl, w => (cl, w)
  | (address, packet) :: rest, cl, w =>
    let r := cl.dispatch c w address packet time
    Client.receivePacketsLoop c time rest r.1 r.2

/-- Method `Client::ReceivePackets`: every queued packet is received,
dispatched and destroyed. -/
def Client.ReceivePackets (c : Constants) (cl : Client) (w : World) (time : Time) :
    Client × World :=
  Client.receivePacketsLoop c time w.incoming cl { w with incoming := [] }

/-- Method `Client::CheckForTimeOut`. -/
def Client.CheckForTimeOut (c : Constants) (cl : Client) (w : World) (time : Time) :
    Client × World :=
  match cl.m_clientState with
  | ClientState.CLIENT_STATE_SENDING_CONNECTION_REQUEST =>
    if addDouble cl.m_lastPacketReceiveTime c.ConnectionRequestTimeOut < time then
      ({ cl with m_clientState := ClientState.CLIENT_STATE_CONNECTION_REQUEST_TIMED_OUT }, w)
    else (cl, w)
  | ClientState.CLIENT_STATE_SENDING_CHALLENGE_RESPONSE =>
    if addDouble cl.m_lastPacketReceiveTime c.ChallengeResponseTimeOut < time then
      ({ cl with m_clientState := ClientState.CLIENT_STATE_CHALLENGE_RESPONSE_TIMED_OUT }, w)
    else (cl, w)
  | ClientState.CLIENT_STATE_CONNECTED =>
    if addDouble cl.m_lastPacketReceiveTime c.ConnectionTimeOut < time then
      Client.Disconnect c
        { cl with m_clientState := ClientState.CLIENT_STATE_CONNECTION_TIMED_OUT } w time
    else (cl, w)
  | _ => (cl, w)

/-- Client states reachable from the constructor by `Connect`, `Disconnect`,
`SendPackets`, `ReceivePackets` and `CheckForTimeOut`, the world and the
arguments being arbitrary at every call. -/
inductive Client.Reachable (c : Constants) : Client → Prop
  | ctor (raw : Client) (w : World) : Client.Reachable c (Client.new c raw w).1
  | Connect (cl : Client) (w : World) (address : Address) (time : Time) (clientId : Nat)
      (connectTokenData connectTokenNonce clientToServerKey serverToClientKey : List Nat) :
    Client.Reachable c cl →
    Client.Reachable c (cl.Connect c w address time clientId connectTokenData
      connectTokenNonce clientToServerKey serverToClientKey).1
  | Disconnect (cl : Client) (w : World) (time : Time) :
    Client.Reachable c cl → Client.Reachable c (cl.Disconnect c w time).1
  | SendPackets (cl : Client) (w : World) (time : Time) :
    Client.Reachable c cl → Client.Reachable c (cl.SendPackets c w time).1
  | ReceivePackets (cl : Client) (w : World) (time : Time) :
    Client.Reachable c cl → Client.Reachable c (cl.ReceivePackets c w time).1
  | CheckForTimeOut (cl : Client) (w : World) (time : Time) :
    Client.Reachable c cl → Client.Reachable c (cl.CheckForTimeOut c w time).1

/-- The transition table of the specification for a packet that comes from
the stored server address: the state the client is in after the packet. -/
def clientTransition : ClientState → Packet → ClientState
  | ClientState.CLIENT_STATE_SENDING_CONNECTION_REQUEST, Packet.ConnectionDenied =>
    ClientState.CLIENT_STATE_CONNECTION_DENIED
  | ClientState.CLIENT_STATE_SENDING_CONNECTION_REQUEST, Packet.ConnectionChallenge _ _ =>
    ClientState.CLIENT_STATE_SENDING_CHALLENGE_RESPONSE
  | ClientState.CLIENT_STATE_SENDING_CHALLENGE_RESPONSE, Packet.ConnectionHeartBeat =>
    ClientState.CLIENT_STATE_CONNECTED
  | ClientState.CLIENT_STATE_CONNECTED, Packet.ConnectionDisconnect =>
    ClientState.CLIENT_STATE_DISCONNECTED
  | state, _ => state

/-- The object a client is constructed over. -/
def exampleClientRaw : Client :=
  { m_clientState := ClientState.CLIENT_STATE_CONNECTED,
    m_serverAddress := addressB,
    m_lastPacketSendTime := 3,
    m_lastPacketReceiveTime := 4,
    m_clientId := 5,
    m_connectTokenData := [6],
    m_connectTokenNonce := [7],
    m_challengeTokenData := [8],
    m_challengeTokenNonce := [9] }

/-- A freshly constructed example client. -/
def exampleClient : Client :=
  (Client.new exampleConstants exampleClientRaw (exampleWorld [])).1

/-- The example client after `Connect` at time 0 with the connect token of
client id 7 for the example server. -/
def connectingClient : Client :=
  (exampleClient.Connect exampleConstants (exampleWorld []) addressS 0 7
    (exampleConnectTokenData 7 1) (nonceBytes 0 8) (List.replicate 8 1)
    (List.replicate 8 2)).1

/-- The example client after it has received the challenge of the server at
time 10. -/
def challengedClient : Client :=
  (connectingClient.ReceivePackets exampleConstants
    (exampleWorld [(addressS, Packet.ConnectionChallenge challengeA.1 challengeA.2)]) 10).1

/-- The example client after it has received a heartbeat of the server at
time 40. -/
def connectedClient : Client :=
  (challengedClient.ReceivePackets exampleConstants
    (exampleWorld [(addressS, Packet.ConnectionHeartBeat)]) 40).1

/-- The connect-token and challenge-token buffers of the client and their
nonces hold zero bytes only. -/
def Client.buffersZero (c : Constants) (cl : Client) : Prop :=
  cl.m_connectTokenData = List.replicate c.ConnectTokenBytes 0 ∧
  cl.m_connectTokenNonce = List.replicate c.NonceBytes 0 ∧
  cl.m_challengeTokenData = List.replicate c.ChallengeTokenBytes 0 ∧
  cl.m_challengeTokenNonce = List.replicate c.NonceBytes 0

/-- The server `sameIdServer` after `CheckForTimeOut` at time 100000 has
removed both clients. -/
def timedOutServer : Server :=
  (sameIdServer.CheckForTimeOut exampleConstants (exampleWorld []) 100000).1

/-! ### Assertions on the way into `ConnectClient` -/

/-- Outcome of the assertions evaluated from `FindFreeClientIndex()` in
`ProcessConnectionResponse` to the first statement of `ConnectClient`, in the
order of evaluation: `assert( clientIndex != -1 )`,
`assert( m_numConnectedClients >= 0 )`,
`assert( m_numConnectedClients < MaxClients - 1 )` and
`assert( !m_clientConnected[clientIndex] )`. -/
structure ConnectAssertions where
  clientIndexFound : Bool
  countNotNegative : Bool
  countBelowLimit : Bool
  slotNotConnected : Bool
  deriving DecidableEq, Repr

/-- The assertions of `ProcessConnectionResponse` and `ConnectClient` for a
value of `clientIndex`, evaluated in a server state. -/
def Server.connectAssertions (c : Constants) (s : Server) (clientIndex : Int) :
    ConnectAssertions :=
  { clientIndexFound := decide (clientIndex ≠ -1),
    countNotNegative := decide (s.m_numConnectedClients ≥ 0),
    countBelowLimit := decide (s.m_numConnectedClients < (c.MaxClients : Int) - 1),
    slotNotConnected := !s.m_clientConnected clientIndex.toNat }

/-- The path of `Server::ProcessConnectionResponse` to its call of
`ConnectClient`: the assertions evaluated on that path, or `none` when the
packet takes one of the returns before `FindFreeClientIndex()`. -/
def Server.ProcessConnectionResponse_assertions (c : Constants) (p : Primitives) (s : Server)
    (challengeTokenData challengeTokenNonce : List Nat) (address : Address) :
    Option ConnectAssertions :=
  match DecryptChallengeToken c p challengeTokenData [] challengeTokenNonce s.m_privateKey with
  | none => none
  | some challengeToken =>
    if challengeToken.clientAddress ≠ address then none
    else if challengeToken.serverAddress ≠ s.m_serverAddress then none
    else
      let existingClientIndex :=
        s.FindExistingClientIndex_address_clientId c address challengeToken.clientId
      if existingClientIndex ≠ -1 then none
      else if s.m_numConnectedClients = (c.MaxClients : Int) then none
      else some (s.connectAssertions c (s.FindFreeClientIndex c))

/-- Connection requests of four clients for the four slots of the example
server. -/
def fourRequests : List (Address × Packet) :=
  [(addressA, exampleRequest 1 1), (addressA, exampleRequest 2 2),
   (addressB, exampleRequest 3 3), (addressB, exampleRequest 4 4)]

/-- The `ConnectionResponse` packets with which the four clients echo the
challenges the example server answered their requests with. -/
def fourResponses : List (Address × Packet) :=
  challengeResponses (exampleAfterRequests fourRequests).2.trace

/-- The example server after the requests of the four clients at time 25
and the responses of the first `k` of them at time 26. -/
def serverAfterResponses (k : Nat) : Server :=
  ((exampleAfterRequests fourRequests).1.ReceivePackets exampleConstants examplePrimitives
    (exampleWorld (fourResponses.take k)) 26).1

/-- The assertions evaluated when the server that has received the first `k`
responses processes the next one. -/
def nextResponseAssertions (k : Nat) : Option ConnectAssertions :=
  match fourResponses.drop k with
  | (address, Packet.ConnectionResponse challengeTokenData challengeTokenNonce) :: _ =>
    (serverAfterResponses k).ProcessConnectionResponse_assertions exampleConstants
      examplePrimitives challengeTokenData challengeTokenNonce address
  | _ => none

/-! ### What the client sends -/

/-- What the client has been handed so far: the connect token data and
nonce passed to the latest `Connect`, and the token data and nonce of the
latest challenge it has received. -/
structure ClientHistory where
  connectTokenData : List Nat
  connectTokenNonce : List Nat
  challengeTokenData : List Nat
  challengeTokenNonce : List Nat
  deriving DecidableEq, Repr

/-- The history after a packet has arrived at a client.  The received
challenge is a `ConnectionChallenge` that passes the packet filters of the
specification: it comes from the stored server address while the client is
in `SendingConnectionRequest`. -/
def ClientHistory.receive (h : ClientHistory) (cl : Client) (address : Address)
    (packet : Packet) : ClientHistory :=
  match packet with
  | Packet.ConnectionChallenge challengeTokenData challengeTokenNonce =>
    if cl.m_clientState = ClientState.CLIENT_STATE_SENDING_CONNECTION_REQUEST ∧
        address = cl.m_serverAddress then
      { h with challengeTokenData := challengeTokenData,
               challengeTokenNonce := challengeTokenNonce }
    else h
  | _ => h

/-- Client states reachable from the constructor, each with the history of
what the client has been handed on the way; `ReceivePackets` is taken one
received packet at a time. -/
inductive Client.ReachableWith (c : Constants) : Client → ClientHistory → Prop
  | ctor (raw : Client) (w : World) (h : ClientHistory) :
    Client.ReachableWith c (Client.new c raw w).1 h
  | Connect (cl : Client) (h : ClientHistory) (w : World) (address : Address) (time : Time)
      (clientId : Nat)
      (connectTokenData connectTokenNonce clientToServerKey serverToClientKey : List Nat) :
    Client.ReachableWith c cl h →
    Client.ReachableWith c
      (cl.Connect c w address time clientId connectTokenData connectTokenNonce
        clientToServerKey serverToClientKey).1
      { h with connectTokenData := connectTokenData, connectTokenNonce := connectTokenNonce }
  | Disconnect (cl : Client) (h : ClientHistory) (w : World) (time : Time) :
    Client.ReachableWith c cl h → Client.ReachableWith c (cl.Disconnect c w time).1 h
  | SendPackets (cl : Client) (h : ClientHistory) (w : World) (time : Time) :
    Client.ReachableWith c cl h → Client.ReachableWith c (cl.SendPackets c w time).1 h
  | Receive (cl : Client) (h : ClientHistory) (w : World) (address : Address)
      (packet : Packet) (time : Time) :
    Client.ReachableWith c cl h →
    Client.ReachableWith c (cl.dispatch c w address packet time).1
      (h.receive cl address packet)
  | CheckForTimeOut (cl : Client) (h : ClientHistory) (w : World) (time : Time) :
    Client.ReachableWith c cl h → Client.ReachableWith c (cl.CheckForTimeOut c w time).1 h

/-- Runs of the server from a state `s`, one received packet, one
`SendPackets` or one `CheckForTimeOut` at a time, worlds and packets being
arbitrary, in which no call is made at a time before `t0`: the clock does
not go back behind `t0`. -/
inductive Server.RunsFrom (c : Constants) (p : Primitives) (t0 : Time) (s : Server) :
    Server → Prop
  | refl : Server.RunsFrom c p t0 s s
  | Receive (s' : Server) (w : World) (address : Address) (packet : Packet) (time : Time) :
    Server.RunsFrom c p t0 s s' → t0 ≤ time →
    Server.RunsFrom c p t0 s (s'.dispatch c p w address packet time).1
  | SendPackets (s' : Server) (w : World) (time : Time) :
    Server.RunsFrom c p t0 s s' → t0 ≤ time →
    Server.RunsFrom c p t0 s (s'.SendPackets c w time).1
  | CheckForTimeOut (s' : Server) (w : World) (time : Time) :
    Server.RunsFrom c p t0 s s' → t0 ≤ time →
    Server.RunsFrom c p t0 s (s'.CheckForTimeOut c w time).1

/-- An elementary action of the server at a time: a write to the
connect-token cache, `SendPacketToConnectedClient`, the store of
`lastPacketReceiveTime`, `ConnectClient` or `DisconnectClient`. -/
inductive Server.Action (time : Time) : Server → Server → Prop
  | cache (s : Server) (e : Nat → ConnectTokenEntry) :
    Server.Action time s { s with m_connectTokenEntries := e }
  | send (s : Server) (w : World) (i : Nat) (packet : Option Packet) :
    Server.Action time s (s.SendPacketToConnectedClient w i packet time).1
  | receive (s : Server) (i : Nat) :
    Server.Action time s
      { s with
        m_clientData := Function.update s.m_clientData i
          { s.m_clientData i with lastPacketReceiveTime := time } }
  | connect (s : Server) (w : World) (i : Nat) (challengeToken : ChallengeToken) :
    Server.Action time s (s.ConnectClient w i challengeToken time).1
  | disconnect (s : Server) (w : World) (i : Nat) :
    Server.Action time s (s.DisconnectClient w i time).1

/-- A finite sequence of elementary actions at one time. -/
def Server.Actions (time : Time) : Server → Server → Prop :=
  Relation.ReflTransGen (Server.Action time)

/-- Every connected slot below `MaxClients` that holds the pair
`(address, clientId)` was last sent to at `t0` or later. -/
def Server.sentSince (c : Constants) (s : Server) (address : Address) (clientId : Nat)
    (t0 : Time) : Prop :=
  ∀ j, j < c.MaxClients → s.m_clientConnected j = true → s.m_clientAddress j = address →
    s.m_clientId j = clientId → t0 ≤ (s.m_clientData j).lastPacketSendTime

/-! ### Examples in seconds -/

/-- The example constants with the rates and timeouts of the end-to-end
scenarios of the specification, in seconds: the doubles `0.1` and `5.0`. -/
def scenarioConstants : Constants :=
  { exampleConstants with
    ConnectionRequestSendRate := double 3602879701896397 (-55),
    ConnectionResponseSendRate := double 3602879701896397 (-55),
    ConnectionHeartBeatRate := double 3602879701896397 (-55),
    ConnectionConfirmSendRate := double 3602879701896397 (-55),
    ConnectionRequestTimeOut := double 5 0,
    ChallengeResponseTimeOut := double 5 0,
    ConnectionTimeOut := double 5 0 }

/-- The connected example client, last sent from at time `0.05`. -/
def clientSentAt005 : Client :=
  { connectedClient with m_lastPacketSendTime := double 3602879701896397 (-56) }

/-- The connecting example client, last received at time `0.238`. -/
def clientReceivedAt0238 : Client :=
  { connectingClient with m_lastPacketReceiveTime := double 535928355657089 (-51) }

/-- The server `sameIdServer` after a heartbeat of the client at `addressA`
at time `0.238`: slot 0 was last received from at `0.238`. -/
def serverReceivedAt0238 : Server :=
  (sameIdServer.ProcessConnectionHeartBeat exampleConstants (exampleWorld []) addressA
    (double 535928355657089 (-51))).1

/-- The server `sameIdServer` after `SendPackets` at time `0.7`: both slots
were last sent to at `0.7`. -/
def serverSentAt07 : Server :=
  (sameIdServer.SendPackets exampleConstants (exampleWorld []) (double 3152519739159347 (-52))).1

/-- The example constants with `ConnectionConfirmSendRate` the double
`1.591189252259491`. -/
def windowConstants : Constants :=
  { exampleConstants with ConnectionConfirmSendRate := double 3583039661775891 (-51) }

/-- The example server after the handshake of the client at `addressA` at
time `-5.0`: slot 0 holds the client, last sent to at `-5.0`. -/
def earlyServer : Server :=
  ((exampleServer.ReceivePackets windowConstants examplePrimitives
      (exampleWorld [(addressA, exampleRequest 7 1)]) (double (-5) 0)).1.ReceivePackets
    windowConstants examplePrimitives
    (exampleWorld [(addressA, Packet.ConnectionResponse challengeA.1 challengeA.2)])
    (double (-5) 0)).1

/-- The server `earlyServer` after the client has repeated its
`ConnectionResponse` at time `0.064778242228957`. -/
def earlyServerAfterRetransmit : Server :=
  (earlyServer.ProcessConnectionResponse windowConstants examplePrimitives (exampleWorld [])
    challengeA.1 challengeA.2 addressA (double 583470535128093 (-53))).1

/-! ## Theorems -/

set_option maxRecDepth 100000

/-! ### Rounding to a double -/

theorem bitLengthLoop_le_iff : ∀ fuel n k, n ≤ fuel →
    (bitLengthLoop fuel n ≤ k ↔ n < 2 ^ k) := by
  intro fuel
  induction fuel with
  | zero =>
    intro n k hn
    have h0 : n = 0 := by omega
    subst h0
    simp [bitLengthLoop]
  | succ fuel ih =>
    intro n k hn
    by_cases h0 : n = 0
    · subst h0
      simp [bitLengthLoop]
    · rw [bitLengthLoop, if_neg h0]
      have hhalf : n / 2 ≤ fuel := by omega
      cases k with
      | zero =>
        simp only [pow_zero, Nat.lt_one_iff]
        constructor
        · intro h; omega
        · intro h; exact absurd h h0
      | succ k =>
        rw [Nat.succ_le_succ_iff, ih (n / 2) k hhalf, pow_succ]
        omega

theorem bitLength_le_iff (n k : Nat) : bitLength n ≤ k ↔ n < 2 ^ k :=
  bitLengthLoop_le_iff n n k (le_refl n)

theorem lt_pow_bitLength (n : Nat) : n < 2 ^ bitLength n :=
  (bitLength_le_iff n (bitLength n)).mp (le_refl _)

theorem pow_le_of_lt_bitLength (n k : Nat) (h : k < bitLength n) : 2 ^ k ≤ n := by
  by_contra hlt
  have := (bitLength_le_iff n k).mpr (not_le.mp hlt)
  omega

theorem bitLength_mono (m n : Nat) (h : m ≤ n) : bitLength m ≤ bitLength n :=
  (bitLength_le_iff m (bitLength n)).mpr (lt_of_le_of_lt h (lt_pow_bitLength n))

/-- What `roundNat` does when bits are dropped: with `s = bitLength n - 53`
positive, the result is the multiple of `2^s` just below `n` or the next
one, and it is `n` itself when `n` is such a multiple. -/
theorem roundNat_spec (n : Nat) (h : 0 < bitLength n - 53) :
    (roundNat n = n / 2 ^ (bitLength n - 53) * 2 ^ (bitLength n - 53) ∨
     roundNat n = (n / 2 ^ (bitLength n - 53) + 1) * 2 ^ (bitLength n - 53)) ∧
    (n % 2 ^ (bitLength n - 53) = 0 → roundNat n = n) := by
  have hne : ¬ bitLength n - 53 = 0 := by omega
  have hdm := Nat.div_add_mod n (2 ^ (bitLength n - 53))
  have hrem : n - n / 2 ^ (bitLength n - 53) * 2 ^ (bitLength n - 53)
      = n % 2 ^ (bitLength n - 53) := by
    rw [Nat.mul_comm]
    omega
  constructor
  · unfold roundNat
    simp only [hne, if_false, Nat.shiftRight_eq_div_pow, Nat.shiftLeft_eq]
    split_ifs
    · exact Or.inr rfl
    · exact Or.inl rfl
  · intro hmod
    unfold roundNat
    simp only [hne, if_false, Nat.shiftRight_eq_div_pow, Nat.shiftLeft_eq, hrem, hmod,
      one_mul]
    have hpos : 0 < 2 ^ (bitLength n - 53 - 1) := Nat.two_pow_pos _
    rw [if_neg]
    · rw [Nat.mul_comm]
      omega
    · rintro (h1 | ⟨h1, _⟩)
      · omega
      · omega

theorem roundNat_of_small (n : Nat) (h : bitLength n - 53 = 0) : roundNat n = n := by
  unfold roundNat
  simp only [h, if_true]

theorem roundNat_dvd (n : Nat) (h : 0 < bitLength n - 53) (hfix : roundNat n = n) :
    n % 2 ^ (bitLength n - 53) = 0 := by
  rcases (roundNat_spec n h).1 with h1 | h1
  · rw [hfix] at h1
    have h2 := Nat.mul_mod_left (n / 2 ^ (bitLength n - 53)) (2 ^ (bitLength n - 53))
    rw [← h1] at h2
    exact h2
  · rw [hfix] at h1
    have h2 := Nat.mul_mod_left (n / 2 ^ (bitLength n - 53) + 1) (2 ^ (bitLength n - 53))
    rw [← h1] at h2
    exact h2

/-- Rounding does not pass a double: a double below `x` is not above the
rounded `x`. -/
theorem le_roundNat (x y : Nat) (hxy : y ≤ x) (hy : roundNat y = y) : y ≤ roundNat x := by
  by_cases hx : bitLength x - 53 = 0
  · rw [roundNat_of_small x hx]
    exact hxy
  · have hxpos : 0 < bitLength x - 53 := Nat.pos_of_ne_zero hx
    have hfloor : x / 2 ^ (bitLength x - 53) * 2 ^ (bitLength x - 53) ≤ roundNat x := by
      rcases (roundNat_spec x hxpos).1 with h1 | h1
      · rw [h1]
      · rw [h1]
        exact Nat.mul_le_mul_right _ (Nat.le_succ _)
    refine le_trans ?_ hfloor
    have hmono := bitLength_mono y x hxy
    have hpos : 0 < 2 ^ (bitLength x - 53) := Nat.two_pow_pos _
    by_cases hsame : bitLength y = bitLength x
    · have hdvd := roundNat_dvd y (by rw [hsame]; exact hxpos) hy
      rw [hsame] at hdvd
      have hy' : y = y / 2 ^ (bitLength x - 53) * 2 ^ (bitLength x - 53) := by
        have := Nat.div_add_mod y (2 ^ (bitLength x - 53))
        rw [hdvd, Nat.add_zero, Nat.mul_comm] at this
        exact this.symm
      rw [hy']
      exact Nat.mul_le_mul_right _ (Nat.div_le_div_right hxy)
    · have hlt : bitLength y ≤ bitLength x - 1 := by omega
      have hy2 : y < 2 ^ (bitLength x - 1) := (bitLength_le_iff y _).mp hlt
      have hx2 : 2 ^ (bitLength x - 1) ≤ x := pow_le_of_lt_bitLength x _ (by omega)
      have hsplit : 2 ^ (bitLength x - 1)
          = 2 ^ 52 * 2 ^ (bitLength x - 53) := by
        rw [← pow_add]
        congr 1
        omega
      have hq : 2 ^ 52 ≤ x / 2 ^ (bitLength x - 53) := by
        rw [Nat.le_div_iff_mul_le hpos, ← hsplit]
        exact hx2
      calc y ≤ 2 ^ (bitLength x - 1) := le_of_lt hy2
        _ = 2 ^ 52 * 2 ^ (bitLength x - 53) := hsplit
        _ ≤ x / 2 ^ (bitLength x - 53) * 2 ^ (bitLength x - 53) :=
          Nat.mul_le_mul_right _ hq

/-- Rounding does not pass a double: a double above `x` is not below the
rounded `x`. -/
theorem roundNat_le (x y : Nat) (hxy : x ≤ y) (hy : roundNat y = y) : roundNat x ≤ y := by
  by_cases hx : bitLength x - 53 = 0
  · rw [roundNat_of_small x hx]
    exact hxy
  · have hxpos : 0 < bitLength x - 53 := Nat.pos_of_ne_zero hx
    have hpos : 0 < 2 ^ (bitLength x - 53) := Nat.two_pow_pos _
    have hmono := bitLength_mono x y hxy
    by_cases hmod : x % 2 ^ (bitLength x - 53) = 0
    · rw [(roundNat_spec x hxpos).2 hmod]
      exact hxy
    · have hceil : roundNat x
          ≤ (x / 2 ^ (bitLength x - 53) + 1) * 2 ^ (bitLength x - 53) := by
        rcases (roundNat_spec x hxpos).1 with h1 | h1
        · rw [h1]
          exact Nat.mul_le_mul_right _ (Nat.le_succ _)
        · rw [h1]
      refine le_trans hceil ?_
      by_cases hsame : bitLength y = bitLength x
      · have hdvd := roundNat_dvd y (by rw [hsame]; exact hxpos) hy
        rw [hsame] at hdvd
        have hy' : y = y / 2 ^ (bitLength x - 53) * 2 ^ (bitLength x - 53) := by
          have := Nat.div_add_mod y (2 ^ (bitLength x - 53))
          rw [hdvd, Nat.add_zero, Nat.mul_comm] at this
          exact this.symm
        have hlt : x / 2 ^ (bitLength x - 53) < y / 2 ^ (bitLength x - 53) := by
          by_contra hge
          have hle : y / 2 ^ (bitLength x - 53) ≤ x / 2 ^ (bitLength x - 53) := not_lt.mp hge
          have h1 : y ≤ x / 2 ^ (bitLength x - 53) * 2 ^ (bitLength x - 53) :=
            calc y = y / 2 ^ (bitLength x - 53) * 2 ^ (bitLength x - 53) := hy'
              _ ≤ x / 2 ^ (bitLength x - 53) * 2 ^ (bitLength x - 53) :=
                Nat.mul_le_mul_right _ hle
          have h2 := Nat.div_add_mod x (2 ^ (bitLength x - 53))
          have h3 : 0 < x % 2 ^ (bitLength x - 53) := Nat.pos_of_ne_zero hmod
          rw [Nat.mul_comm] at h2
          omega
        rw [hy']
        exact Nat.mul_le_mul_right _ hlt
      · have hgt : bitLength x < bitLength y := by omega
        have hy2 : 2 ^ bitLength x ≤ y := pow_le_of_lt_bitLength y _ hgt
        have hx2 : x < 2 ^ bitLength x := lt_pow_bitLength x
        have hsplit : 2 ^ bitLength x = 2 ^ 53 * 2 ^ (bitLength x - 53) := by
          rw [← pow_add]
          congr 1
          omega
        have hq : x / 2 ^ (bitLength x - 53) < 2 ^ 53 := by
          rw [Nat.div_lt_iff_lt_mul hpos, ← hsplit]
          exact hx2
        calc (x / 2 ^ (bitLength x - 53) + 1) * 2 ^ (bitLength x - 53)
            ≤ 2 ^ 53 * 2 ^ (bitLength x - 53) := Nat.mul_le_mul_right _ hq
          _ = 2 ^ bitLength x := hsplit.symm
          _ ≤ y := hy2

theorem roundNat_zero : roundNat 0 = 0 := by decide

/-- Rounding does not pass a double: if `y` is a double and `y <= x`, then
`y <= roundDouble x`. -/
theorem le_roundDouble (x y : Int) (hxy : y ≤ x) (hy : roundDouble y = y) :
    y ≤ roundDouble x := by
  unfold roundDouble at hy ⊢
  by_cases hx : x < 0
  · have hyneg : y < 0 := lt_of_le_of_lt hxy hx
    rw [if_pos hyneg] at hy
    rw [if_pos hx]
    have hyfix : roundNat y.natAbs = y.natAbs := by omega
    have habs : x.natAbs ≤ y.natAbs := by omega
    have := roundNat_le x.natAbs y.natAbs habs hyfix
    omega
  · rw [if_neg hx]
    by_cases hyneg : y < 0
    · have : (0 : Int) ≤ ((roundNat x.natAbs : Nat) : Int) := Int.ofNat_nonneg _
      omega
    · rw [if_neg hyneg] at hy
      have hyfix : roundNat y.natAbs = y.natAbs := by omega
      have habs : y.natAbs ≤ x.natAbs := by omega
      have := le_roundNat x.natAbs y.natAbs habs hyfix
      omega

/-- Rounding does not pass a double: if `y` is a double and `x <= y`, then
`roundDouble x <= y`. -/
theorem roundDouble_le (x y : Int) (hxy : x ≤ y) (hy : roundDouble y = y) :
    roundDouble x ≤ y := by
  unfold roundDouble at hy ⊢
  by_cases hx : x < 0
  · rw [if_pos hx]
    by_cases hyneg : y < 0
    · rw [if_pos hyneg] at hy
      have hyfix : roundNat y.natAbs = y.natAbs := by omega
      have habs : y.natAbs ≤ x.natAbs := by omega
      have := le_roundNat x.natAbs y.natAbs habs hyfix
      omega
    · have : (0 : Int) ≤ ((roundNat x.natAbs : Nat) : Int) := Int.ofNat_nonneg _
      omega
  · have hyneg : ¬ y < 0 := by omega
    rw [if_neg hyneg] at hy
    rw [if_neg hx]
    have hyfix : roundNat y.natAbs = y.natAbs := by omega
    have habs : x.natAbs ≤ y.natAbs := by omega
    have := roundNat_le x.natAbs y.natAbs habs hyfix
    omega

/-- The sum of two doubles is monotone in its first argument when the
result of the smaller sum is compared with a double. -/
theorem le_addDouble (a b y : Time) (h : y ≤ a + b) (hy : roundDouble y = y) :
    y ≤ addDouble a b :=
  le_roundDouble (a + b) y h hy

/-! ### The scan of the connect-token cache -/

theorem memcmpEq_take_self (m : List Nat) (n : Nat) : memcmpEq m (m.take n) n = true := by
  simp [memcmpEq, List.take_take]

theorem scan_succ_matching (c : Constants) (s : Server) (mac : List Nat) (n : Nat) :
    (s.scanConnectTokenEntries c mac (n + 1)).matchingTokenIndex =
      if memcmpEq mac (s.m_connectTokenEntries n).mac c.MacBytes = true then (n : Int)
      else (s.scanConnectTokenEntries c mac n).matchingTokenIndex := by
  simp only [Server.scanConnectTokenEntries]
  split_ifs <;> rfl

theorem scan_succ_oldestIndex (c : Constants) (s : Server) (mac : List Nat) (n : Nat) :
    (s.scanConnectTokenEntries c mac (n + 1)).oldestTokenIndex =
      if (s.scanConnectTokenEntries c mac n).oldestTokenIndex = -1 ∨
          (s.scanConnectTokenEntries c mac n).oldestTokenTime < (s.m_connectTokenEntries n).time
      then (n : Int) else (s.scanConnectTokenEntries c mac n).oldestTokenIndex := by
  simp only [Server.scanConnectTokenEntries]
  split_ifs <;> rfl

theorem scan_succ_oldestTime (c : Constants) (s : Server) (mac : List Nat) (n : Nat) :
    (s.scanConnectTokenEntries c mac (n + 1)).oldestTokenTime =
      if (s.scanConnectTokenEntries c mac n).oldestTokenIndex = -1 ∨
          (s.scanConnectTokenEntries c mac n).oldestTokenTime < (s.m_connectTokenEntries n).time
      then (s.m_connectTokenEntries n).time
      else (s.scanConnectTokenEntries c mac n).oldestTokenTime := by
  simp only [Server.scanConnectTokenEntries]
  split_ifs <;> rfl

theorem scan_matching_none (c : Constants) (s : Server) (mac : List Nat) :
    ∀ n, (∀ i, i < n → memcmpEq mac (s.m_connectTokenEntries i).mac c.MacBytes = false) →
      (s.scanConnectTokenEntries c mac n).matchingTokenIndex = -1 := by
  intro n
  induction n with
  | zero => intro _; rfl
  | succ n ih =>
    intro h
    have h1 := ih (fun i hi => h i (Nat.lt_succ_of_lt hi))
    have h2 := h n (Nat.lt_succ_self n)
    rw [scan_succ_matching, h2, h1]
    simp

theorem scan_matching_last (c : Constants) (s : Server) (mac : List Nat) (k : Nat)
    (hk : memcmpEq mac (s.m_connectTokenEntries k).mac c.MacBytes = true) :
    ∀ n, k < n →
      (∀ j, k < j → j < n → memcmpEq mac (s.m_connectTokenEntries j).mac c.MacBytes = false) →
      (s.scanConnectTokenEntries c mac n).matchingTokenIndex = (k : Int) := by
  intro n
  induction n with
  | zero => intro h; omega
  | succ n ih =>
    intro hkn h
    rcases Nat.lt_succ_iff_lt_or_eq.mp hkn with hlt | heq
    · have h1 := ih hlt (fun j hj hjn => h j hj (Nat.lt_succ_of_lt hjn))
      have h2 := h n hlt (Nat.lt_succ_self n)
      rw [scan_succ_matching, h2, h1]
      simp
    · subst heq
      rw [scan_succ_matching, hk]
      simp

theorem scan_oldest (c : Constants) (s : Server) (mac : List Nat) :
    ∀ n, 0 < n → ∃ k, k < n ∧
      (s.scanConnectTokenEntries c mac n).oldestTokenIndex = (k : Int) ∧
      (s.scanConnectTokenEntries c mac n).oldestTokenTime = (s.m_connectTokenEntries k).time ∧
      (∀ j, j < n → (s.m_connectTokenEntries j).time ≤ (s.m_connectTokenEntries k).time) ∧
      (∀ j, j < k → (s.m_connectTokenEntries j).time < (s.m_connectTokenEntries k).time) := by
  intro n
  induction n with
  | zero => intro h; omega
  | succ n ih =>
    intro _
    rcases Nat.eq_zero_or_pos n with h0 | hpos
    · subst h0
      have hinit : (s.scanConnectTokenEntries c mac 0).oldestTokenIndex = -1 := rfl
      refine ⟨0, Nat.lt_succ_self 0, ?_, ?_, ?_, ?_⟩
      · rw [scan_succ_oldestIndex, if_pos (Or.inl hinit)]
      · rw [scan_succ_oldestTime, if_pos (Or.inl hinit)]
      · intro j hj
        have : j = 0 := by omega
        subst this; exact le_refl _
      · intro j hj; omega
    · obtain ⟨k, hk, hi, ht, hmax, hfirst⟩ := ih hpos
      have hne : (s.scanConnectTokenEntries c mac n).oldestTokenIndex ≠ -1 := by
        rw [hi]; omega
      by_cases hlt : (s.m_connectTokenEntries k).time < (s.m_connectTokenEntries n).time
      · have hcond : (s.scanConnectTokenEntries c mac n).oldestTokenIndex = -1 ∨
            (s.scanConnectTokenEntries c mac n).oldestTokenTime
              < (s.m_connectTokenEntries n).time := Or.inr (by rw [ht]; exact hlt)
        refine ⟨n, Nat.lt_succ_self n, ?_, ?_, ?_, ?_⟩
        · rw [scan_succ_oldestIndex, if_pos hcond]
        · rw [scan_succ_oldestTime, if_pos hcond]
        · intro j hj
          rcases Nat.lt_succ_iff_lt_or_eq.mp hj with hjn | hjn
          · exact le_trans (hmax j hjn) (le_of_lt hlt)
          · subst hjn; exact le_refl _
        · intro j hj
          exact lt_of_le_of_lt (hmax j hj) hlt
      · have hcond : ¬ ((s.scanConnectTokenEntries c mac n).oldestTokenIndex = -1 ∨
            (s.scanConnectTokenEntries c mac n).oldestTokenTime
              < (s.m_connectTokenEntries n).time) := by
          rintro (h | h)
          · exact hne h
          · rw [ht] at h; exact hlt h
        refine ⟨k, Nat.lt_succ_of_lt hk, ?_, ?_, ?_, hfirst⟩
        · rw [scan_succ_oldestIndex, if_neg hcond, hi]
        · rw [scan_succ_oldestTime, if_neg hcond, ht]
        · intro j hj
          rcases Nat.lt_succ_iff_lt_or_eq.mp hj with hjn | hjn
          · exact hmax j hjn
          · subst hjn; exact not_lt.mp hlt

/-! ### `FindOrAddConnectTokenEntry` -/

theorem writeAt_natCast {α : Type} (array : Nat → α) (k : Nat) (value : α) :
    writeAt array (k : Int) value = Function.update array k value := by
  simp [writeAt]

theorem findOrAdd_of_match (c : Constants) (s : Server) (address : Address)
    (mac : List Nat) (time : Time) (k : Nat) (hk : k < c.MaxConnectTokenEntries)
    (hmatch : memcmpEq mac (s.m_connectTokenEntries k).mac c.MacBytes = true)
    (hlast : ∀ j, j < c.MaxConnectTokenEntries → k < j →
      memcmpEq mac (s.m_connectTokenEntries j).mac c.MacBytes = false) :
    s.FindOrAddConnectTokenEntry c address mac time
      = (decide ((s.m_connectTokenEntries k).address = address), s) := by
  have hm := scan_matching_last c s mac k hmatch c.MaxConnectTokenEntries hk
    (fun j hj hjn => hlast j hjn hj)
  have hne : ((k : Int) = -1) = False := by
    apply propext; constructor
    · intro h; omega
    · intro h; exact h.elim
  simp only [Server.FindOrAddConnectTokenEntry, hm, hne, if_false, Int.toNat_ofNat]
  by_cases ha : (s.m_connectTokenEntries k).address = address
  · simp [ha]
  · simp [ha]

/-- C7: when some entry of the cache has the supplied mac, and `k` is the
highest index of such an entry, `FindOrAddConnectTokenEntry` leaves the
server (and so the whole cache) unchanged and returns true exactly when the
address stored in entry `k` is the supplied address. -/
theorem FindOrAddConnectTokenEntry_matching (c : Constants) (s : Server) (address : Address)
    (mac : List Nat) (time : Time) (k : Nat) (hk : k < c.MaxConnectTokenEntries)
    (hmatch : memcmpEq mac (s.m_connectTokenEntries k).mac c.MacBytes = true)
    (hlast : ∀ j, j < c.MaxConnectTokenEntries → k < j →
      memcmpEq mac (s.m_connectTokenEntries j).mac c.MacBytes = false) :
    s.FindOrAddConnectTokenEntry c address mac time
      = (decide ((s.m_connectTokenEntries k).address = address), s) := by
  have hscan : (s.scanConnectTokenEntries c mac c.MaxConnectTokenEntries).matchingTokenIndex
      = (k : Int) :=
    scan_matching_last c s mac k hmatch c.MaxConnectTokenEntries hk
      (fun j hj hjn => hlast j hjn hj)
  have hne : ¬ ((k : Int) = -1) := by omega
  unfold Server.FindOrAddConnectTokenEntry
  simp only [hscan, if_neg hne, Int.toNat_ofNat]
  by_cases ha : (s.m_connectTokenEntries k).address = address
  · rw [if_pos ha, decide_eq_true ha]
  · rw [if_neg ha, decide_eq_false ha]

theorem FindOrAddConnectTokenEntry_matching_witness :
    exampleServerAfterA.FindOrAddConnectTokenEntry exampleConstants addressC (exampleMac 1) 30
      = (decide ((exampleServerAfterA.m_connectTokenEntries 0).address = addressC),
         exampleServerAfterA) :=
  FindOrAddConnectTokenEntry_matching exampleConstants exampleServerAfterA addressC
    (exampleMac 1) 30 0 (by decide) (by decide) (by decide)

theorem findOrAdd_of_no_match (c : Constants) (s : Server) (address : Address)
    (mac : List Nat) (time : Time) (hpos : 0 < c.MaxConnectTokenEntries)
    (hnone : ∀ i, i < c.MaxConnectTokenEntries →
      memcmpEq mac (s.m_connectTokenEntries i).mac c.MacBytes = false) :
    ∃ k, k < c.MaxConnectTokenEntries ∧
      (∀ j, j < c.MaxConnectTokenEntries →
        (s.m_connectTokenEntries j).time ≤ (s.m_connectTokenEntries k).time) ∧
      (∀ j, j < k → (s.m_connectTokenEntries j).time < (s.m_connectTokenEntries k).time) ∧
      (s.FindOrAddConnectTokenEntry c address mac time).1 = true ∧
      (s.FindOrAddConnectTokenEntry c address mac time).2.m_connectTokenEntries k
        = { time := time, address := address, mac := mac.take c.MacBytes } ∧
      (s.FindOrAddConnectTokenEntry c address mac time).2.m_connectTokenEntries k
        ≠ s.m_connectTokenEntries k ∧
      (∀ j, j ≠ k →
        (s.FindOrAddConnectTokenEntry c address mac time).2.m_connectTokenEntries j
          = s.m_connectTokenEntries j) := by
  obtain ⟨k, hk, hi, _, hmax, hfirst⟩ := scan_oldest c s mac c.MaxConnectTokenEntries hpos
  have hm := scan_matching_none c s mac c.MaxConnectTokenEntries hnone
  have hentry : (s.FindOrAddConnectTokenEntry c address mac time).2.m_connectTokenEntries k
      = { time := time, address := address, mac := mac.take c.MacBytes } := by
    simp [Server.FindOrAddConnectTokenEntry, hm, hi, writeAt_natCast]
  refine ⟨k, hk, hmax, hfirst, ?_, hentry, ?_, ?_⟩
  · simp [Server.FindOrAddConnectTokenEntry, hm]
  · rw [hentry]
    intro heq
    have h1 := hnone k hk
    rw [← heq] at h1
    rw [memcmpEq_take_self] at h1
    exact Bool.noConfusion h1
  · intro j hj
    simp [Server.FindOrAddConnectTokenEntry, hm, hi, writeAt_natCast, Function.update_noteq hj]

/-- C6: when no entry of the cache has the supplied mac,
`FindOrAddConnectTokenEntry` returns true and writes exactly one entry, the
lowest-index entry among those with the largest stored time: that entry
becomes `(time, address, mac)` (the `MacBytes` bytes at `mac`) and every
other entry is unchanged. -/
theorem FindOrAddConnectTokenEntry_no_match (c : Constants) (s : Server) (address : Address)
    (mac : List Nat) (time : Time) (hpos : 0 < c.MaxConnectTokenEntries)
    (hnone : ∀ i, i < c.MaxConnectTokenEntries →
      memcmpEq mac (s.m_connectTokenEntries i).mac c.MacBytes = false) :
    ∃ k, k < c.MaxConnectTokenEntries ∧
      (∀ j, j < c.MaxConnectTokenEntries →
        (s.m_connectTokenEntries j).time ≤ (s.m_connectTokenEntries k).time) ∧
      (∀ j, j < k → (s.m_connectTokenEntries j).time < (s.m_connectTokenEntries k).time) ∧
      (s.FindOrAddConnectTokenEntry c address mac time).1 = true ∧
      (s.FindOrAddConnectTokenEntry c address mac time).2.m_connectTokenEntries k
        = { time := time, address := address, mac := mac.take c.MacBytes } ∧
      (s.FindOrAddConnectTokenEntry c address mac time).2.m_connectTokenEntries k
        ≠ s.m_connectTokenEntries k ∧
      (∀ j, j ≠ k →
        (s.FindOrAddConnectTokenEntry c address mac time).2.m_connectTokenEntries j
          = s.m_connectTokenEntries j) := by
  obtain ⟨k, hk, hindex, _, hmax, hlowest⟩ :=
    scan_oldest c s mac c.MaxConnectTokenEntries hpos
  have hnomatch := scan_matching_none c s mac c.MaxConnectTokenEntries hnone
  have hresult : s.FindOrAddConnectTokenEntry c address mac time
      = (true, { s with
          m_connectTokenEntries := writeAt s.m_connectTokenEntries (k : Int)
            (ConnectTokenEntry.mk time address (mac.take c.MacBytes)) }) := by
    unfold Server.FindOrAddConnectTokenEntry
    simp only [hnomatch, if_true, hindex]
  rw [hresult, writeAt_natCast]
  refine ⟨k, hk, hmax, hlowest, rfl, Function.update_same _ _ _, ?_, ?_⟩
  · intro heq
    have hold := hnone k hk
    rw [← heq] at hold
    simp only [Function.update_same] at hold
    rw [memcmpEq_take_self] at hold
    exact Bool.noConfusion hold
  · intro j hj
    exact Function.update_noteq hj _ _

theorem FindOrAddConnectTokenEntry_no_match_witness :
    ∃ k, k < exampleConstants.MaxConnectTokenEntries ∧
      (∀ j, j < exampleConstants.MaxConnectTokenEntries →
        (exampleServerAfterA.m_connectTokenEntries j).time
          ≤ (exampleServerAfterA.m_connectTokenEntries k).time) ∧
      (∀ j, j < k → (exampleServerAfterA.m_connectTokenEntries j).time
          < (exampleServerAfterA.m_connectTokenEntries k).time) ∧
      (exampleServerAfterA.FindOrAddConnectTokenEntry exampleConstants addressC
          (exampleMac 3) 30).1 = true ∧
      (exampleServerAfterA.FindOrAddConnectTokenEntry exampleConstants addressC
          (exampleMac 3) 30).2.m_connectTokenEntries k
        = { time := 30, address := addressC,
            mac := (exampleMac 3).take exampleConstants.MacBytes } ∧
      (exampleServerAfterA.FindOrAddConnectTokenEntry exampleConstants addressC
          (exampleMac 3) 30).2.m_connectTokenEntries k
        ≠ exampleServerAfterA.m_connectTokenEntries k ∧
      (∀ j, j ≠ k →
        (exampleServerAfterA.FindOrAddConnectTokenEntry exampleConstants addressC
            (exampleMac 3) 30).2.m_connectTokenEntries j
          = exampleServerAfterA.m_connectTokenEntries j) :=
  FindOrAddConnectTokenEntry_no_match exampleConstants exampleServerAfterA addressC
    (exampleMac 3) 30 (by decide) (by decide)

/-- C5 (the code at a concrete cache): the cache holds one used entry, first
seen at time 10 (index 0), and fifteen never-written entries of time 0.  For
a mac the cache does not hold, arriving at time 20,
`FindOrAddConnectTokenEntry` overwrites entry 0, the entry with the largest
stored time, and keeps the fifteen older entries: the overwritten entry is
not the oldest.  The token evicted in this way is then accepted from
another address. -/
theorem FindOrAddConnectTokenEntry_overwrites_newest :
    exampleServerAfterA.m_connectTokenEntries 0
      = { time := 10, address := addressA, mac := exampleMac 1 } ∧
    (∀ j, j < exampleConstants.MaxConnectTokenEntries → 0 < j →
      exampleServerAfterA.m_connectTokenEntries j = exampleEntry) ∧
    (exampleServerAfterA.FindOrAddConnectTokenEntry exampleConstants addressB
        (exampleMac 2) 20).2.m_connectTokenEntries 0
      = { time := 20, address := addressB, mac := exampleMac 2 } ∧
    (∀ j, j < exampleConstants.MaxConnectTokenEntries → 0 < j →
      (exampleServerAfterA.FindOrAddConnectTokenEntry exampleConstants addressB
        (exampleMac 2) 20).2.m_connectTokenEntries j = exampleEntry) ∧
    ¬ (∀ j, j < exampleConstants.MaxConnectTokenEntries →
        (exampleServerAfterA.m_connectTokenEntries 0).time
          ≤ (exampleServerAfterA.m_connectTokenEntries j).time) ∧
    ((exampleServerAfterA.FindOrAddConnectTokenEntry exampleConstants addressB
        (exampleMac 2) 20).2.FindOrAddConnectTokenEntry exampleConstants addressC
          (exampleMac 1) 30).1 = true := by
  decide

/-- C4: if `FindOrAddConnectTokenEntry( a, m, t1 )` returns true, then in the
state it leaves a second call with the same address and mac returns true
and changes nothing, and a call with the same mac from any other address
returns false and changes nothing. -/
theorem FindOrAddConnectTokenEntry_replay (c : Constants) (s : Server) (a a' : Address)
    (m : List Nat) (t1 t2 : Time) (hpos : 0 < c.MaxConnectTokenEntries) (hne : a' ≠ a)
    (hfirst : (s.FindOrAddConnectTokenEntry c a m t1).1 = true) :
    (s.FindOrAddConnectTokenEntry c a m t1).2.FindOrAddConnectTokenEntry c a m t2
        = (true, (s.FindOrAddConnectTokenEntry c a m t1).2) ∧
    (s.FindOrAddConnectTokenEntry c a m t1).2.FindOrAddConnectTokenEntry c a' m t2
        = (false, (s.FindOrAddConnectTokenEntry c a m t1).2) := by
  by_cases hex : ∃ i, i < c.MaxConnectTokenEntries ∧
      memcmpEq m (s.m_connectTokenEntries i).mac c.MacBytes = true
  · -- the mac was already in the cache: the first call changed nothing
    have hfind : ∃ k, k < c.MaxConnectTokenEntries ∧
        memcmpEq m (s.m_connectTokenEntries k).mac c.MacBytes = true ∧
        ∀ j, k < j → j < c.MaxConnectTokenEntries →
          memcmpEq m (s.m_connectTokenEntries j).mac c.MacBytes = false := by
      have hdec : ∀ n, n ≤ c.MaxConnectTokenEntries →
          (∃ i, i < n ∧ memcmpEq m (s.m_connectTokenEntries i).mac c.MacBytes = true) →
          ∃ k, k < n ∧ memcmpEq m (s.m_connectTokenEntries k).mac c.MacBytes = true ∧
            ∀ j, k < j → j < n →
              memcmpEq m (s.m_connectTokenEntries j).mac c.MacBytes = false := by
        intro n
        induction n with
        | zero => rintro _ ⟨i, hi, _⟩; omega
        | succ n ih =>
          intro hn hex'
          by_cases hlast : memcmpEq m (s.m_connectTokenEntries n).mac c.MacBytes = true
          · exact ⟨n, Nat.lt_succ_self n, hlast, fun j hj hjn => by omega⟩
          · obtain ⟨i, hi, hmi⟩ := hex'
            have hin : i < n := by
              rcases Nat.lt_succ_iff_lt_or_eq.mp hi with h | h
              · exact h
              · subst h; exact absurd hmi hlast
            obtain ⟨k, hk, hmk, hrest⟩ := ih (Nat.le_of_succ_le hn) ⟨i, hin, hmi⟩
            refine ⟨k, Nat.lt_succ_of_lt hk, hmk, ?_⟩
            intro j hj hjn
            rcases Nat.lt_succ_iff_lt_or_eq.mp hjn with h | h
            · exact hrest j hj h
            · subst h; simpa using hlast
      exact hdec _ (le_refl _) hex
    obtain ⟨k, hk, hmk, hrest⟩ := hfind
    have hrest' : ∀ j, j < c.MaxConnectTokenEntries → k < j →
        memcmpEq m (s.m_connectTokenEntries j).mac c.MacBytes = false :=
      fun j hjn hj => hrest j hj hjn
    have h1 := findOrAdd_of_match c s a m t1 k hk hmk hrest'
    rw [h1] at hfirst ⊢
    have haddr : (s.m_connectTokenEntries k).address = a := by simpa using hfirst
    constructor
    · rw [findOrAdd_of_match c s a m t2 k hk hmk hrest']
      simp [haddr]
    · rw [findOrAdd_of_match c s a' m t2 k hk hmk hrest']
      have : ¬ (s.m_connectTokenEntries k).address = a' := by
        rw [haddr]; exact fun h => hne h.symm
      simp [this]
  · -- the mac was new: the first call stored it together with the address
    have hnone : ∀ i, i < c.MaxConnectTokenEntries →
        memcmpEq m (s.m_connectTokenEntries i).mac c.MacBytes = false := by
      intro i hi
      by_contra h
      exact hex ⟨i, hi, by simpa using h⟩
    obtain ⟨k, hk, _, _, _, hentry, _, hother⟩ :=
      findOrAdd_of_no_match c s a m t1 hpos hnone
    have hmk : memcmpEq m
        ((s.FindOrAddConnectTokenEntry c a m t1).2.m_connectTokenEntries k).mac c.MacBytes
          = true := by
      rw [hentry]; exact memcmpEq_take_self m c.MacBytes
    have hrest : ∀ j, j < c.MaxConnectTokenEntries → k < j →
        memcmpEq m
          ((s.FindOrAddConnectTokenEntry c a m t1).2.m_connectTokenEntries j).mac c.MacBytes
            = false := by
      intro j hjn hj
      rw [hother j (by omega)]
      exact hnone j hjn
    constructor
    · rw [findOrAdd_of_match c _ a m t2 k hk hmk hrest, hentry]
      simp
    · rw [findOrAdd_of_match c _ a' m t2 k hk hmk hrest, hentry]
      have : ¬ a = a' := fun h => hne h.symm
      simp [this]

theorem FindOrAddConnectTokenEntry_replay_witness :
    (exampleServer.FindOrAddConnectTokenEntry exampleConstants addressA
        (exampleMac 1) 10).2.FindOrAddConnectTokenEntry exampleConstants addressA
          (exampleMac 1) 40
      = (true, (exampleServer.FindOrAddConnectTokenEntry exampleConstants addressA
          (exampleMac 1) 10).2) ∧
    (exampleServer.FindOrAddConnectTokenEntry exampleConstants addressA
        (exampleMac 1) 10).2.FindOrAddConnectTokenEntry exampleConstants addressC
          (exampleMac 1) 40
      = (false, (exampleServer.FindOrAddConnectTokenEntry exampleConstants addressA
          (exampleMac 1) 10).2) :=
  FindOrAddConnectTokenEntry_replay exampleConstants exampleServer addressA addressC
    (exampleMac 1) 10 40 (by decide) (by decide) (by decide)

/-! ### Counting connected slots -/

theorem countConnected_eq_card (connected : Nat → Bool) (n : Nat) :
    countConnected connected n
      = ((Finset.range n).filter (fun i => connected i = true)).card := by
  induction n with
  | zero => rfl
  | succ n ih =>
    rw [countConnected, ih, Finset.range_succ, Finset.filter_insert]
    by_cases h : connected n = true
    · rw [if_pos h, if_pos h, Finset.card_insert_of_not_mem]
      simp
    · rw [if_neg h, if_neg h, Nat.add_zero]

theorem countConnected_le (connected : Nat → Bool) (n : Nat) :
    countConnected connected n ≤ n := by
  induction n with
  | zero => exact Nat.le_refl 0
  | succ n ih =>
    rw [countConnected]
    split_ifs <;> omega

theorem countConnected_update_ge (connected : Nat → Bool) (n i : Nat) (b : Bool)
    (h : n ≤ i) :
    countConnected (Function.update connected i b) n = countConnected connected n := by
  induction n with
  | zero => rfl
  | succ n ih =>
    have hne : n ≠ i := by omega
    rw [countConnected, countConnected, ih (by omega), Function.update_noteq hne]

theorem countConnected_update_true (connected : Nat → Bool) (n i : Nat) (hi : i < n)
    (hfree : connected i = false) :
    countConnected (Function.update connected i true) n = countConnected connected n + 1 := by
  induction n with
  | zero => omega
  | succ n ih =>
    rcases Nat.lt_succ_iff_lt_or_eq.mp hi with hlt | heq
    · have hne : n ≠ i := by omega
      rw [countConnected, countConnected, ih hlt, Function.update_noteq hne]
      omega
    · subst heq
      rw [countConnected, countConnected, countConnected_update_ge _ _ _ _ (le_refl _),
        Function.update_same, hfree]
      simp

theorem countConnected_update_false (connected : Nat → Bool) (n i : Nat) (hi : i < n)
    (hconn : connected i = true) :
    countConnected (Function.update connected i false) n + 1 = countConnected connected n := by
  induction n with
  | zero => omega
  | succ n ih =>
    rcases Nat.lt_succ_iff_lt_or_eq.mp hi with hlt | heq
    · have hne : n ≠ i := by omega
      rw [countConnected, countConnected, Function.update_noteq hne]
      have := ih hlt
      omega
    · subst heq
      rw [countConnected, countConnected, countConnected_update_ge _ _ _ _ (le_refl _),
        Function.update_same, hconn]
      simp

theorem countConnected_all_false (connected : Nat → Bool) (n : Nat)
    (h : ∀ i, i < n → connected i = false) : countConnected connected n = 0 := by
  induction n with
  | zero => rfl
  | succ n ih =>
    rw [countConnected, ih (fun i hi => h i (Nat.lt_succ_of_lt hi)), h n (Nat.lt_succ_self n)]
    simp

/-! ### The search loops of the slot table -/

theorem findFreeClientIndexLoop_spec (s : Server) :
    ∀ fuel i,
      (s.findFreeClientIndexLoop fuel i = -1 ∧
        ∀ j, i ≤ j → j < i + fuel → s.m_clientConnected j = true) ∨
      (∃ k : Nat, s.findFreeClientIndexLoop fuel i = (k : Int) ∧ i ≤ k ∧ k < i + fuel ∧
        s.m_clientConnected k = false ∧ ∀ j, i ≤ j → j < k → s.m_clientConnected j = true) := by
  intro fuel
  induction fuel with
  | zero =>
    intro i
    exact Or.inl ⟨rfl, fun j h1 h2 => by omega⟩
  | succ fuel ih =>
    intro i
    by_cases hc : s.m_clientConnected i = true
    · have hstep : s.findFreeClientIndexLoop (fuel + 1) i
          = s.findFreeClientIndexLoop fuel (i + 1) := by
        simp [Server.findFreeClientIndexLoop, hc]
      rw [hstep]
      rcases ih (i + 1) with ⟨h1, h2⟩ | ⟨k, h1, h2, h3, h4, h5⟩
      · refine Or.inl ⟨h1, fun j hj hjn => ?_⟩
        rcases Nat.eq_or_lt_of_le hj with h | h
        · rw [← h]; exact hc
        · exact h2 j h (by omega)
      · refine Or.inr ⟨k, h1, by omega, by omega, h4, fun j hj hjk => ?_⟩
        rcases Nat.eq_or_lt_of_le hj with h | h
        · rw [← h]; exact hc
        · exact h5 j h hjk
    · have hc' : s.m_clientConnected i = false := by simpa using hc
      refine Or.inr ⟨i, ?_, le_refl _, by omega, hc', fun j hj hji => by omega⟩
      simp [Server.findFreeClientIndexLoop, hc']

theorem findExistingByAddressAndIdLoop_spec (s : Server) (address : Address) (clientId : Nat) :
    ∀ fuel i,
      (s.findExistingByAddressAndIdLoop address clientId fuel i = -1 ∧
        ∀ j, i ≤ j → j < i + fuel →
          ¬ (s.m_clientId j = clientId ∧ s.m_clientConnected j = true ∧
             s.m_clientAddress j = address)) ∨
      (∃ k : Nat, s.findExistingByAddressAndIdLoop address clientId fuel i = (k : Int) ∧
        i ≤ k ∧ k < i + fuel ∧
        s.m_clientId k = clientId ∧ s.m_clientConnected k = true ∧
        s.m_clientAddress k = address) := by
  intro fuel
  induction fuel with
  | zero =>
    intro i
    exact Or.inl ⟨rfl, fun j h1 h2 => by omega⟩
  | succ fuel ih =>
    intro i
    by_cases hc : s.m_clientId i = clientId ∧ s.m_clientConnected i = true ∧
        s.m_clientAddress i = address
    · refine Or.inr ⟨i, ?_, le_refl _, by omega, hc.1, hc.2.1, hc.2.2⟩
      simp [Server.findExistingByAddressAndIdLoop, hc.1, hc.2.1, hc.2.2]
    · have hstep : s.findExistingByAddressAndIdLoop address clientId (fuel + 1) i
          = s.findExistingByAddressAndIdLoop address clientId fuel (i + 1) := by
        rw [Server.findExistingByAddressAndIdLoop]
        rw [if_neg]
        simpa [and_assoc] using hc
      rw [hstep]
      rcases ih (i + 1) with ⟨h1, h2⟩ | ⟨k, h1, h2, h3, h4⟩
      · refine Or.inl ⟨h1, fun j hj hjn => ?_⟩
        rcases Nat.eq_or_lt_of_le hj with h | h
        · rw [← h]; exact hc
        · exact h2 j h (by omega)
      · exact Or.inr ⟨k, h1, by omega, by omega, h4⟩

theorem findExistingByAddressLoop_spec (s : Server) (address : Address) :
    ∀ fuel i,
      s.findExistingByAddressLoop address fuel i = -1 ∨
      (∃ k : Nat, s.findExistingByAddressLoop address fuel i = (k : Int) ∧
        i ≤ k ∧ k < i + fuel ∧
        s.m_clientConnected k = true ∧ s.m_clientAddress k = address) := by
  intro fuel
  induction fuel with
  | zero =>
    intro i
    exact Or.inl rfl
  | succ fuel ih =>
    intro i
    by_cases hc : s.m_clientConnected i = true ∧ s.m_clientAddress i = address
    · refine Or.inr ⟨i, ?_, le_refl _, by omega, hc.1, hc.2⟩
      simp [Server.findExistingByAddressLoop, hc.1, hc.2]
    · have hstep : s.findExistingByAddressLoop address (fuel + 1) i
          = s.findExistingByAddressLoop address fuel (i + 1) := by
        rw [Server.findExistingByAddressLoop]
        rw [if_neg]
        simpa using hc
      rw [hstep]
      rcases ih (i + 1) with h1 | ⟨k, h1, h2, h3, h4⟩
      · exact Or.inl h1
      · exact Or.inr ⟨k, h1, by omega, by omega, h4⟩

/-! ### Every driver method is a sequence of elementary slot changes -/

theorem FindOrAddConnectTokenEntry_cache_only (c : Constants) (s : Server) (address : Address)
    (mac : List Nat) (time : Time) :
    (s.FindOrAddConnectTokenEntry c address mac time).2
      = { s with m_connectTokenEntries :=
            (s.FindOrAddConnectTokenEntry c address mac time).2.m_connectTokenEntries } := by
  simp only [Server.FindOrAddConnectTokenEntry]
  split_ifs <;> rfl

theorem SlotStep_of_cache_only (c : Constants) (s : Server) (e : Nat → ConnectTokenEntry) :
    Server.SlotStep c s { s with m_connectTokenEntries := e } :=
  Server.SlotStep.frame s _ rfl rfl rfl rfl (fun _ _ => rfl)

theorem SlotStep_SendPacketToConnectedClient (c : Constants) (s : Server) (w : World) (i : Nat)
    (packet : Option Packet) (time : Time) (hconn : s.m_clientConnected i = true) :
    Server.SlotStep c s (s.SendPacketToConnectedClient w i packet time).1 := by
  refine Server.SlotStep.frame s _ rfl rfl rfl rfl (fun j hj => ?_)
  have hne : j ≠ i := by
    intro h
    rw [h, hconn] at hj
    exact Bool.noConfusion hj
  simp [Server.SendPacketToConnectedClient, Function.update_noteq hne]

theorem ProcessConnectionRequest_server (c : Constants) (p : Primitives) (s : Server) (w : World)
    (connectTokenData connectTokenNonce : List Nat) (address : Address) (time : Time) :
    (s.ProcessConnectionRequest c p w connectTokenData connectTokenNonce address time).1 = s ∨
    (s.ProcessConnectionRequest c p w connectTokenData connectTokenNonce address time).1
      = (s.FindOrAddConnectTokenEntry c address connectTokenData time).2 := by
  unfold Server.ProcessConnectionRequest
  split
  · exact Or.inl rfl
  · dsimp only
    repeat' split
    all_goals first | exact Or.inl rfl | exact Or.inr rfl

theorem SlotSteps_ProcessConnectionRequest (c : Constants) (p : Primitives) (s : Server)
    (w : World) (connectTokenData connectTokenNonce : List Nat) (address : Address)
    (time : Time) :
    Server.SlotSteps c s
      (s.ProcessConnectionRequest c p w connectTokenData connectTokenNonce address time).1 := by
  rcases ProcessConnectionRequest_server c p s w connectTokenData connectTokenNonce address time
    with h | h
  · rw [h]; exact Relation.ReflTransGen.refl
  · rw [h, FindOrAddConnectTokenEntry_cache_only]
    exact Relation.ReflTransGen.single (SlotStep_of_cache_only c s _)

theorem FindExistingClientIndex_address_clientId_spec (c : Constants) (s : Server)
    (address : Address) (clientId : Nat) :
    (s.FindExistingClientIndex_address_clientId c address clientId = -1 ∧
      ∀ j, j < c.MaxClients →
        ¬ (s.m_clientId j = clientId ∧ s.m_clientConnected j = true ∧
           s.m_clientAddress j = address)) ∨
    (∃ k : Nat, s.FindExistingClientIndex_address_clientId c address clientId = (k : Int) ∧
      k < c.MaxClients ∧ s.m_clientId k = clientId ∧ s.m_clientConnected k = true ∧
      s.m_clientAddress k = address) := by
  rcases findExistingByAddressAndIdLoop_spec s address clientId c.MaxClients 0
    with ⟨h1, h2⟩ | ⟨k, h1, _, h3, h4⟩
  · exact Or.inl ⟨h1, fun j hj => h2 j (Nat.zero_le j) (by omega)⟩
  · exact Or.inr ⟨k, h1, by omega, h4⟩

theorem FindFreeClientIndex_spec (c : Constants) (s : Server) :
    (s.FindFreeClientIndex c = -1 ∧ ∀ j, j < c.MaxClients → s.m_clientConnected j = true) ∨
    (∃ k : Nat, s.FindFreeClientIndex c = (k : Int) ∧ k < c.MaxClients ∧
      s.m_clientConnected k = false ∧ ∀ j, j < k → s.m_clientConnected j = true) := by
  rcases findFreeClientIndexLoop_spec s c.MaxClients 0 with ⟨h1, h2⟩ | ⟨k, h1, _, h3, h4, h5⟩
  · exact Or.inl ⟨h1, fun j hj => h2 j (Nat.zero_le j) (by omega)⟩
  · exact Or.inr ⟨k, h1, by omega, h4, fun j hj => h5 j (Nat.zero_le j) hj⟩

theorem FindExistingClientIndex_address_spec (c : Constants) (s : Server) (address : Address) :
    s.FindExistingClientIndex_address c address = -1 ∨
    (∃ k : Nat, s.FindExistingClientIndex_address c address = (k : Int) ∧
      k < c.MaxClients ∧ s.m_clientConnected k = true ∧ s.m_clientAddress k = address) := by
  rcases findExistingByAddressLoop_spec s address c.MaxClients 0 with h1 | ⟨k, h1, _, h3, h4⟩
  · exact Or.inl h1
  · exact Or.inr ⟨k, h1, by omega, h4⟩

theorem natCast_ne_neg_one (k : Nat) : ((k : Int) = -1) = False := by
  apply propext
  constructor
  · intro h; omega
  · intro h; exact h.elim

theorem SlotSteps_ProcessConnectionResponse (c : Constants) (p : Primitives) (s : Server)
    (w : World) (challengeTokenData challengeTokenNonce : List Nat) (address : Address)
    (time : Time) :
    Server.SlotSteps c s
      (s.ProcessConnectionResponse c p w challengeTokenData challengeTokenNonce
        address time).1 := by
  unfold Server.ProcessConnectionResponse
  split
  · exact Relation.ReflTransGen.refl
  · rename_i challengeToken _
    by_cases ha : challengeToken.clientAddress ≠ address
    · rw [if_pos ha]; exact Relation.ReflTransGen.refl
    rw [if_neg ha]
    have ha' : challengeToken.clientAddress = address := by simpa using ha
    by_cases hs : challengeToken.serverAddress ≠ s.m_serverAddress
    · rw [if_pos hs]; exact Relation.ReflTransGen.refl
    rw [if_neg hs]
    dsimp only
    rcases FindExistingClientIndex_address_clientId_spec c s address challengeToken.clientId
      with ⟨he, hnone⟩ | ⟨k, he, hk, _, hconn, _⟩
    · rw [he]
      simp only [ne_eq, not_true_eq_false, if_false]
      by_cases hfull : s.m_numConnectedClients = (c.MaxClients : Int)
      · rw [if_pos hfull]
        split <;> exact Relation.ReflTransGen.refl
      · rw [if_neg hfull]
        rcases FindFreeClientIndex_spec c s with ⟨hf, _⟩ | ⟨i, hf, hi, hfree, _⟩
        · rw [hf]
          simp only [if_true]
          exact Relation.ReflTransGen.refl
        · rw [hf]
          simp only [natCast_ne_neg_one, if_false, Int.toNat_ofNat]
          refine Relation.ReflTransGen.single
            (Server.SlotStep.connect s w i challengeToken time hi hfree ?_ hfull)
          intro j hj hjc hpair
          exact hnone j hj ⟨hpair.2, hjc, by rw [hpair.1, ha']⟩
    · rw [he]
      simp only [ne_eq, natCast_ne_neg_one, not_false_eq_true, if_true, Int.toNat_ofNat]
      split_ifs
      · split
        · exact Relation.ReflTransGen.single
            (SlotStep_SendPacketToConnectedClient c s _ k _ time hconn)
        · exact Relation.ReflTransGen.refl
      · exact Relation.ReflTransGen.refl

theorem SlotSteps_ProcessConnectionHeartBeat (c : Constants) (s : Server) (w : World)
    (address : Address) (time : Time) :
    Server.SlotSteps c s (s.ProcessConnectionHeartBeat c w address time).1 := by
  unfold Server.ProcessConnectionHeartBeat
  dsimp only
  rcases FindExistingClientIndex_address_spec c s address with he | ⟨k, he, _, hconn, _⟩
  · rw [he]
    simp only [if_true]
    exact Relation.ReflTransGen.refl
  · rw [he]
    simp only [natCast_ne_neg_one, if_false, Int.toNat_ofNat]
    refine Relation.ReflTransGen.single
      (Server.SlotStep.frame s _ rfl rfl rfl rfl (fun j hj => ?_))
    have hne : j ≠ k := by
      intro h
      rw [h, hconn] at hj
      exact Bool.noConfusion hj
    simp [Function.update_noteq hne]

theorem SlotSteps_ProcessConnectionDisconnect (c : Constants) (s : Server) (w : World)
    (address : Address) (time : Time) :
    Server.SlotSteps c s (s.ProcessConnectionDisconnect c w address time).1 := by
  unfold Server.ProcessConnectionDisconnect
  dsimp only
  rcases FindExistingClientIndex_address_spec c s address with he | ⟨k, he, hk, hconn, _⟩
  · rw [he]
    simp only [if_true]
    exact Relation.ReflTransGen.refl
  · rw [he]
    simp only [natCast_ne_neg_one, if_false, Int.toNat_ofNat]
    exact Relation.ReflTransGen.single (Server.SlotStep.disconnect s w k time hk hconn)

theorem SlotSteps_dispatch (c : Constants) (p : Primitives) (s : Server) (w : World)
    (address : Address) (packet : Packet) (time : Time) :
    Server.SlotSteps c s (s.dispatch c p w address packet time).1 := by
  cases packet with
  | ConnectionRequest d n => exact SlotSteps_ProcessConnectionRequest c p s w d n address time
  | ConnectionResponse d n => exact SlotSteps_ProcessConnectionResponse c p s w d n address time
  | ConnectionHeartBeat => exact SlotSteps_ProcessConnectionHeartBeat c s w address time
  | ConnectionDisconnect => exact SlotSteps_ProcessConnectionDisconnect c s w address time
  | ConnectionDenied => exact Relation.ReflTransGen.refl
  | ConnectionChallenge d n => exact Relation.ReflTransGen.refl
  | Other t => exact Relation.ReflTransGen.refl

theorem SlotSteps_receivePacketsLoop (c : Constants) (p : Primitives) (time : Time) :
    ∀ (queue : List (Address × Packet)) (s : Server) (w : World),
      Server.SlotSteps c s (Server.receivePacketsLoop c p time queue s w).1 := by
  intro queue
  induction queue with
  | nil => intro s w; exact Relation.ReflTransGen.refl
  | cons head rest ih =>
    intro s w
    obtain ⟨address, packet⟩ := head
    exact Relation.ReflTransGen.trans (SlotSteps_dispatch c p s w address packet time)
      (ih _ _)

theorem SlotSteps_ReceivePackets (c : Constants) (p : Primitives) (s : Server) (w : World)
    (time : Time) : Server.SlotSteps c s (s.ReceivePackets c p w time).1 :=
  SlotSteps_receivePacketsLoop c p time _ _ _

theorem SlotSteps_sendPacketsLoop (c : Constants) (time : Time) :
    ∀ (fuel i : Nat) (s : Server) (w : World),
      Server.SlotSteps c s (Server.sendPacketsLoop c time fuel i s w).1 := by
  intro fuel
  induction fuel with
  | zero => intro i s w; exact Relation.ReflTransGen.refl
  | succ fuel ih =>
    intro i s w
    rw [Server.sendPacketsLoop]
    by_cases hc : s.m_clientConnected i = true
    · simp only [hc, Bool.not_true, Bool.false_eq_true, if_false]
      split_ifs
      · exact Relation.ReflTransGen.refl
      · exact Relation.ReflTransGen.head
          (SlotStep_SendPacketToConnectedClient c s _ i _ time hc) (ih _ _ _)
    · have hc' : s.m_clientConnected i = false := by simpa using hc
      simp only [hc', Bool.not_false, if_true]
      exact ih _ _ _

theorem SlotSteps_SendPackets (c : Constants) (s : Server) (w : World) (time : Time) :
    Server.SlotSteps c s (s.SendPackets c w time).1 :=
  SlotSteps_sendPacketsLoop c time _ _ _ _

theorem SlotSteps_checkForTimeOutLoop (c : Constants) (s : Server) (w : World) (time : Time) :
    ∀ n, n ≤ c.MaxClients → Server.SlotSteps c s (Server.checkForTimeOutLoop time c s w n).1 := by
  intro n
  induction n with
  | zero => intro _; exact Relation.ReflTransGen.refl
  | succ n ih =>
    intro hn
    have h := ih (Nat.le_of_succ_le hn)
    rw [Server.checkForTimeOutLoop]
    by_cases hc : (Server.checkForTimeOutLoop time c s w n).1.m_clientConnected n = true
    · simp only [hc, Bool.not_true, Bool.false_eq_true, if_false]
      split_ifs
      · exact Relation.ReflTransGen.tail h
          (Server.SlotStep.disconnect _ _ n time (by omega) hc)
      · exact h
    · have hc' : (Server.checkForTimeOutLoop time c s w n).1.m_clientConnected n = false := by
        simpa using hc
      simp only [hc', Bool.not_false, if_true]
      exact h

theorem SlotSteps_CheckForTimeOut (c : Constants) (s : Server) (w : World) (time : Time) :
    Server.SlotSteps c s (s.CheckForTimeOut c w time).1 :=
  SlotSteps_checkForTimeOutLoop c s w time c.MaxClients (le_refl _)

/-! ### Fields after `ConnectClient`, `DisconnectClient` and the constructor -/

theorem ConnectClient_clientConnected (s : Server) (w : World) (i : Nat)
    (challengeToken : ChallengeToken) (time : Time) :
    (s.ConnectClient w i challengeToken time).1.m_clientConnected
      = Function.update s.m_clientConnected i true := by
  unfold Server.ConnectClient
  dsimp only
  split <;> rfl

theorem ConnectClient_clientId (s : Server) (w : World) (i : Nat)
    (challengeToken : ChallengeToken) (time : Time) :
    (s.ConnectClient w i challengeToken time).1.m_clientId
      = Function.update s.m_clientId i challengeToken.clientId := by
  unfold Server.ConnectClient
  dsimp only
  split <;> rfl

theorem ConnectClient_clientAddress (s : Server) (w : World) (i : Nat)
    (challengeToken : ChallengeToken) (time : Time) :
    (s.ConnectClient w i challengeToken time).1.m_clientAddress
      = Function.update s.m_clientAddress i challengeToken.clientAddress := by
  unfold Server.ConnectClient
  dsimp only
  split <;> rfl

theorem ConnectClient_numConnectedClients (s : Server) (w : World) (i : Nat)
    (challengeToken : ChallengeToken) (time : Time) :
    (s.ConnectClient w i challengeToken time).1.m_numConnectedClients
      = s.m_numConnectedClients + 1 := by
  unfold Server.ConnectClient
  dsimp only
  split <;> rfl

theorem resetClientStates_clientConnected (s : Server) :
    ∀ n i, i < n → (Server.resetClientStates s n).m_clientConnected i = false := by
  intro n
  induction n with
  | zero => intro i hi; omega
  | succ n ih =>
    intro i hi
    rw [Server.resetClientStates]
    rcases Nat.lt_succ_iff_lt_or_eq.mp hi with hlt | heq
    · have hne : i ≠ n := by omega
      simp [Server.ResetClientState, Function.update_noteq hne, ih i hlt]
    · subst heq
      simp [Server.ResetClientState]

theorem resetClientStates_numConnectedClients (s : Server) :
    ∀ n, (Server.resetClientStates s n).m_numConnectedClients = s.m_numConnectedClients := by
  intro n
  induction n with
  | zero => rfl
  | succ n ih =>
    rw [Server.resetClientStates]
    simpa [Server.ResetClientState] using ih

/-! ### Invariants of the slot table -/

theorem count_SlotStep (c : Constants) (s s' : Server) (h : Server.SlotStep c s s')
    (hinv : (countConnected s.m_clientConnected c.MaxClients : Int)
      = s.m_numConnectedClients) :
    (countConnected s'.m_clientConnected c.MaxClients : Int) = s'.m_numConnectedClients := by
  cases h with
  | frame _ h1 _ _ h4 _ => rw [h1, h4]; exact hinv
  | connect w i tok time hi hfree _ _ =>
    rw [ConnectClient_clientConnected, ConnectClient_numConnectedClients,
      countConnected_update_true _ _ _ hi hfree, ← hinv]
    push_cast
    rfl
  | disconnect w i time hi hconn =>
    have h := countConnected_update_false s.m_clientConnected c.MaxClients i hi hconn
    show (countConnected (Function.update s.m_clientConnected i false) c.MaxClients : Int)
      = s.m_numConnectedClients - 1
    rw [← hinv, ← h]
    push_cast
    omega

theorem count_SlotSteps (c : Constants) (s s' : Server) (h : Server.SlotSteps c s s')
    (hinv : (countConnected s.m_clientConnected c.MaxClients : Int)
      = s.m_numConnectedClients) :
    (countConnected s'.m_clientConnected c.MaxClients : Int) = s'.m_numConnectedClients := by
  induction h with
  | refl => exact hinv
  | tail _ hstep ih => exact count_SlotStep c _ _ hstep ih

theorem pairs_SlotStep (c : Constants) (s s' : Server) (h : Server.SlotStep c s s')
    (hinv : ∀ i j, i < c.MaxClients → j < c.MaxClients → i ≠ j →
      s.m_clientConnected i = true → s.m_clientConnected j = true →
      ¬ (s.m_clientAddress i = s.m_clientAddress j ∧ s.m_clientId i = s.m_clientId j)) :
    ∀ i j, i < c.MaxClients → j < c.MaxClients → i ≠ j →
      s'.m_clientConnected i = true → s'.m_clientConnected j = true →
      ¬ (s'.m_clientAddress i = s'.m_clientAddress j ∧ s'.m_clientId i = s'.m_clientId j) := by
  cases h with
  | frame _ h1 h2 h3 _ _ => rw [h1, h2, h3]; exact hinv
  | connect w k tok time hk hfree hnew _ =>
    intro i j hi hj hij
    rw [ConnectClient_clientConnected, ConnectClient_clientId, ConnectClient_clientAddress]
    intro hci hcj hpair
    by_cases hik : i = k
    · have hjk : j ≠ k := fun h => hij (hik.trans h.symm)
      rw [hik, Function.update_same, Function.update_same, Function.update_noteq hjk,
        Function.update_noteq hjk] at hpair
      rw [Function.update_noteq hjk] at hcj
      exact hnew j hj hcj ⟨hpair.1.symm, hpair.2.symm⟩
    · by_cases hjk : j = k
      · rw [hjk, Function.update_same, Function.update_same, Function.update_noteq hik,
          Function.update_noteq hik] at hpair
        rw [Function.update_noteq hik] at hci
        exact hnew i hi hci hpair
      · rw [Function.update_noteq hik, Function.update_noteq hjk,
          Function.update_noteq hik, Function.update_noteq hjk] at hpair
        rw [Function.update_noteq hik] at hci
        rw [Function.update_noteq hjk] at hcj
        exact hinv i j hi hj hij hci hcj hpair
  | disconnect w k time hk hconn =>
    intro i j hi hj hij
    show Function.update s.m_clientConnected k false i = true →
      Function.update s.m_clientConnected k false j = true →
      ¬ (Function.update s.m_clientAddress k Address.undefined i
            = Function.update s.m_clientAddress k Address.undefined j ∧
         Function.update s.m_clientId k 0 i = Function.update s.m_clientId k 0 j)
    intro hci hcj hpair
    by_cases hik : i = k
    · rw [hik, Function.update_same] at hci
      exact Bool.noConfusion hci
    · by_cases hjk : j = k
      · rw [hjk, Function.update_same] at hcj
        exact Bool.noConfusion hcj
      · rw [Function.update_noteq hik, Function.update_noteq hjk,
          Function.update_noteq hik, Function.update_noteq hjk] at hpair
        rw [Function.update_noteq hik] at hci
        rw [Function.update_noteq hjk] at hcj
        exact hinv i j hi hj hij hci hcj hpair

theorem pairs_SlotSteps (c : Constants) (s s' : Server) (h : Server.SlotSteps c s s')
    (hinv : ∀ i j, i < c.MaxClients → j < c.MaxClients → i ≠ j →
      s.m_clientConnected i = true → s.m_clientConnected j = true →
      ¬ (s.m_clientAddress i = s.m_clientAddress j ∧ s.m_clientId i = s.m_clientId j)) :
    ∀ i j, i < c.MaxClients → j < c.MaxClients → i ≠ j →
      s'.m_clientConnected i = true → s'.m_clientConnected j = true →
      ¬ (s'.m_clientAddress i = s'.m_clientAddress j ∧ s'.m_clientId i = s'.m_clientId j) := by
  induction h with
  | refl => exact hinv
  | tail _ hstep ih => exact pairs_SlotStep c _ _ hstep ih

theorem SlotSteps_of_driver (c : Constants) (p : Primitives) (P : Server → Prop)
    (hctor : ∀ raw, P (Server.new c raw))
    (hsteps : ∀ s s', Server.SlotSteps c s s' → P s → P s') :
    ∀ s, Server.Reachable c p s → P s := by
  intro s h
  induction h with
  | ctor raw => exact hctor raw
  | SendPackets s w time _ ih => exact hsteps _ _ (SlotSteps_SendPackets c s w time) ih
  | ReceivePackets s w time _ ih => exact hsteps _ _ (SlotSteps_ReceivePackets c p s w time) ih
  | CheckForTimeOut s w time _ ih => exact hsteps _ _ (SlotSteps_CheckForTimeOut c s w time) ih

theorem count_reachable (c : Constants) (p : Primitives) (s : Server)
    (h : Server.Reachable c p s) :
    (countConnected s.m_clientConnected c.MaxClients : Int) = s.m_numConnectedClients := by
  refine SlotSteps_of_driver c p
    (fun s => (countConnected s.m_clientConnected c.MaxClients : Int) = s.m_numConnectedClients)
    ?_ (fun s s' hs hP => count_SlotSteps c s s' hs hP) s h
  intro raw
  show (countConnected (Server.new c raw).m_clientConnected c.MaxClients : Int)
    = (Server.new c raw).m_numConnectedClients
  rw [Server.new, resetClientStates_numConnectedClients,
    countConnected_all_false _ _ (resetClientStates_clientConnected _ _)]
  rfl

theorem pairs_reachable (c : Constants) (p : Primitives) (s : Server)
    (h : Server.Reachable c p s) :
    ∀ i j, i < c.MaxClients → j < c.MaxClients → i ≠ j →
      s.m_clientConnected i = true → s.m_clientConnected j = true →
      ¬ (s.m_clientAddress i = s.m_clientAddress j ∧ s.m_clientId i = s.m_clientId j) := by
  refine SlotSteps_of_driver c p
    (fun s => ∀ i j, i < c.MaxClients → j < c.MaxClients → i ≠ j →
      s.m_clientConnected i = true → s.m_clientConnected j = true →
      ¬ (s.m_clientAddress i = s.m_clientAddress j ∧ s.m_clientId i = s.m_clientId j))
    ?_ (fun s s' hs hP => pairs_SlotSteps c s s' hs hP) s h
  intro raw i j hi _ _ hci
  rw [Server.new, resetClientStates_clientConnected _ _ i hi] at hci
  exact Bool.noConfusion hci

/-! ### Claims on the reachable states of the server -/

/-- C1: in every server state reachable from the constructor by
`SendPackets`, `ReceivePackets` and `CheckForTimeOut`, whatever the
transport delivers, `m_numConnectedClients` is the number of indices below
`MaxClients` whose slot is connected, and lies between 0 and `MaxClients`. -/
theorem Server.reachable_numConnectedClients (c : Constants) (p : Primitives) (s : Server)
    (h : Server.Reachable c p s) :
    s.m_numConnectedClients
      = (((Finset.range c.MaxClients).filter
          (fun i => s.m_clientConnected i = true)).card : Int) ∧
    0 ≤ s.m_numConnectedClients ∧ s.m_numConnectedClients ≤ (c.MaxClients : Int) := by
  have hc := count_reachable c p s h
  have hle := countConnected_le s.m_clientConnected c.MaxClients
  refine ⟨?_, ?_, ?_⟩
  · rw [← hc, countConnected_eq_card]
  · rw [← hc]; exact Int.natCast_nonneg _
  · rw [← hc]; exact_mod_cast hle

theorem Server.reachable_numConnectedClients_witness :
    sameIdServer.m_numConnectedClients
      = (((Finset.range exampleConstants.MaxClients).filter
          (fun i => sameIdServer.m_clientConnected i = true)).card : Int) ∧
    0 ≤ sameIdServer.m_numConnectedClients ∧
    sameIdServer.m_numConnectedClients ≤ (exampleConstants.MaxClients : Int) :=
  Server.reachable_numConnectedClients exampleConstants examplePrimitives sameIdServer
    (Server.Reachable.ReceivePackets _ _ 26
      (Server.Reachable.ReceivePackets exampleServer _ 25 (Server.Reachable.ctor exampleRaw)))

/-- C2: in every reachable server state no two distinct connected slots
hold the same (address, client id) pair. -/
theorem Server.reachable_pair_unique (c : Constants) (p : Primitives) (s : Server)
    (h : Server.Reachable c p s) (i j : Nat) (hi : i < c.MaxClients) (hj : j < c.MaxClients)
    (hij : i ≠ j) (hci : s.m_clientConnected i = true) (hcj : s.m_clientConnected j = true) :
    ¬ (s.m_clientAddress i = s.m_clientAddress j ∧ s.m_clientId i = s.m_clientId j) := by
  have hall : ∀ s, Server.Reachable c p s →
      ∀ i j, i < c.MaxClients → j < c.MaxClients → i ≠ j →
        s.m_clientConnected i = true → s.m_clientConnected j = true →
        ¬ (s.m_clientAddress i = s.m_clientAddress j ∧ s.m_clientId i = s.m_clientId j) := by
    intro s hs
    induction hs with
    | ctor raw =>
      intro i j hi _ _ hci
      rw [Server.new, resetClientStates_clientConnected _ _ i hi] at hci
      exact Bool.noConfusion hci
    | SendPackets s w time _ ih =>
      exact pairs_SlotSteps c _ _ (SlotSteps_SendPackets c s w time) ih
    | ReceivePackets s w time _ ih =>
      exact pairs_SlotSteps c _ _ (SlotSteps_ReceivePackets c p s w time) ih
    | CheckForTimeOut s w time _ ih =>
      exact pairs_SlotSteps c _ _ (SlotSteps_CheckForTimeOut c s w time) ih
  exact hall s h i j hi hj hij hci hcj

theorem Server.reachable_pair_unique_witness :
    ¬ (sameIdServer.m_clientAddress 0 = sameIdServer.m_clientAddress 1 ∧
       sameIdServer.m_clientId 0 = sameIdServer.m_clientId 1) :=
  Server.reachable_pair_unique exampleConstants examplePrimitives sameIdServer
    (Server.Reachable.ReceivePackets _ _ 26
      (Server.Reachable.ReceivePackets exampleServer _ 25 (Server.Reachable.ctor exampleRaw)))
    0 1 (by decide) (by decide) (by decide) (by decide) (by decide)

/-- C3 as stated fails on the code: two distinct connected slots of a
reachable state can hold the same client id (two connect tokens for one
client id, presented from different addresses), and two distinct connected slots can hold the same
address (two client ids answering from one address). -/
theorem Server.reachable_same_id_or_same_address :
    (Server.Reachable exampleConstants examplePrimitives sameIdServer ∧
      sameIdServer.m_clientConnected 0 = true ∧ sameIdServer.m_clientConnected 1 = true ∧
      sameIdServer.m_clientId 0 = sameIdServer.m_clientId 1) ∧
    (Server.Reachable exampleConstants examplePrimitives sameAddressServer ∧
      sameAddressServer.m_clientConnected 0 = true ∧
      sameAddressServer.m_clientConnected 1 = true ∧
      sameAddressServer.m_clientAddress 0 = sameAddressServer.m_clientAddress 1) :=
  ⟨⟨Server.Reachable.ReceivePackets _ _ 26
      (Server.Reachable.ReceivePackets exampleServer _ 25 (Server.Reachable.ctor exampleRaw)),
      by decide, by decide, by decide⟩,
   ⟨Server.Reachable.ReceivePackets _ _ 26
      (Server.Reachable.ReceivePackets exampleServer _ 25 (Server.Reachable.ctor exampleRaw)),
      by decide, by decide, by decide⟩⟩

/-- C3, amended: in every reachable server state two distinct connected
slots differ in their client id or in their address. -/
theorem Server.reachable_id_or_address_differ (c : Constants) (p : Primitives) (s : Server)
    (h : Server.Reachable c p s) (i j : Nat) (hi : i < c.MaxClients) (hj : j < c.MaxClients)
    (hij : i ≠ j) (hci : s.m_clientConnected i = true) (hcj : s.m_clientConnected j = true) :
    s.m_clientId i ≠ s.m_clientId j ∨ s.m_clientAddress i ≠ s.m_clientAddress j := by
  have hpair := pairs_reachable c p s h i j hi hj hij hci hcj
  by_cases hid : s.m_clientId i = s.m_clientId j
  · exact Or.inr (fun ha => hpair ⟨ha, hid⟩)
  · exact Or.inl hid

theorem Server.reachable_id_or_address_differ_witness :
    sameAddressServer.m_clientId 0 ≠ sameAddressServer.m_clientId 1 ∨
    sameAddressServer.m_clientAddress 0 ≠ sameAddressServer.m_clientAddress 1 :=
  Server.reachable_id_or_address_differ exampleConstants examplePrimitives sameAddressServer
    (Server.Reachable.ReceivePackets _ _ 26
      (Server.Reachable.ReceivePackets exampleServer _ 25 (Server.Reachable.ctor exampleRaw)))
    0 1 (by decide) (by decide) (by decide) (by decide) (by decide)

/-! ### `ProcessConnectionRequest` -/

theorem World.time_trace (w : World) : w.time.2.trace = w.trace := by
  unfold World.time
  split <;> rfl

theorem World.time_createPacketResults (w : World) :
    w.time.2.createPacketResults = w.createPacketResults := by
  unfold World.time
  split <;> rfl

theorem World.AddEncryptionMapping_trace (w : World) (address : Address)
    (sendKey receiveKey : List Nat) :
    (w.AddEncryptionMapping address sendKey receiveKey).2.trace
      = w.trace ++ [Event.AddEncryptionMapping address sendKey receiveKey
          (w.AddEncryptionMapping address sendKey receiveKey).1] := by
  unfold World.AddEncryptionMapping
  split <;> rfl

theorem World.AddEncryptionMapping_createPacketResults (w : World) (address : Address)
    (sendKey receiveKey : List Nat) :
    (w.AddEncryptionMapping address sendKey receiveKey).2.createPacketResults
      = w.createPacketResults := by
  unfold World.AddEncryptionMapping
  split <;> rfl

theorem World.CreatePacket_trace (w : World) (type : PacketType) :
    (w.CreatePacket type).2.trace = w.trace := by
  unfold World.CreatePacket
  split <;> rfl

theorem World.CreatePacket_congr (w w' : World) (type : PacketType)
    (h : w'.createPacketResults = w.createPacketResults) :
    (w'.CreatePacket type).1 = (w.CreatePacket type).1 := by
  unfold World.CreatePacket
  rw [h]
  split <;> rfl

theorem World.CreatePacket_eq_blank (w : World) (type : PacketType)
    (h : (w.CreatePacket type).1 ≠ none) :
    (w.CreatePacket type).1 = some (Packet.blank type) := by
  unfold World.CreatePacket at h ⊢
  split
  · rfl
  · rename_i ok rest heq
    rw [heq] at h
    cases ok with
    | true => rfl
    | false => exact absurd rfl h

theorem packetsSent_append (t1 t2 : List Event) :
    packetsSent (t1 ++ t2) = packetsSent t1 ++ packetsSent t2 := by
  induction t1 with
  | nil => rfl
  | cons e rest ih =>
    cases e <;> simp [packetsSent, ih]

theorem ProcessConnectionRequest_challengeTokenNonce (c : Constants) (p : Primitives)
    (s : Server) (w : World) (connectTokenData connectTokenNonce : List Nat)
    (address : Address) (time : Time) :
    (s.ProcessConnectionRequest c p w connectTokenData connectTokenNonce
      address time).1.m_challengeTokenNonce = s.m_challengeTokenNonce := by
  rcases ProcessConnectionRequest_server c p s w connectTokenData connectTokenNonce address time
    with h | h
  · rw [h]
  · rw [h, FindOrAddConnectTokenEntry_cache_only]

/-- C8 (the code at a concrete input): the freshly constructed example
server answers two connection requests, from two addresses, with two
challenges; both carry the nonce of counter value 0, and the counter
`m_challengeTokenNonce` is 0 before and after. -/
theorem ProcessConnectionRequest_nonce_reused :
    challengeNonces
        (exampleAfterRequests [(addressA, exampleRequest 7 1),
                               (addressB, exampleRequest 7 2)]).2.trace
      = [nonceBytes 0 8, nonceBytes 0 8] ∧
    exampleServer.m_challengeTokenNonce = 0 ∧
    (exampleAfterRequests [(addressA, exampleRequest 7 1),
                           (addressB, exampleRequest 7 2)]).1.m_challengeTokenNonce = 0 := by
  decide

/-- C9 as stated fails on the code: on the full example server a request
that decrypts and passes every check, received while `CreatePacket` returns
nothing, makes the server hand a null packet to `SendPacket`; no
`ConnectionDenied` packet is emitted. -/
theorem ProcessConnectionRequest_full_null_packet :
    fullServer.m_numConnectedClients = (exampleConstants.MaxClients : Int) ∧
    DecryptConnectToken exampleConstants examplePrimitives (exampleConnectTokenData 9 9) []
        (nonceBytes 0 8) fullServer.m_privateKey = some (exampleConnectToken 9 9) ∧
    serverAddressInWhiteListLoop fullServer.m_serverAddress (exampleConnectToken 9 9)
        (exampleConnectToken 9 9).numServerAddresses.toNat 0 = true ∧
    (exampleConnectToken 9 9).clientId ≠ 0 ∧
    fullServer.IsConnected_address_clientId exampleConstants addressC
        (exampleConnectToken 9 9).clientId = false ∧
    ¬ (exampleConnectToken 9 9).expiryTimestamp ≤ exampleWorldNoPacket.time.1 ∧
    (exampleWorldNoPacket.time.2.AddEncryptionMapping addressC
        (exampleConnectToken 9 9).serverToClientKey
        (exampleConnectToken 9 9).clientToServerKey).1 = true ∧
    packetsSent
        (fullServer.ProcessConnectionRequest exampleConstants examplePrimitives
          exampleWorldNoPacket (exampleConnectTokenData 9 9) (nonceBytes 0 8)
          addressC 30).2.trace
      = [(addressC, none)] := by
  decide

/-- C9, amended: for a server with `m_numConnectedClients == MaxClients` and a
request whose token decrypts and passes the whitelist, client-id,
already-connected, expiry and encryption-mapping checks, if `CreatePacket`
returns a packet then `ProcessConnectionRequest` emits exactly one packet,
a `ConnectionDenied` to the sender, and leaves the server (slot table,
count, cache and nonce counter) unchanged. -/
theorem ProcessConnectionRequest_server_full (c : Constants) (p : Primitives) (s : Server)
    (w : World) (connectTokenData connectTokenNonce : List Nat) (address : Address)
    (time : Time) (connectToken : ConnectToken)
    (hdec : DecryptConnectToken c p connectTokenData [] connectTokenNonce s.m_privateKey
      = some connectToken)
    (hwhite : serverAddressInWhiteListLoop s.m_serverAddress connectToken
      connectToken.numServerAddresses.toNat 0 = true)
    (hid : connectToken.clientId ≠ 0)
    (hnot : s.IsConnected_address_clientId c address connectToken.clientId = false)
    (hexp : ¬ connectToken.expiryTimestamp ≤ w.time.1)
    (hmap : (w.time.2.AddEncryptionMapping address connectToken.serverToClientKey
      connectToken.clientToServerKey).1 = true)
    (hfull : s.m_numConnectedClients = (c.MaxClients : Int))
    (hcreate : (w.CreatePacket PacketType.PACKET_CONNECTION_DENIED).1 ≠ none) :
    (s.ProcessConnectionRequest c p w connectTokenData connectTokenNonce address time).1 = s ∧
    packetsSent
        (s.ProcessConnectionRequest c p w connectTokenData connectTokenNonce
          address time).2.trace
      = packetsSent w.trace ++ [(address, some Packet.ConnectionDenied)] := by
  have hcp : ((w.time.2.AddEncryptionMapping address connectToken.serverToClientKey
      connectToken.clientToServerKey).2.CreatePacket PacketType.PACKET_CONNECTION_DENIED).1
        = some Packet.ConnectionDenied := by
    rw [World.CreatePacket_congr w _ _
      ((World.AddEncryptionMapping_createPacketResults _ _ _ _).trans
        (World.time_createPacketResults w))]
    exact World.CreatePacket_eq_blank w _ hcreate
  have hres : s.ProcessConnectionRequest c p w connectTokenData connectTokenNonce address time
      = (s, ((w.time.2.AddEncryptionMapping address connectToken.serverToClientKey
          connectToken.clientToServerKey).2.CreatePacket
            PacketType.PACKET_CONNECTION_DENIED).2.SendPacket address
              (some Packet.ConnectionDenied)) := by
    unfold Server.ProcessConnectionRequest
    rw [hdec]
    simp only [hwhite, hid, hnot, hexp, hmap, hfull, hcp, Bool.not_true, Bool.false_eq_true,
      if_false, if_true]
  rw [hres]
  refine ⟨rfl, ?_⟩
  simp only [World.SendPacket, World.CreatePacket_trace, World.AddEncryptionMapping_trace,
    World.time_trace, packetsSent_append, packetsSent, List.append_nil]

theorem ProcessConnectionRequest_server_full_witness :
    (fullServer.ProcessConnectionRequest exampleConstants examplePrimitives (exampleWorld [])
        (exampleConnectTokenData 9 9) (nonceBytes 0 8) addressC 30).1 = fullServer ∧
    packetsSent
        (fullServer.ProcessConnectionRequest exampleConstants examplePrimitives
          (exampleWorld []) (exampleConnectTokenData 9 9) (nonceBytes 0 8)
          addressC 30).2.trace
      = packetsSent (exampleWorld []).trace ++ [(addressC, some Packet.ConnectionDenied)] :=
  ProcessConnectionRequest_server_full exampleConstants examplePrimitives fullServer
    (exampleWorld []) (exampleConnectTokenData 9 9) (nonceBytes 0 8) addressC 30
    (exampleConnectToken 9 9) (by decide) (by decide) (by decide) (by decide) (by decide)
    (by decide) (by decide) (by decide)

/-- C10: a request whose decrypted token has `expiryTimestamp` not above
the wall clock (equality included) leaves the whole server unchanged (slot
table, cache, nonce counter), adds no call to the trace (no packet, no
encryption mapping), and does so for every value of the monotonic time. -/
theorem ProcessConnectionRequest_expired (c : Constants) (p : Primitives) (s : Server)
    (w : World) (connectTokenData connectTokenNonce : List Nat) (address : Address)
    (time : Time) (connectToken : ConnectToken)
    (hdec : DecryptConnectToken c p connectTokenData [] connectTokenNonce s.m_privateKey
      = some connectToken)
    (hexp : connectToken.expiryTimestamp ≤ w.time.1) :
    (s.ProcessConnectionRequest c p w connectTokenData connectTokenNonce address time).1 = s ∧
    (s.ProcessConnectionRequest c p w connectTokenData connectTokenNonce
      address time).2.trace = w.trace ∧
    ∀ time', s.ProcessConnectionRequest c p w connectTokenData connectTokenNonce address time'
      = s.ProcessConnectionRequest c p w connectTokenData connectTokenNonce address time := by
  have hres : ∀ t, s.ProcessConnectionRequest c p w connectTokenData connectTokenNonce address t
      = (s, w) ∨
      s.ProcessConnectionRequest c p w connectTokenData connectTokenNonce address t
      = (s, w.time.2) := by
    intro t
    unfold Server.ProcessConnectionRequest
    rw [hdec]
    simp only [hexp, if_true]
    split_ifs
    · exact Or.inl rfl
    · exact Or.inl rfl
    · exact Or.inl rfl
    · exact Or.inr rfl
  have hsame : ∀ t,
      s.ProcessConnectionRequest c p w connectTokenData connectTokenNonce address t
      = s.ProcessConnectionRequest c p w connectTokenData connectTokenNonce address time := by
    intro t
    unfold Server.ProcessConnectionRequest
    rw [hdec]
    simp only [hexp, if_true]
  refine ⟨?_, ?_, hsame⟩
  · rcases hres time with h | h <;> rw [h]
  · rcases hres time with h | h
    · rw [h]
    · rw [h]; exact World.time_trace w

theorem ProcessConnectionRequest_expired_witness :
    (exampleServer.ProcessConnectionRequest exampleConstants examplePrimitives
        exampleWorldAt100 (exampleConnectTokenData 7 1) (nonceBytes 0 8) addressA 30).1
      = exampleServer ∧
    (exampleServer.ProcessConnectionRequest exampleConstants examplePrimitives
        exampleWorldAt100 (exampleConnectTokenData 7 1) (nonceBytes 0 8) addressA 30).2.trace
      = exampleWorldAt100.trace ∧
    ∀ time', exampleServer.ProcessConnectionRequest exampleConstants examplePrimitives
        exampleWorldAt100 (exampleConnectTokenData 7 1) (nonceBytes 0 8) addressA time'
      = exampleServer.ProcessConnectionRequest exampleConstants examplePrimitives
        exampleWorldAt100 (exampleConnectTokenData 7 1) (nonceBytes 0 8) addressA 30 :=
  ProcessConnectionRequest_expired exampleConstants examplePrimitives exampleServer
    exampleWorldAt100 (exampleConnectTokenData 7 1) (nonceBytes 0 8) addressA 30
    (exampleConnectToken 7 1) (by decide) (by decide)

/-! ### Rejected connect tokens -/

theorem serverAddressInWhiteListLoop_false (serverAddress : Address)
    (connectToken : ConnectToken) :
    ∀ fuel i,
      (∀ j, i ≤ j → j < i + fuel →
        connectToken.serverAddresses.getD j Address.undefined ≠ serverAddress) →
      serverAddressInWhiteListLoop serverAddress connectToken fuel i = false := by
  intro fuel
  induction fuel with
  | zero => intro i _; rfl
  | succ fuel ih =>
    intro i h
    have hi : ¬ serverAddress = connectToken.serverAddresses.getD i Address.undefined :=
      fun heq => h i (le_refl _) (by omega) heq.symm
    rw [serverAddressInWhiteListLoop, if_neg hi]
    exact ih (i + 1) (fun j hj hjn => h j (by omega) (by omega))

/-- C11: a request whose decrypted token has `clientId == 0`, or whose
`serverAddresses[0 .. numServerAddresses)` does not contain
`m_serverAddress`, leaves the server and the world as they were: no packet
is emitted, no encryption mapping is installed, and the slot table, the
connect-token cache and the nonce counter are unchanged. -/
theorem ProcessConnectionRequest_rejected_token (c : Constants) (p : Primitives) (s : Server)
    (w : World) (connectTokenData connectTokenNonce : List Nat) (address : Address)
    (time : Time) (connectToken : ConnectToken)
    (hdec : DecryptConnectToken c p connectTokenData [] connectTokenNonce s.m_privateKey
      = some connectToken)
    (hbad : connectToken.clientId = 0 ∨
      ∀ i, i < connectToken.numServerAddresses.toNat →
        connectToken.serverAddresses.getD i Address.undefined ≠ s.m_serverAddress) :
    s.ProcessConnectionRequest c p w connectTokenData connectTokenNonce address time = (s, w) ∧
    (s.ProcessConnectionRequest c p w connectTokenData connectTokenNonce
      address time).2.trace = w.trace := by
  have hres : s.ProcessConnectionRequest c p w connectTokenData connectTokenNonce address time
      = (s, w) := by
    unfold Server.ProcessConnectionRequest
    rw [hdec]
    dsimp only
    rcases hbad with hid | hlist
    · by_cases hw : serverAddressInWhiteListLoop s.m_serverAddress connectToken
          connectToken.numServerAddresses.toNat 0 = true
      · simp only [hw, hid, Bool.not_true, Bool.false_eq_true, if_false, if_true]
      · have hw' : serverAddressInWhiteListLoop s.m_serverAddress connectToken
            connectToken.numServerAddresses.toNat 0 = false := by simpa using hw
        simp only [hw', Bool.not_false, if_true]
    · have hw := serverAddressInWhiteListLoop_false s.m_serverAddress connectToken
        connectToken.numServerAddresses.toNat 0
        (fun j _ hj => hlist j (by omega))
      simp only [hw, Bool.not_false, if_true]
  rw [hres]
  exact ⟨rfl, rfl⟩

theorem ProcessConnectionRequest_rejected_token_witness :
    exampleServer.ProcessConnectionRequest exampleConstants examplePrimitives (exampleWorld [])
        (exampleConnectTokenData 0 1) (nonceBytes 0 8) addressA 30
      = (exampleServer, exampleWorld []) ∧
    (exampleServer.ProcessConnectionRequest exampleConstants examplePrimitives (exampleWorld [])
        (exampleConnectTokenData 0 1) (nonceBytes 0 8) addressA 30).2.trace
      = (exampleWorld []).trace :=
  ProcessConnectionRequest_rejected_token exampleConstants examplePrimitives exampleServer
    (exampleWorld []) (exampleConnectTokenData 0 1) (nonceBytes 0 8) addressA 30
    (exampleConnectToken 0 1) (by decide) (Or.inl (by decide))

/-! ### Free slots are reset -/

theorem ConnectClient_clientData_of_ne (s : Server) (w : World) (i j : Nat)
    (challengeToken : ChallengeToken) (time : Time) (hne : j ≠ i) :
    (s.ConnectClient w i challengeToken time).1.m_clientData j = s.m_clientData j := by
  unfold Server.ConnectClient
  dsimp only
  split
  · simp [Server.SendPacketToConnectedClient, Function.update_noteq hne]
  · simp [Function.update_noteq hne]

theorem freeReset_SlotStep (c : Constants) (s s' : Server) (h : Server.SlotStep c s s')
    (hinv : ∀ i, i < c.MaxClients → s.m_clientConnected i = false →
      s.m_clientId i = 0 ∧ s.m_clientAddress i = Address.undefined ∧
      s.m_clientData i = ServerClientData.default) :
    ∀ i, i < c.MaxClients → s'.m_clientConnected i = false →
      s'.m_clientId i = 0 ∧ s'.m_clientAddress i = Address.undefined ∧
      s'.m_clientData i = ServerClientData.default := by
  cases h with
  | frame _ h1 h2 h3 _ h5 =>
    intro i hi hc
    rw [h1] at hc
    rw [h2, h3, h5 i hc]
    exact hinv i hi hc
  | connect w k tok time hk hfree _ _ =>
    intro i hi
    rw [ConnectClient_clientConnected, ConnectClient_clientId, ConnectClient_clientAddress]
    intro hc
    by_cases hik : i = k
    · rw [hik, Function.update_same] at hc
      exact Bool.noConfusion hc
    · rw [Function.update_noteq hik] at hc
      rw [Function.update_noteq hik, Function.update_noteq hik,
        ConnectClient_clientData_of_ne s w k i tok time hik]
      exact hinv i hi hc
  | disconnect w k time hk hconn =>
    intro i hi
    show Function.update s.m_clientConnected k false i = false →
      Function.update s.m_clientId k 0 i = 0 ∧
      Function.update s.m_clientAddress k Address.undefined i = Address.undefined ∧
      Function.update
        (Function.update s.m_clientData k
          { s.m_clientData k with lastPacketSendTime := time }) k
        ServerClientData.default i = ServerClientData.default
    intro hc
    by_cases hik : i = k
    · rw [hik, Function.update_same, Function.update_same, Function.update_same]
      exact ⟨rfl, rfl, rfl⟩
    · rw [Function.update_noteq hik] at hc
      rw [Function.update_noteq hik, Function.update_noteq hik, Function.update_noteq hik,
        Function.update_noteq hik]
      exact hinv i hi hc

theorem freeReset_SlotSteps (c : Constants) (s s' : Server) (h : Server.SlotSteps c s s')
    (hinv : ∀ i, i < c.MaxClients → s.m_clientConnected i = false →
      s.m_clientId i = 0 ∧ s.m_clientAddress i = Address.undefined ∧
      s.m_clientData i = ServerClientData.default) :
    ∀ i, i < c.MaxClients → s'.m_clientConnected i = false →
      s'.m_clientId i = 0 ∧ s'.m_clientAddress i = Address.undefined ∧
      s'.m_clientData i = ServerClientData.default := by
  induction h with
  | refl => exact hinv
  | tail _ hstep ih => exact freeReset_SlotStep c _ _ hstep ih

theorem resetClientStates_slot (s : Server) :
    ∀ n i, i < n →
      (Server.resetClientStates s n).m_clientId i = 0 ∧
      (Server.resetClientStates s n).m_clientAddress i = Address.undefined ∧
      (Server.resetClientStates s n).m_clientData i = ServerClientData.default := by
  intro n
  induction n with
  | zero => intro i hi; omega
  | succ n ih =>
    intro i hi
    rw [Server.resetClientStates]
    rcases Nat.lt_succ_iff_lt_or_eq.mp hi with hlt | heq
    · have hne : i ≠ n := by omega
      simp only [Server.ResetClientState, Function.update_noteq hne]
      exact ih i hlt
    · subst heq
      simp [Server.ResetClientState]

/-- C17: in every reachable server state a slot below `MaxClients` that is
not connected has client id 0, the default (invalid) address, and default
`ServerClientData`. -/
theorem Server.reachable_free_slot_reset (c : Constants) (p : Primitives) (s : Server)
    (h : Server.Reachable c p s) (i : Nat) (hi : i < c.MaxClients)
    (hfree : s.m_clientConnected i = false) :
    s.m_clientId i = 0 ∧ s.m_clientAddress i = Address.undefined ∧
    s.m_clientData i = ServerClientData.default := by
  refine SlotSteps_of_driver c p
    (fun s => ∀ i, i < c.MaxClients → s.m_clientConnected i = false →
      s.m_clientId i = 0 ∧ s.m_clientAddress i = Address.undefined ∧
      s.m_clientData i = ServerClientData.default)
    ?_ (fun s s' hs hP => freeReset_SlotSteps c s s' hs hP) s h i hi hfree
  intro raw j hj _
  exact resetClientStates_slot _ c.MaxClients j hj

theorem Server.reachable_free_slot_reset_witness :
    timedOutServer.m_clientId 0 = 0 ∧ timedOutServer.m_clientAddress 0 = Address.undefined ∧
    timedOutServer.m_clientData 0 = ServerClientData.default :=
  Server.reachable_free_slot_reset exampleConstants examplePrimitives timedOutServer
    (Server.Reachable.CheckForTimeOut _ _ 100000
      (Server.Reachable.ReceivePackets _ _ 26
        (Server.Reachable.ReceivePackets exampleServer _ 25
          (Server.Reachable.ctor exampleRaw))))
    0 (by decide) (by decide)

/-! ### `Server::SendPackets` -/

/-- C14 (the code at a concrete input): in `staggeredServer` slots 0 and 1
are connected, slot 0 was last sent to at time 200 and slot 1 at time 26.
`SendPackets( 250 )` finds slot 0 not yet due and returns: slot 1, which is
connected and due (`26 + ConnectionHeartBeatRate <= 250`), is sent no
packet and keeps `lastPacketSendTime == 26`. -/
theorem SendPackets_starves_later_slot :
    staggeredServer.m_clientConnected 0 = true ∧
    staggeredServer.m_clientConnected 1 = true ∧
    ¬ ((staggeredServer.m_clientData 0).lastPacketSendTime
        + exampleConstants.ConnectionHeartBeatRate ≤ 250) ∧
    (staggeredServer.m_clientData 1).lastPacketSendTime
        + exampleConstants.ConnectionHeartBeatRate ≤ 250 ∧
    packetsSent (staggeredServer.SendPackets exampleConstants (exampleWorld []) 250).2.trace
      = [] ∧
    ((staggeredServer.SendPackets exampleConstants (exampleWorld []) 250).1.m_clientData
      1).lastPacketSendTime = 26 := by
  decide

/-! ### `ProcessConnectionResponse` -/

theorem World.fire_CreatePacket (w : World) (e : Event) (type : PacketType) :
    ((w.fire e).CreatePacket type).1 = (w.CreatePacket type).1 :=
  World.CreatePacket_congr w (w.fire e) type rfl

theorem ConnectClient_clientData_same (s : Server) (w : World) (i : Nat)
    (challengeToken : ChallengeToken) (time : Time) :
    (s.ConnectClient w i challengeToken time).1.m_clientData i
      = { address := challengeToken.clientAddress,
          clientId := challengeToken.clientId,
          connectTime := time,
          lastPacketSendTime := time,
          lastPacketReceiveTime := time } := by
  unfold Server.ConnectClient
  dsimp only
  split
  · simp [Server.SendPacketToConnectedClient]
  · simp

theorem ConnectClient_trace (s : Server) (w : World) (i : Nat)
    (challengeToken : ChallengeToken) (time : Time) :
    (s.ConnectClient w i challengeToken time).2.trace
      = w.trace ++ Event.OnClientConnect i ::
          (if (w.CreatePacket PacketType.PACKET_CONNECTION_HEARTBEAT).1 = none then []
           else [Event.SendPacket challengeToken.clientAddress
                  (some Packet.ConnectionHeartBeat)]) := by
  unfold Server.ConnectClient
  rcases hres : w.createPacketResults with _ | ⟨ok, rest⟩
  · simp [World.CreatePacket, World.fire, hres, Server.SendPacketToConnectedClient,
      World.SendPacket, Packet.blank]
  · cases ok
    · simp [World.CreatePacket, World.fire, hres]
    · simp [World.CreatePacket, World.fire, hres, Server.SendPacketToConnectedClient,
        World.SendPacket, Packet.blank]

theorem ProcessConnectionResponse_new_client (c : Constants) (p : Primitives) (s : Server)
    (w : World) (challengeTokenData challengeTokenNonce : List Nat) (address : Address)
    (time : Time) (challengeToken : ChallengeToken)
    (hdec : DecryptChallengeToken c p challengeTokenData [] challengeTokenNonce s.m_privateKey
      = some challengeToken)
    (haddr : challengeToken.clientAddress = address)
    (hserver : challengeToken.serverAddress = s.m_serverAddress)
    (hnew : ∀ k, k < c.MaxClients → s.m_clientConnected k = true →
      ¬ (s.m_clientAddress k = address ∧ s.m_clientId k = challengeToken.clientId))
    (hnotfull : s.m_numConnectedClients ≠ (c.MaxClients : Int))
    (hfree : ∃ i, i < c.MaxClients ∧ s.m_clientConnected i = false) :
    ∃ i, i < c.MaxClients ∧ s.m_clientConnected i = false ∧
      (∀ j, j < i → s.m_clientConnected j = true) ∧
      s.ProcessConnectionResponse c p w challengeTokenData challengeTokenNonce address time
        = s.ConnectClient w i challengeToken time := by
  unfold Server.ProcessConnectionResponse
  rw [hdec]
  have hs : ¬ challengeToken.serverAddress ≠ s.m_serverAddress := fun h => h hserver
  have ha : ¬ challengeToken.clientAddress ≠ address := fun h => h haddr
  simp only [if_neg ha, if_neg hs]
  rcases FindExistingClientIndex_address_clientId_spec c s address challengeToken.clientId
    with ⟨he, _⟩ | ⟨k, _, hk, hid, hconn, hka⟩
  · rw [he]
    simp only [ne_eq, not_true_eq_false, if_false, if_neg hnotfull]
    rcases FindFreeClientIndex_spec c s with ⟨_, hall⟩ | ⟨i, hf, hi, hfreei, hlow⟩
    · obtain ⟨i, hi, hfreei⟩ := hfree
      rw [hall i hi] at hfreei
      exact Bool.noConfusion hfreei
    · refine ⟨i, hi, hfreei, hlow, ?_⟩
      rw [hf]
      simp only [natCast_ne_neg_one, if_false, Int.toNat_ofNat]
  · exact absurd ⟨hka, hid⟩ (hnew k hk hconn)

/-- C12 as stated fails on the code: the example server has challenged
the client at `addressA`, is not full and holds no slot for the client; the
client's `ConnectionResponse` arrives while `CreatePacket` returns nothing.
The client is connected in slot 0 and `OnClientConnect( 0 )` fires, but no
`ConnectionHeartBeat` is emitted. -/
theorem ProcessConnectionResponse_connects_without_heartbeat :
    DecryptChallengeToken exampleConstants examplePrimitives challengeA.1 [] challengeA.2
        pendingServer.m_privateKey = some challengeTokenA ∧
    challengeTokenA.clientAddress = addressA ∧
    challengeTokenA.serverAddress = pendingServer.m_serverAddress ∧
    pendingServer.m_numConnectedClients = 0 ∧
    (∀ k, k < exampleConstants.MaxClients → pendingServer.m_clientConnected k = false) ∧
    (pendingServer.ProcessConnectionResponse exampleConstants examplePrimitives
        (exampleWorldFailing []) challengeA.1 challengeA.2 addressA 26).1.m_clientConnected 0
      = true ∧
    (pendingServer.ProcessConnectionResponse exampleConstants examplePrimitives
        (exampleWorldFailing []) challengeA.1 challengeA.2 addressA 26).2.trace
      = [Event.OnClientConnect 0] ∧
    packetsSent
        (pendingServer.ProcessConnectionResponse exampleConstants examplePrimitives
          (exampleWorldFailing []) challengeA.1 challengeA.2 addressA 26).2.trace
      = [] := by
  decide

/-- C12, amended: for a server that is not full (`m_numConnectedClients !=
MaxClients` and some slot below `MaxClients` is free) and a
`ConnectionResponse` from address `a` whose challenge token decrypts with
`clientAddress == a`, `serverAddress == m_serverAddress` and no connected slot
holding `(a, clientId)`, `ProcessConnectionResponse` connects the
lowest-index free slot `i`: it sets `m_clientId[i]`, `m_clientAddress[i]`,
`connectTime = lastPacketSendTime = lastPacketReceiveTime = time`,
increments `m_numConnectedClients` by one, leaves every other slot
unchanged, fires `OnClientConnect( i )` and then emits one
`ConnectionHeartBeat` to `a` if `CreatePacket` returns a packet, and no
packet otherwise. -/
theorem ProcessConnectionResponse_connects (c : Constants) (p : Primitives) (s : Server)
    (w : World) (challengeTokenData challengeTokenNonce : List Nat) (address : Address)
    (time : Time) (challengeToken : ChallengeToken)
    (hdec : DecryptChallengeToken c p challengeTokenData [] challengeTokenNonce s.m_privateKey
      = some challengeToken)
    (haddr : challengeToken.clientAddress = address)
    (hserver : challengeToken.serverAddress = s.m_serverAddress)
    (hnew : ∀ k, k < c.MaxClients → s.m_clientConnected k = true →
      ¬ (s.m_clientAddress k = address ∧ s.m_clientId k = challengeToken.clientId))
    (hnotfull : s.m_numConnectedClients ≠ (c.MaxClients : Int))
    (hfree : ∃ i, i < c.MaxClients ∧ s.m_clientConnected i = false) :
    ∃ i, i < c.MaxClients ∧ s.m_clientConnected i = false ∧
      (∀ j, j < i → s.m_clientConnected j = true) ∧
      (s.ProcessConnectionResponse c p w challengeTokenData challengeTokenNonce
        address time).1.m_clientConnected i = true ∧
      (s.ProcessConnectionResponse c p w challengeTokenData challengeTokenNonce
        address time).1.m_clientId i = challengeToken.clientId ∧
      (s.ProcessConnectionResponse c p w challengeTokenData challengeTokenNonce
        address time).1.m_clientAddress i = address ∧
      ((s.ProcessConnectionResponse c p w challengeTokenData challengeTokenNonce
        address time).1.m_clientData i).connectTime = time ∧
      ((s.ProcessConnectionResponse c p w challengeTokenData challengeTokenNonce
        address time).1.m_clientData i).lastPacketSendTime = time ∧
      ((s.ProcessConnectionResponse c p w challengeTokenData challengeTokenNonce
        address time).1.m_clientData i).lastPacketReceiveTime = time ∧
      (s.ProcessConnectionResponse c p w challengeTokenData challengeTokenNonce
        address time).1.m_numConnectedClients = s.m_numConnectedClients + 1 ∧
      (∀ j, j ≠ i →
        (s.ProcessConnectionResponse c p w challengeTokenData challengeTokenNonce
          address time).1.m_clientConnected j = s.m_clientConnected j ∧
        (s.ProcessConnectionResponse c p w challengeTokenData challengeTokenNonce
          address time).1.m_clientId j = s.m_clientId j ∧
        (s.ProcessConnectionResponse c p w challengeTokenData challengeTokenNonce
          address time).1.m_clientAddress j = s.m_clientAddress j ∧
        (s.ProcessConnectionResponse c p w challengeTokenData challengeTokenNonce
          address time).1.m_clientData j = s.m_clientData j) ∧
      (s.ProcessConnectionResponse c p w challengeTokenData challengeTokenNonce
        address time).2.trace
        = w.trace ++ Event.OnClientConnect i ::
            (if (w.CreatePacket PacketType.PACKET_CONNECTION_HEARTBEAT).1 = none then []
             else [Event.SendPacket address (some Packet.ConnectionHeartBeat)]) := by
  obtain ⟨i, hi, hfreei, hlow, hres⟩ :=
    ProcessConnectionResponse_new_client c p s w challengeTokenData challengeTokenNonce
      address time challengeToken hdec haddr hserver hnew hnotfull hfree
  refine ⟨i, hi, hfreei, hlow, ?_⟩
  rw [hres, ConnectClient_clientConnected, ConnectClient_clientId, ConnectClient_clientAddress,
    ConnectClient_clientData_same, ConnectClient_numConnectedClients, ConnectClient_trace, haddr]
  refine ⟨Function.update_same _ _ _, Function.update_same _ _ _, Function.update_same _ _ _,
    rfl, rfl, rfl, rfl, ?_, rfl⟩
  intro j hj
  exact ⟨Function.update_noteq hj _ _, Function.update_noteq hj _ _,
    Function.update_noteq hj _ _, ConnectClient_clientData_of_ne s w i j challengeToken time hj⟩

theorem ProcessConnectionResponse_connects_witness :
    ∃ i, i < exampleConstants.MaxClients ∧ pendingServer.m_clientConnected i = false ∧
      (∀ j, j < i → pendingServer.m_clientConnected j = true) ∧
      (pendingServer.ProcessConnectionResponse exampleConstants examplePrimitives
        (exampleWorld []) challengeA.1 challengeA.2 addressA 26).1.m_clientConnected i = true ∧
      (pendingServer.ProcessConnectionResponse exampleConstants examplePrimitives
        (exampleWorld []) challengeA.1 challengeA.2 addressA 26).1.m_clientId i
        = challengeTokenA.clientId ∧
      (pendingServer.ProcessConnectionResponse exampleConstants examplePrimitives
        (exampleWorld []) challengeA.1 challengeA.2 addressA 26).1.m_clientAddress i
        = addressA ∧
      ((pendingServer.ProcessConnectionResponse exampleConstants examplePrimitives
        (exampleWorld []) challengeA.1 challengeA.2 addressA 26).1.m_clientData i).connectTime
        = 26 ∧
      ((pendingServer.ProcessConnectionResponse exampleConstants examplePrimitives
        (exampleWorld []) challengeA.1 challengeA.2 addressA
          26).1.m_clientData i).lastPacketSendTime = 26 ∧
      ((pendingServer.ProcessConnectionResponse exampleConstants examplePrimitives
        (exampleWorld []) challengeA.1 challengeA.2 addressA
          26).1.m_clientData i).lastPacketReceiveTime = 26 ∧
      (pendingServer.ProcessConnectionResponse exampleConstants examplePrimitives
        (exampleWorld []) challengeA.1 challengeA.2 addressA 26).1.m_numConnectedClients
        = pendingServer.m_numConnectedClients + 1 ∧
      (∀ j, j ≠ i →
        (pendingServer.ProcessConnectionResponse exampleConstants examplePrimitives
          (exampleWorld []) challengeA.1 challengeA.2 addressA 26).1.m_clientConnected j
          = pendingServer.m_clientConnected j ∧
        (pendingServer.ProcessConnectionResponse exampleConstants examplePrimitives
          (exampleWorld []) challengeA.1 challengeA.2 addressA 26).1.m_clientId j
          = pendingServer.m_clientId j ∧
        (pendingServer.ProcessConnectionResponse exampleConstants examplePrimitives
          (exampleWorld []) challengeA.1 challengeA.2 addressA 26).1.m_clientAddress j
          = pendingServer.m_clientAddress j ∧
        (pendingServer.ProcessConnectionResponse exampleConstants examplePrimitives
          (exampleWorld []) challengeA.1 challengeA.2 addressA 26).1.m_clientData j
          = pendingServer.m_clientData j) ∧
      (pendingServer.ProcessConnectionResponse exampleConstants examplePrimitives
        (exampleWorld []) challengeA.1 challengeA.2 addressA 26).2.trace
        = (exampleWorld []).trace ++ Event.OnClientConnect i ::
            (if ((exampleWorld []).CreatePacket PacketType.PACKET_CONNECTION_HEARTBEAT).1
                = none then []
             else [Event.SendPacket addressA (some Packet.ConnectionHeartBeat)]) :=
  ProcessConnectionResponse_connects exampleConstants examplePrimitives pendingServer
    (exampleWorld []) challengeA.1 challengeA.2 addressA 26 challengeTokenA
    (by decide) (by decide) (by decide) (by decide) (by decide) ⟨0, by decide, by decide⟩

theorem findExistingByAddressAndIdLoop_first (s : Server) (address : Address) (clientId : Nat)
    (k : Nat)
    (hmatch : s.m_clientId k = clientId ∧ s.m_clientConnected k = true ∧
      s.m_clientAddress k = address) :
    ∀ fuel i, i ≤ k → k < i + fuel →
      (∀ j, i ≤ j → j < k →
        ¬ (s.m_clientId j = clientId ∧ s.m_clientConnected j = true ∧
           s.m_clientAddress j = address)) →
      s.findExistingByAddressAndIdLoop address clientId fuel i = (k : Int) := by
  intro fuel
  induction fuel with
  | zero => intro i h1 h2; omega
  | succ fuel ih =>
    intro i hik hk hlow
    rcases Nat.eq_or_lt_of_le hik with heq | hlt
    · subst heq
      simp [Server.findExistingByAddressAndIdLoop, hmatch.1, hmatch.2.1, hmatch.2.2]
    · have hni := hlow i (le_refl _) hlt
      rw [Server.findExistingByAddressAndIdLoop, if_neg (by simpa [and_assoc] using hni)]
      exact ih (i + 1) hlt (by omega) (fun j hj hjk => hlow j (by omega) hjk)

theorem ProcessConnectionResponse_existing (c : Constants) (p : Primitives) (s : Server)
    (w : World) (challengeTokenData challengeTokenNonce : List Nat) (address : Address)
    (time : Time) (challengeToken : ChallengeToken) (k : Nat)
    (hdec : DecryptChallengeToken c p challengeTokenData [] challengeTokenNonce s.m_privateKey
      = some challengeToken)
    (haddr : challengeToken.clientAddress = address)
    (hserver : challengeToken.serverAddress = s.m_serverAddress)
    (hk : k < c.MaxClients)
    (hmatch : s.m_clientId k = challengeToken.clientId ∧ s.m_clientConnected k = true ∧
      s.m_clientAddress k = address)
    (hlow : ∀ j, j < k →
      ¬ (s.m_clientId j = challengeToken.clientId ∧ s.m_clientConnected j = true ∧
         s.m_clientAddress j = address)) :
    s.ProcessConnectionResponse c p w challengeTokenData challengeTokenNonce address time
      = if addDouble (s.m_clientData k).lastPacketSendTime c.ConnectionConfirmSendRate < time then
          (match (w.CreatePacket PacketType.PACKET_CONNECTION_HEARTBEAT).1 with
           | some connectionHeartBeatPacket =>
             s.SendPacketToConnectedClient
               (w.CreatePacket PacketType.PACKET_CONNECTION_HEARTBEAT).2 k
               (some connectionHeartBeatPacket) time
           | none => (s, (w.CreatePacket PacketType.PACKET_CONNECTION_HEARTBEAT).2))
        else (s, w) := by
  have hfind : s.FindExistingClientIndex_address_clientId c address challengeToken.clientId
      = (k : Int) :=
    findExistingByAddressAndIdLoop_first s address challengeToken.clientId k hmatch
      c.MaxClients 0 (Nat.zero_le k) (by omega) (fun j _ hj => hlow j hj)
  have hs : ¬ challengeToken.serverAddress ≠ s.m_serverAddress := fun h => h hserver
  have ha : ¬ challengeToken.clientAddress ≠ address := fun h => h haddr
  unfold Server.ProcessConnectionResponse
  rw [hdec]
  simp only [if_neg ha, if_neg hs, hfind, ne_eq, natCast_ne_neg_one, not_false_eq_true,
    if_true, Int.toNat_ofNat]

theorem ProcessConnectionResponse_existing_sent (c : Constants) (p : Primitives) (s : Server)
    (w : World) (challengeTokenData challengeTokenNonce : List Nat) (address : Address)
    (time : Time) (challengeToken : ChallengeToken) (k : Nat)
    (hdec : DecryptChallengeToken c p challengeTokenData [] challengeTokenNonce s.m_privateKey
      = some challengeToken)
    (haddr : challengeToken.clientAddress = address)
    (hserver : challengeToken.serverAddress = s.m_serverAddress)
    (hk : k < c.MaxClients)
    (hmatch : s.m_clientId k = challengeToken.clientId ∧ s.m_clientConnected k = true ∧
      s.m_clientAddress k = address)
    (hlow : ∀ j, j < k →
      ¬ (s.m_clientId j = challengeToken.clientId ∧ s.m_clientConnected j = true ∧
         s.m_clientAddress j = address))
    (hdue : addDouble (s.m_clientData k).lastPacketSendTime c.ConnectionConfirmSendRate < time)
    (hcreate : (w.CreatePacket PacketType.PACKET_CONNECTION_HEARTBEAT).1 ≠ none) :
    s.ProcessConnectionResponse c p w challengeTokenData challengeTokenNonce address time
      = s.SendPacketToConnectedClient
          (w.CreatePacket PacketType.PACKET_CONNECTION_HEARTBEAT).2 k
          (some Packet.ConnectionHeartBeat) time := by
  rw [ProcessConnectionResponse_existing c p s w challengeTokenData challengeTokenNonce address
    time challengeToken k hdec haddr hserver hk hmatch hlow, if_pos hdue]
  have hb := World.CreatePacket_eq_blank w _ hcreate
  rw [hb]
  rfl

theorem ProcessConnectionResponse_existing_silent (c : Constants) (p : Primitives) (s : Server)
    (w : World) (challengeTokenData challengeTokenNonce : List Nat) (address : Address)
    (time : Time) (challengeToken : ChallengeToken) (k : Nat)
    (hdec : DecryptChallengeToken c p challengeTokenData [] challengeTokenNonce s.m_privateKey
      = some challengeToken)
    (haddr : challengeToken.clientAddress = address)
    (hserver : challengeToken.serverAddress = s.m_serverAddress)
    (hk : k < c.MaxClients)
    (hmatch : s.m_clientId k = challengeToken.clientId ∧ s.m_clientConnected k = true ∧
      s.m_clientAddress k = address)
    (hlow : ∀ j, j < k →
      ¬ (s.m_clientId j = challengeToken.clientId ∧ s.m_clientConnected j = true ∧
         s.m_clientAddress j = address))
    (hnot : ¬ (addDouble (s.m_clientData k).lastPacketSendTime c.ConnectionConfirmSendRate < time ∧
      (w.CreatePacket PacketType.PACKET_CONNECTION_HEARTBEAT).1 ≠ none)) :
    (s.ProcessConnectionResponse c p w challengeTokenData challengeTokenNonce address time).1
      = s ∧
    (s.ProcessConnectionResponse c p w challengeTokenData challengeTokenNonce
      address time).2.trace = w.trace := by
  rw [ProcessConnectionResponse_existing c p s w challengeTokenData challengeTokenNonce address
    time challengeToken k hdec haddr hserver hk hmatch hlow]
  by_cases hdue : addDouble (s.m_clientData k).lastPacketSendTime c.ConnectionConfirmSendRate < time
  · have hnone : (w.CreatePacket PacketType.PACKET_CONNECTION_HEARTBEAT).1 = none := by
      by_contra h
      exact hnot ⟨hdue, h⟩
    rw [if_pos hdue, hnone]
    exact ⟨rfl, World.CreatePacket_trace w _⟩
  · rw [if_neg hdue]
    exact ⟨rfl, rfl⟩

/-! ### Runs of the server on a monotonic clock -/

theorem Action_sentSince (c : Constants) (time t0 : Time) (address : Address) (clientId : Nat)
    (s s' : Server) (h : Server.Action time s s') (ht : t0 ≤ time)
    (hinv : s.sentSince c address clientId t0) : s'.sentSince c address clientId t0 := by
  cases h with
  | cache e => exact hinv
  | send w i packet =>
    intro j hj hc ha hid
    by_cases hji : j = i
    · subst hji
      simp only [Server.SendPacketToConnectedClient, Function.update_same]
      exact ht
    · simp only [Server.SendPacketToConnectedClient, Function.update_noteq hji]
      exact hinv j hj hc ha hid
  | receive i =>
    intro j hj hc ha hid
    by_cases hji : j = i
    · subst hji
      simp only [Function.update_same]
      exact hinv j hj hc ha hid
    · simp only [Function.update_noteq hji]
      exact hinv j hj hc ha hid
  | connect w i challengeToken =>
    intro j hj hc ha hid
    by_cases hji : j = i
    · subst hji
      rw [ConnectClient_clientData_same]
      exact ht
    · rw [ConnectClient_clientConnected, Function.update_noteq hji] at hc
      rw [ConnectClient_clientAddress, Function.update_noteq hji] at ha
      rw [ConnectClient_clientId, Function.update_noteq hji] at hid
      rw [ConnectClient_clientData_of_ne s w i j challengeToken time hji]
      exact hinv j hj hc ha hid
  | disconnect w i =>
    intro j hj hc ha hid
    by_cases hji : j = i
    · subst hji
      simp [Server.DisconnectClient, Server.ResetClientState,
        Server.SendPacketToConnectedClient] at hc
    · simp only [Server.DisconnectClient, Server.ResetClientState,
        Server.SendPacketToConnectedClient, Function.update_noteq hji] at hc ha hid ⊢
      exact hinv j hj hc ha hid

theorem Actions_sentSince (c : Constants) (time t0 : Time) (address : Address) (clientId : Nat)
    (s s' : Server) (h : Server.Actions time s s') (ht : t0 ≤ time)
    (hinv : s.sentSince c address clientId t0) : s'.sentSince c address clientId t0 := by
  induction h with
  | refl => exact hinv
  | tail _ hstep ih => exact Action_sentSince c time t0 address clientId _ _ hstep ht ih

theorem Actions_ProcessConnectionRequest (c : Constants) (p : Primitives) (s : Server)
    (w : World) (connectTokenData connectTokenNonce : List Nat) (address : Address)
    (time : Time) :
    Server.Actions time s
      (s.ProcessConnectionRequest c p w connectTokenData connectTokenNonce address time).1 := by
  rcases ProcessConnectionRequest_server c p s w connectTokenData connectTokenNonce address time
    with h | h
  · rw [h]; exact Relation.ReflTransGen.refl
  · rw [h, FindOrAddConnectTokenEntry_cache_only]
    exact Relation.ReflTransGen.single (Server.Action.cache s _)

theorem Actions_ProcessConnectionResponse (c : Constants) (p : Primitives) (s : Server)
    (w : World) (challengeTokenData challengeTokenNonce : List Nat) (address : Address)
    (time : Time) :
    Server.Actions time s
      (s.ProcessConnectionResponse c p w challengeTokenData challengeTokenNonce
        address time).1 := by
  unfold Server.ProcessConnectionResponse
  split
  · exact Relation.ReflTransGen.refl
  · dsimp only
    split_ifs
    · exact Relation.ReflTransGen.refl
    · exact Relation.ReflTransGen.refl
    · split
      · exact Relation.ReflTransGen.single (Server.Action.send s _ _ _)
      · exact Relation.ReflTransGen.refl
    · exact Relation.ReflTransGen.refl
    · split <;> exact Relation.ReflTransGen.refl
    · exact Relation.ReflTransGen.refl
    · exact Relation.ReflTransGen.single (Server.Action.connect s w _ _)

theorem Actions_ProcessConnectionHeartBeat (c : Constants) (s : Server) (w : World)
    (address : Address) (time : Time) :
    Server.Actions time s (s.ProcessConnectionHeartBeat c w address time).1 := by
  unfold Server.ProcessConnectionHeartBeat
  dsimp only
  split_ifs
  · exact Relation.ReflTransGen.refl
  · exact Relation.ReflTransGen.single (Server.Action.receive s _)

theorem Actions_ProcessConnectionDisconnect (c : Constants) (s : Server) (w : World)
    (address : Address) (time : Time) :
    Server.Actions time s (s.ProcessConnectionDisconnect c w address time).1 := by
  unfold Server.ProcessConnectionDisconnect
  dsimp only
  split_ifs
  · exact Relation.ReflTransGen.refl
  · exact Relation.ReflTransGen.single (Server.Action.disconnect s w _)

theorem Actions_dispatch (c : Constants) (p : Primitives) (s : Server) (w : World)
    (address : Address) (packet : Packet) (time : Time) :
    Server.Actions time s (s.dispatch c p w address packet time).1 := by
  cases packet with
  | ConnectionRequest d n => exact Actions_ProcessConnectionRequest c p s w d n address time
  | ConnectionResponse d n => exact Actions_ProcessConnectionResponse c p s w d n address time
  | ConnectionHeartBeat => exact Actions_ProcessConnectionHeartBeat c s w address time
  | ConnectionDisconnect => exact Actions_ProcessConnectionDisconnect c s w address time
  | ConnectionDenied => exact Relation.ReflTransGen.refl
  | ConnectionChallenge d n => exact Relation.ReflTransGen.refl
  | Other t => exact Relation.ReflTransGen.refl

theorem Actions_sendPacketsLoop (c : Constants) (time : Time) :
    ∀ (fuel i : Nat) (s : Server) (w : World),
      Server.Actions time s (Server.sendPacketsLoop c time fuel i s w).1 := by
  intro fuel
  induction fuel with
  | zero => intro i s w; exact Relation.ReflTransGen.refl
  | succ fuel ih =>
    intro i s w
    rw [Server.sendPacketsLoop]
    split_ifs
    · exact ih _ _ _
    · exact Relation.ReflTransGen.refl
    · exact Relation.ReflTransGen.head (Server.Action.send s _ i _) (ih _ _ _)

theorem Actions_checkForTimeOutLoop (c : Constants) (s : Server) (w : World) (time : Time) :
    ∀ n, Server.Actions time s (Server.checkForTimeOutLoop time c s w n).1 := by
  intro n
  induction n with
  | zero => exact Relation.ReflTransGen.refl
  | succ n ih =>
    rw [Server.checkForTimeOutLoop]
    split_ifs
    · exact ih
    · exact Relation.ReflTransGen.tail ih (Server.Action.disconnect _ _ n)
    · exact ih

theorem RunsFrom_sentSince (c : Constants) (p : Primitives) (t0 : Time) (address : Address)
    (clientId : Nat) (s s' : Server) (h : Server.RunsFrom c p t0 s s')
    (hinv : s.sentSince c address clientId t0) : s'.sentSince c address clientId t0 := by
  induction h with
  | refl => exact hinv
  | Receive s' w a packet time _ ht ih =>
    exact Actions_sentSince c time t0 address clientId _ _
      (Actions_dispatch c p s' w a packet time) ht ih
  | SendPackets s' w time _ ht ih =>
    exact Actions_sentSince c time t0 address clientId _ _
      (Actions_sendPacketsLoop c time _ _ s' w) ht ih
  | CheckForTimeOut s' w time _ ht ih =>
    exact Actions_sentSince c time t0 address clientId _ _
      (Actions_checkForTimeOutLoop c s' w time _) ht ih

/-- A `ConnectionResponse` for a pair that occupies a connected slot is
answered with no packet when every slot holding the pair was last sent to at
`t0` or later and the time `t2` of the call, a double, lies within the rate
of `t0`. -/
theorem ProcessConnectionResponse_silent_of_sentSince (c : Constants) (p : Primitives)
    (s : Server) (w : World) (challengeTokenData challengeTokenNonce : List Nat)
    (address : Address) (t0 t2 : Time) (challengeToken : ChallengeToken)
    (hdec : DecryptChallengeToken c p challengeTokenData [] challengeTokenNonce s.m_privateKey
      = some challengeToken)
    (hheld : ∃ j, j < c.MaxClients ∧ s.m_clientConnected j = true ∧
      s.m_clientAddress j = address ∧ s.m_clientId j = challengeToken.clientId)
    (hinv : s.sentSince c address challengeToken.clientId t0)
    (hdouble : roundDouble t2 = t2)
    (hwindow : t2 - t0 ≤ c.ConnectionConfirmSendRate) :
    (s.ProcessConnectionResponse c p w challengeTokenData challengeTokenNonce address t2).1 = s ∧
    (s.ProcessConnectionResponse c p w challengeTokenData challengeTokenNonce
      address t2).2.trace = w.trace := by
  unfold Server.ProcessConnectionResponse
  rw [hdec]
  dsimp only
  by_cases ha : challengeToken.clientAddress ≠ address
  · rw [if_pos ha]
    exact ⟨rfl, rfl⟩
  rw [if_neg ha]
  by_cases hs : challengeToken.serverAddress ≠ s.m_serverAddress
  · rw [if_pos hs]
    exact ⟨rfl, rfl⟩
  rw [if_neg hs]
  rcases FindExistingClientIndex_address_clientId_spec c s address challengeToken.clientId
    with ⟨_, hnone⟩ | ⟨k, he, hk, hid, hconn, haddr⟩
  · obtain ⟨j, hj, hc, hja, hjid⟩ := hheld
    exact absurd ⟨hjid, hc, hja⟩ (hnone j hj)
  · rw [he]
    simp only [ne_eq, natCast_ne_neg_one, not_false_eq_true, if_true, Int.toNat_ofNat]
    have hsent := hinv k hk hconn haddr hid
    have hle : t2 ≤ addDouble (s.m_clientData k).lastPacketSendTime
        c.ConnectionConfirmSendRate := by
      apply le_addDouble _ _ _ _ hdouble
      linarith
    rw [if_neg (not_lt.mpr hle)]
    exact ⟨rfl, rfl⟩

/-- C13 as stated fails on the code, in two ways.  First, in `sameIdServer`
the client at `addressA` holds slot 0, last sent to at time 26; its repeated
`ConnectionResponse` arrives at time 200, when
`lastPacketSendTime + ConnectionConfirmSendRate < time` holds, while
`CreatePacket` returns nothing: no heartbeat is emitted and
`lastPacketSendTime` stays 26.  Second, with
`ConnectionConfirmSendRate = 1.591189252259491` and slot 0 last sent to at
`-5.0`, the retransmits at `t1 = 0.064778242228957` and
`t2 = 1.6559674944884482` both emit a heartbeat, although `t1 <= t2` and the
difference `t2 - t1`, computed as a double, is at most the rate (the exact
difference is above it). -/
theorem ProcessConnectionResponse_retransmit_without_heartbeat :
    (DecryptChallengeToken exampleConstants examplePrimitives challengeA.1 [] challengeA.2
        sameIdServer.m_privateKey = some challengeTokenA ∧
      sameIdServer.m_clientConnected 0 = true ∧
      sameIdServer.m_clientAddress 0 = addressA ∧
      sameIdServer.m_clientId 0 = challengeTokenA.clientId ∧
      addDouble (sameIdServer.m_clientData 0).lastPacketSendTime
          exampleConstants.ConnectionConfirmSendRate < 200 ∧
      packetsSent
          (sameIdServer.ProcessConnectionResponse exampleConstants examplePrimitives
            (exampleWorldFailing []) challengeA.1 challengeA.2 addressA 200).2.trace
        = [] ∧
      ((sameIdServer.ProcessConnectionResponse exampleConstants examplePrimitives
          (exampleWorldFailing []) challengeA.1 challengeA.2 addressA 200).1.m_clientData
        0).lastPacketSendTime = 26) ∧
    (earlyServer.m_clientConnected 0 = true ∧
      earlyServer.m_clientAddress 0 = addressA ∧
      earlyServer.m_clientId 0 = challengeTokenA.clientId ∧
      (earlyServer.m_clientData 0).lastPacketSendTime = double (-5) 0 ∧
      0 ≤ windowConstants.ConnectionConfirmSendRate ∧
      double 583470535128093 (-53) ≤ double 7457814591115829 (-52) ∧
      subDouble (double 7457814591115829 (-52)) (double 583470535128093 (-53))
        ≤ windowConstants.ConnectionConfirmSendRate ∧
      ¬ (double 7457814591115829 (-52) - double 583470535128093 (-53)
        ≤ windowConstants.ConnectionConfirmSendRate) ∧
      packetsSent
          (earlyServer.ProcessConnectionResponse windowConstants examplePrimitives
            (exampleWorld []) challengeA.1 challengeA.2 addressA
            (double 583470535128093 (-53))).2.trace
        = [(addressA, some Packet.ConnectionHeartBeat)] ∧
      packetsSent
          (earlyServerAfterRetransmit.ProcessConnectionResponse windowConstants
            examplePrimitives (exampleWorld []) challengeA.1 challengeA.2 addressA
            (double 7457814591115829 (-52))).2.trace
        = [(addressA, some Packet.ConnectionHeartBeat)]) := by
  decide

/-- C13, amended: when a `ConnectionResponse` arrives for an (address,
clientId) pair that already occupies a connected slot (`k` the lowest such
slot), `ProcessConnectionResponse` allocates no slot and leaves
`m_numConnectedClients` unchanged; it emits a `ConnectionHeartBeat` to the
address (and sets slot `k`'s `lastPacketSendTime` to `time`) if and only if
`lastPacketSendTime + ConnectionConfirmSendRate < time`, the sum being the
sum of two doubles, and `CreatePacket` returns a packet, and otherwise
leaves the server as it was.  Consequently, in a reachable server state, if
this retransmit emits a heartbeat, then no later retransmit of the pair
does that is processed at a time `t2`, a double, whose exact difference
`t2 - time` is at most `ConnectionConfirmSendRate`, whatever the server
receives, sends and times out in between on a clock that does not go back
behind `time` (the monotonic clock of the specification). -/
theorem ProcessConnectionResponse_retransmit (c : Constants) (p : Primitives) (s : Server)
    (w : World) (challengeTokenData challengeTokenNonce : List Nat) (address : Address)
    (time : Time) (challengeToken : ChallengeToken) (k : Nat)
    (hdec : DecryptChallengeToken c p challengeTokenData [] challengeTokenNonce s.m_privateKey
      = some challengeToken)
    (haddr : challengeToken.clientAddress = address)
    (hserver : challengeToken.serverAddress = s.m_serverAddress)
    (hk : k < c.MaxClients)
    (hmatch : s.m_clientId k = challengeToken.clientId ∧ s.m_clientConnected k = true ∧
      s.m_clientAddress k = address)
    (hlow : ∀ j, j < k →
      ¬ (s.m_clientId j = challengeToken.clientId ∧ s.m_clientConnected j = true ∧
         s.m_clientAddress j = address)) :
    (s.ProcessConnectionResponse c p w challengeTokenData challengeTokenNonce
      address time).1.m_clientConnected = s.m_clientConnected ∧
    (s.ProcessConnectionResponse c p w challengeTokenData challengeTokenNonce
      address time).1.m_clientId = s.m_clientId ∧
    (s.ProcessConnectionResponse c p w challengeTokenData challengeTokenNonce
      address time).1.m_clientAddress = s.m_clientAddress ∧
    (s.ProcessConnectionResponse c p w challengeTokenData challengeTokenNonce
      address time).1.m_numConnectedClients = s.m_numConnectedClients ∧
    ((addDouble (s.m_clientData k).lastPacketSendTime c.ConnectionConfirmSendRate < time ∧
        (w.CreatePacket PacketType.PACKET_CONNECTION_HEARTBEAT).1 ≠ none) →
      packetsSent (s.ProcessConnectionResponse c p w challengeTokenData challengeTokenNonce
          address time).2.trace
        = packetsSent w.trace ++ [(address, some Packet.ConnectionHeartBeat)] ∧
      ((s.ProcessConnectionResponse c p w challengeTokenData challengeTokenNonce
          address time).1.m_clientData k).lastPacketSendTime = time) ∧
    (¬ (addDouble (s.m_clientData k).lastPacketSendTime c.ConnectionConfirmSendRate < time ∧
        (w.CreatePacket PacketType.PACKET_CONNECTION_HEARTBEAT).1 ≠ none) →
      packetsSent (s.ProcessConnectionResponse c p w challengeTokenData challengeTokenNonce
          address time).2.trace = packetsSent w.trace ∧
      (s.ProcessConnectionResponse c p w challengeTokenData challengeTokenNonce
          address time).1 = s) ∧
    (∀ (s2 : Server) (w2 : World) (data2 nonce2 : List Nat) (t2 : Time)
        (token2 : ChallengeToken),
      Server.Reachable c p s →
      Server.RunsFrom c p time
        (s.ProcessConnectionResponse c p w challengeTokenData challengeTokenNonce
          address time).1 s2 →
      DecryptChallengeToken c p data2 [] nonce2 s2.m_privateKey = some token2 →
      token2.clientId = challengeToken.clientId →
      (∃ j, j < c.MaxClients ∧ s2.m_clientConnected j = true ∧
        s2.m_clientAddress j = address ∧ s2.m_clientId j = challengeToken.clientId) →
      roundDouble t2 = t2 →
      t2 - time ≤ c.ConnectionConfirmSendRate →
      ¬ (packetsSent (s.ProcessConnectionResponse c p w challengeTokenData challengeTokenNonce
            address time).2.trace ≠ packetsSent w.trace ∧
         packetsSent
            (s2.ProcessConnectionResponse c p w2 data2 nonce2 address t2).2.trace
           ≠ packetsSent w2.trace)) := by
  by_cases hemit : addDouble (s.m_clientData k).lastPacketSendTime c.ConnectionConfirmSendRate
      < time ∧ (w.CreatePacket PacketType.PACKET_CONNECTION_HEARTBEAT).1 ≠ none
  · have hres := ProcessConnectionResponse_existing_sent c p s w challengeTokenData
      challengeTokenNonce address time challengeToken k hdec haddr hserver hk hmatch hlow
      hemit.1 hemit.2
    rw [hres]
    have htime : ((s.SendPacketToConnectedClient
        (w.CreatePacket PacketType.PACKET_CONNECTION_HEARTBEAT).2 k
        (some Packet.ConnectionHeartBeat) time).1.m_clientData k).lastPacketSendTime = time := by
      simp [Server.SendPacketToConnectedClient]
    refine ⟨rfl, rfl, rfl, rfl, ?_, ?_, ?_⟩
    · intro _
      refine ⟨?_, htime⟩
      simp only [Server.SendPacketToConnectedClient, World.SendPacket, packetsSent_append,
        World.CreatePacket_trace, packetsSent, hmatch.2.2]
    · intro hnot
      exact absurd hemit hnot
    · intro s2 w2 data2 nonce2 t2 token2 hreach hrun hdec2 hid2 hheld hdouble hwindow hboth
      have hpairs := pairs_reachable c p s hreach
      have hinv1 : (s.SendPacketToConnectedClient
          (w.CreatePacket PacketType.PACKET_CONNECTION_HEARTBEAT).2 k
          (some Packet.ConnectionHeartBeat) time).1.sentSince c address
            challengeToken.clientId time := by
        intro j hj hc ha hid
        have hjk : j = k := by
          by_contra hne
          exact hpairs j k hj hk hne hc hmatch.2.1
            ⟨ha.trans hmatch.2.2.symm, hid.trans hmatch.1.symm⟩
        rw [hjk, htime]
      have hinv2 := RunsFrom_sentSince c p time address challengeToken.clientId _ s2 hrun hinv1
      rw [← hid2] at hinv2 hheld
      have hsilent := ProcessConnectionResponse_silent_of_sentSince c p s2 w2 data2 nonce2
        address time t2 token2 hdec2 hheld hinv2 hdouble hwindow
      exact hboth.2 (by rw [hsilent.2])
  · have hres := ProcessConnectionResponse_existing_silent c p s w challengeTokenData
      challengeTokenNonce address time challengeToken k hdec haddr hserver hk hmatch hlow hemit
    refine ⟨by rw [hres.1], by rw [hres.1], by rw [hres.1], by rw [hres.1], ?_, ?_, ?_⟩
    · intro h
      exact absurd h hemit
    · intro _
      exact ⟨by rw [hres.2], hres.1⟩
    · intro s2 w2 data2 nonce2 t2 token2 _ _ _ _ _ _ _ hboth
      exact hboth.1 (by rw [hres.2])

theorem ProcessConnectionResponse_retransmit_witness :
    (sameIdServer.ProcessConnectionResponse exampleConstants examplePrimitives (exampleWorld [])
      challengeA.1 challengeA.2 addressA 200).1.m_clientConnected
        = sameIdServer.m_clientConnected ∧
    (sameIdServer.ProcessConnectionResponse exampleConstants examplePrimitives (exampleWorld [])
      challengeA.1 challengeA.2 addressA 200).1.m_clientId = sameIdServer.m_clientId ∧
    (sameIdServer.ProcessConnectionResponse exampleConstants examplePrimitives (exampleWorld [])
      challengeA.1 challengeA.2 addressA 200).1.m_clientAddress
        = sameIdServer.m_clientAddress ∧
    (sameIdServer.ProcessConnectionResponse exampleConstants examplePrimitives (exampleWorld [])
      challengeA.1 challengeA.2 addressA 200).1.m_numConnectedClients
        = sameIdServer.m_numConnectedClients ∧
    ((addDouble (sameIdServer.m_clientData 0).lastPacketSendTime
          exampleConstants.ConnectionConfirmSendRate < 200 ∧
        ((exampleWorld []).CreatePacket PacketType.PACKET_CONNECTION_HEARTBEAT).1 ≠ none) →
      packetsSent (sameIdServer.ProcessConnectionResponse exampleConstants examplePrimitives
          (exampleWorld []) challengeA.1 challengeA.2 addressA 200).2.trace
        = packetsSent (exampleWorld []).trace ++ [(addressA, some Packet.ConnectionHeartBeat)] ∧
      ((sameIdServer.ProcessConnectionResponse exampleConstants examplePrimitives
          (exampleWorld []) challengeA.1 challengeA.2 addressA 200).1.m_clientData
        0).lastPacketSendTime = 200) ∧
    (¬ (addDouble (sameIdServer.m_clientData 0).lastPacketSendTime
          exampleConstants.ConnectionConfirmSendRate < 200 ∧
        ((exampleWorld []).CreatePacket PacketType.PACKET_CONNECTION_HEARTBEAT).1 ≠ none) →
      packetsSent (sameIdServer.ProcessConnectionResponse exampleConstants examplePrimitives
          (exampleWorld []) challengeA.1 challengeA.2 addressA 200).2.trace
        = packetsSent (exampleWorld []).trace ∧
      (sameIdServer.ProcessConnectionResponse exampleConstants examplePrimitives
          (exampleWorld []) challengeA.1 challengeA.2 addressA 200).1 = sameIdServer) ∧
    (∀ (s2 : Server) (w2 : World) (data2 nonce2 : List Nat) (t2 : Time)
        (token2 : ChallengeToken),
      Server.Reachable exampleConstants examplePrimitives sameIdServer →
      Server.RunsFrom exampleConstants examplePrimitives 200
        (sameIdServer.ProcessConnectionResponse exampleConstants examplePrimitives
          (exampleWorld []) challengeA.1 challengeA.2 addressA 200).1 s2 →
      DecryptChallengeToken exampleConstants examplePrimitives data2 [] nonce2
        s2.m_privateKey = some token2 →
      token2.clientId = challengeTokenA.clientId →
      (∃ j, j < exampleConstants.MaxClients ∧ s2.m_clientConnected j = true ∧
        s2.m_clientAddress j = addressA ∧ s2.m_clientId j = challengeTokenA.clientId) →
      roundDouble t2 = t2 →
      t2 - 200 ≤ exampleConstants.ConnectionConfirmSendRate →
      ¬ (packetsSent (sameIdServer.ProcessConnectionResponse exampleConstants
            examplePrimitives (exampleWorld []) challengeA.1 challengeA.2
            addressA 200).2.trace ≠ packetsSent (exampleWorld []).trace ∧
         packetsSent
            (s2.ProcessConnectionResponse exampleConstants examplePrimitives w2 data2 nonce2
              addressA t2).2.trace
           ≠ packetsSent w2.trace)) :=
  ProcessConnectionResponse_retransmit exampleConstants examplePrimitives sameIdServer
    (exampleWorld []) challengeA.1 challengeA.2 addressA 200 challengeTokenA 0
    (by decide) (by decide) (by decide) (by decide) (by decide) (by decide)

/-! ### Handlers when `CreatePacket` returns nothing -/

theorem World.CreatePacket_none_of_fail (w w' : World) (type : PacketType) (rest : List Bool)
    (hfail : w.createPacketResults = false :: rest)
    (h : w'.createPacketResults = w.createPacketResults) :
    (w'.CreatePacket type).1 = none := by
  unfold World.CreatePacket
  rw [h, hfail]
  rfl

theorem GenerateChallengeToken_createPacketResults (c : Constants) (w : World)
    (connectToken : ConnectToken) (clientAddress serverAddress : Address)
    (connectTokenMac : List Nat) :
    (GenerateChallengeToken c w connectToken clientAddress serverAddress
      connectTokenMac).2.createPacketResults = w.createPacketResults := by
  unfold GenerateChallengeToken
  split_ifs
  · rfl
  · rfl
  · unfold World.GenerateKey
    split <;> rfl

theorem GenerateChallengeToken_trace (c : Constants) (w : World)
    (connectToken : ConnectToken) (clientAddress serverAddress : Address)
    (connectTokenMac : List Nat) :
    (GenerateChallengeToken c w connectToken clientAddress serverAddress
      connectTokenMac).2.trace = w.trace := by
  unfold GenerateChallengeToken
  split_ifs
  · rfl
  · rfl
  · unfold World.GenerateKey
    split <;> rfl

theorem packetsSent_AddEncryptionMapping (w : World) (address : Address)
    (sendKey receiveKey : List Nat) :
    packetsSent (w.AddEncryptionMapping address sendKey receiveKey).2.trace
      = packetsSent w.trace := by
  rw [World.AddEncryptionMapping_trace, packetsSent_append]
  simp [packetsSent]

theorem ProcessConnectionRequest_CreatePacket_fails (c : Constants) (p : Primitives)
    (s : Server) (w : World) (connectTokenData connectTokenNonce : List Nat)
    (address : Address) (time : Time) (rest : List Bool)
    (hfail : w.createPacketResults = false :: rest) :
    ((s.ProcessConnectionRequest c p w connectTokenData connectTokenNonce address time).1 = s ∨
      (s.m_numConnectedClients ≠ (c.MaxClients : Int) ∧
       (s.ProcessConnectionRequest c p w connectTokenData connectTokenNonce address time).1
        = (s.FindOrAddConnectTokenEntry c address connectTokenData time).2)) ∧
    (packetsSent (s.ProcessConnectionRequest c p w connectTokenData connectTokenNonce
        address time).2.trace = packetsSent w.trace ∨
     packetsSent (s.ProcessConnectionRequest c p w connectTokenData connectTokenNonce
        address time).2.trace = packetsSent w.trace ++ [(address, none)]) := by
  unfold Server.ProcessConnectionRequest
  split
  · exact ⟨Or.inl rfl, Or.inl rfl⟩
  · rename_i connectToken _
    have hm : (w.time.2.AddEncryptionMapping address connectToken.serverToClientKey
        connectToken.clientToServerKey).2.createPacketResults = w.createPacketResults :=
      (World.AddEncryptionMapping_createPacketResults _ _ _ _).trans
        (World.time_createPacketResults w)
    have h1 := World.CreatePacket_none_of_fail w _ PacketType.PACKET_CONNECTION_DENIED rest
      hfail hm
    have h2 := World.CreatePacket_none_of_fail w _ PacketType.PACKET_CONNECTION_CHALLENGE rest
      hfail ((GenerateChallengeToken_createPacketResults c _ connectToken address
        (s.FindOrAddConnectTokenEntry c address connectTokenData time).2.m_serverAddress
        connectTokenData).trans hm)
    dsimp only
    simp only [h1, h2]
    repeat' split
    all_goals refine ⟨?_, ?_⟩
    all_goals first
      | exact Or.inl rfl
      | exact Or.inr ⟨by assumption, rfl⟩
      | (left
         simp only [World.time_trace, packetsSent_AddEncryptionMapping,
           GenerateChallengeToken_trace, World.CreatePacket_trace]
         done)
      | (right
         simp only [World.SendPacket, packetsSent_append, packetsSent,
           World.CreatePacket_trace, packetsSent_AddEncryptionMapping, World.time_trace])

/-- C16 as stated fails on the code.  While `CreatePacket` returns nothing,
a valid `ConnectionRequest` handled by the fresh example server still
stores its connect-token entry in the cache (entry 0 changes), and the
`ConnectionResponse` of a challenged client still connects the client
(slot 0 becomes connected and `m_numConnectedClients` goes from 0 to 1);
in both cases `CreatePacket` was called and no packet was sent. -/
theorem CreatePacket_failure_changes_state :
    ((exampleServer.ProcessConnectionRequest exampleConstants examplePrimitives
        (exampleWorldFailing []) (exampleConnectTokenData 7 1) (nonceBytes 0 8)
        addressA 25).2.createPacketResults = [] ∧
     packetsSent
        (exampleServer.ProcessConnectionRequest exampleConstants examplePrimitives
          (exampleWorldFailing []) (exampleConnectTokenData 7 1) (nonceBytes 0 8)
          addressA 25).2.trace = [] ∧
     exampleServer.m_connectTokenEntries 0 = exampleEntry ∧
     (exampleServer.ProcessConnectionRequest exampleConstants examplePrimitives
        (exampleWorldFailing []) (exampleConnectTokenData 7 1) (nonceBytes 0 8)
        addressA 25).1.m_connectTokenEntries 0
       = { time := 25, address := addressA,
           mac := (exampleConnectTokenData 7 1).take 16 }) ∧
    ((pendingServer.ProcessConnectionResponse exampleConstants examplePrimitives
        (exampleWorldFailing []) challengeA.1 challengeA.2 addressA 26).2.createPacketResults
       = [] ∧
     packetsSent
        (pendingServer.ProcessConnectionResponse exampleConstants examplePrimitives
          (exampleWorldFailing []) challengeA.1 challengeA.2 addressA 26).2.trace = [] ∧
     pendingServer.m_clientConnected 0 = false ∧
     pendingServer.m_numConnectedClients = 0 ∧
     (pendingServer.ProcessConnectionResponse exampleConstants examplePrimitives
        (exampleWorldFailing []) challengeA.1 challengeA.2 addressA 26).1.m_clientConnected 0
       = true ∧
     (pendingServer.ProcessConnectionResponse exampleConstants examplePrimitives
        (exampleWorldFailing []) challengeA.1 challengeA.2
        addressA 26).1.m_numConnectedClients = 1) := by
  decide

/-- C16, amended: if the next `CreatePacket` returns nothing, then the
handler of a `ConnectionRequest` emits no packet (at most a null pointer is
handed to `SendPacket`) and leaves the server as it was, except that on a
server that is not full it may already have made the cache write of
`FindOrAddConnectTokenEntry`; and the handler of a `ConnectionResponse` emits
no packet and leaves the server as it was, except that a response which
reaches `ConnectClient` still connects the client in a free slot. -/
theorem CreatePacket_failure (c : Constants) (p : Primitives) (s : Server) (w : World)
    (data nonce : List Nat) (address : Address) (time : Time) (rest : List Bool)
    (hfail : w.createPacketResults = false :: rest) :
    (((s.ProcessConnectionRequest c p w data nonce address time).1 = s ∨
        (s.m_numConnectedClients ≠ (c.MaxClients : Int) ∧
         (s.ProcessConnectionRequest c p w data nonce address time).1
          = (s.FindOrAddConnectTokenEntry c address data time).2)) ∧
      (packetsSent (s.ProcessConnectionRequest c p w data nonce address time).2.trace
          = packetsSent w.trace ∨
       packetsSent (s.ProcessConnectionRequest c p w data nonce address time).2.trace
          = packetsSent w.trace ++ [(address, none)])) ∧
    (((s.ProcessConnectionResponse c p w data nonce address time).1 = s ∨
        (∃ (i : Nat) (challengeToken : ChallengeToken),
          i < c.MaxClients ∧ s.m_clientConnected i = false ∧
          s.m_numConnectedClients ≠ (c.MaxClients : Int) ∧
          (s.ProcessConnectionResponse c p w data nonce address time).1
            = (s.ConnectClient w i challengeToken time).1)) ∧
      packetsSent (s.ProcessConnectionResponse c p w data nonce address time).2.trace
        = packetsSent w.trace) := by
  refine ⟨ProcessConnectionRequest_CreatePacket_fails c p s w data nonce address time rest
    hfail, ?_⟩
  have hnone : ∀ type, (w.CreatePacket type).1 = none :=
    fun type => World.CreatePacket_none_of_fail w w type rest hfail rfl
  unfold Server.ProcessConnectionResponse
  split
  · exact ⟨Or.inl rfl, rfl⟩
  · rename_i challengeToken _
    by_cases ha : challengeToken.clientAddress ≠ address
    · rw [if_pos ha]; exact ⟨Or.inl rfl, rfl⟩
    rw [if_neg ha]
    by_cases hs : challengeToken.serverAddress ≠ s.m_serverAddress
    · rw [if_pos hs]; exact ⟨Or.inl rfl, rfl⟩
    rw [if_neg hs]
    dsimp only
    simp only [hnone]
    rcases FindExistingClientIndex_address_clientId_spec c s address challengeToken.clientId
      with ⟨he, _⟩ | ⟨k, he, _⟩
    · rw [he]
      simp only [ne_eq, not_true_eq_false, if_false]
      by_cases hfull : s.m_numConnectedClients = (c.MaxClients : Int)
      · rw [if_pos hfull]
        exact ⟨Or.inl rfl, by rw [World.CreatePacket_trace]⟩
      · rw [if_neg hfull]
        rcases FindFreeClientIndex_spec c s with ⟨hf, _⟩ | ⟨i, hf, hi, hfree, _⟩
        · rw [hf, if_pos rfl]
          exact ⟨Or.inl rfl, rfl⟩
        · rw [hf]
          simp only [natCast_ne_neg_one, if_false, Int.toNat_ofNat]
          refine ⟨Or.inr ⟨i, challengeToken, hi, hfree, hfull, rfl⟩, ?_⟩
          rw [ConnectClient_trace, if_pos (hnone _), packetsSent_append]
          simp [packetsSent]
    · rw [he]
      simp only [ne_eq, natCast_ne_neg_one, not_false_eq_true, if_true]
      by_cases hdue : addDouble (s.m_clientData (k : Int).toNat).lastPacketSendTime
          c.ConnectionConfirmSendRate < time
      · rw [if_pos hdue]
        exact ⟨Or.inl rfl, by rw [World.CreatePacket_trace]⟩
      · rw [if_neg hdue]
        exact ⟨Or.inl rfl, rfl⟩

theorem CreatePacket_failure_witness :
    (((exampleServer.ProcessConnectionRequest exampleConstants examplePrimitives
          (exampleWorldFailing []) (exampleConnectTokenData 7 1) (nonceBytes 0 8)
          addressA 25).1 = exampleServer ∨
        (exampleServer.m_numConnectedClients ≠ (exampleConstants.MaxClients : Int) ∧
         (exampleServer.ProcessConnectionRequest exampleConstants examplePrimitives
            (exampleWorldFailing []) (exampleConnectTokenData 7 1) (nonceBytes 0 8)
            addressA 25).1
          = (exampleServer.FindOrAddConnectTokenEntry exampleConstants addressA
              (exampleConnectTokenData 7 1) 25).2)) ∧
      (packetsSent (exampleServer.ProcessConnectionRequest exampleConstants examplePrimitives
            (exampleWorldFailing []) (exampleConnectTokenData 7 1) (nonceBytes 0 8)
            addressA 25).2.trace
          = packetsSent (exampleWorldFailing []).trace ∨
       packetsSent (exampleServer.ProcessConnectionRequest exampleConstants examplePrimitives
            (exampleWorldFailing []) (exampleConnectTokenData 7 1) (nonceBytes 0 8)
            addressA 25).2.trace
          = packetsSent (exampleWorldFailing []).trace ++ [(addressA, none)])) ∧
    (((exampleServer.ProcessConnectionResponse exampleConstants examplePrimitives
          (exampleWorldFailing []) (exampleConnectTokenData 7 1) (nonceBytes 0 8)
          addressA 25).1 = exampleServer ∨
        (∃ (i : Nat) (challengeToken : ChallengeToken),
          i < exampleConstants.MaxClients ∧ exampleServer.m_clientConnected i = false ∧
          exampleServer.m_numConnectedClients ≠ (exampleConstants.MaxClients : Int) ∧
          (exampleServer.ProcessConnectionResponse exampleConstants examplePrimitives
            (exampleWorldFailing []) (exampleConnectTokenData 7 1) (nonceBytes 0 8)
            addressA 25).1
            = (exampleServer.ConnectClient (exampleWorldFailing []) i challengeToken 25).1)) ∧
      packetsSent (exampleServer.ProcessConnectionResponse exampleConstants examplePrimitives
          (exampleWorldFailing []) (exampleConnectTokenData 7 1) (nonceBytes 0 8)
          addressA 25).2.trace
        = packetsSent (exampleWorldFailing []).trace) :=
  CreatePacket_failure exampleConstants examplePrimitives exampleServer (exampleWorldFailing [])
    (exampleConnectTokenData 7 1) (nonceBytes 0 8) addressA 25 [] (by decide)

/-! ### `Server::CheckForTimeOut` -/

theorem DisconnectClient_world (s : Server) (w : World) (i : Nat) (time : Time)
    (hall : ∀ b, b ∈ w.createPacketResults → b = true) :
    (s.DisconnectClient w i time).2.trace
      = w.trace ++ [Event.OnClientDisconnect i,
          Event.SendPacket (s.m_clientAddress i) (some Packet.ConnectionDisconnect)] ∧
    ∀ b, b ∈ (s.DisconnectClient w i time).2.createPacketResults → b = true := by
  unfold Server.DisconnectClient
  rcases hres : w.createPacketResults with _ | ⟨ok, rest⟩
  · refine ⟨?_, ?_⟩
    · simp [World.CreatePacket, World.fire, hres, Server.SendPacketToConnectedClient,
        World.SendPacket, Packet.blank]
    · intro b hb
      simp [World.CreatePacket, World.fire, hres, Server.SendPacketToConnectedClient,
        World.SendPacket] at hb
  · have hok : ok = true := hall ok (by rw [hres]; exact List.mem_cons_self _ _)
    subst hok
    refine ⟨?_, ?_⟩
    · simp [World.CreatePacket, World.fire, hres, Server.SendPacketToConnectedClient,
        World.SendPacket, Packet.blank]
    · intro b hb
      simp only [World.CreatePacket, World.fire, hres, Server.SendPacketToConnectedClient,
        World.SendPacket] at hb
      exact hall b (by rw [hres]; exact List.mem_cons_of_mem _ hb)

theorem timedOut_eq_of_slot (c : Constants) (s s' : Server) (time : Time) (i : Nat)
    (hc : s'.m_clientConnected i = s.m_clientConnected i)
    (hd : s'.m_clientData i = s.m_clientData i) :
    s'.timedOut c time i = s.timedOut c time i := by
  unfold Server.timedOut
  rw [hc, hd]

theorem checkForTimeOutLoop_succ (c : Constants) (s : Server) (w : World) (time : Time)
    (n : Nat) :
    Server.checkForTimeOutLoop time c s w (n + 1)
      = if (Server.checkForTimeOutLoop time c s w n).1.timedOut c time n = true then
          (Server.checkForTimeOutLoop time c s w n).1.DisconnectClient
            ((Server.checkForTimeOutLoop time c s w n).2.fire (Event.OnClientTimedOut n)) n time
        else Server.checkForTimeOutLoop time c s w n := by
  rw [Server.checkForTimeOutLoop]
  unfold Server.timedOut
  by_cases hc : (Server.checkForTimeOutLoop time c s w n).1.m_clientConnected n = true
  · by_cases ht : ((Server.checkForTimeOutLoop time c s w n).1.m_clientData n).lastPacketReceiveTime
        + c.ConnectionTimeOut < time
    · simp [hc, ht]
    · simp [hc, ht]
  · have hc' : (Server.checkForTimeOutLoop time c s w n).1.m_clientConnected n = false := by
      simpa using hc
    simp [hc']

theorem ite_lt_succ_and {α : Type} (i n : Nat) (P : Prop) [Decidable P] (a b : α)
    (h : i = n → ¬ P) :
    (if i < n + 1 ∧ P then a else b) = (if i < n ∧ P then a else b) := by
  by_cases hP : i < n ∧ P
  · rw [if_pos hP, if_pos ⟨Nat.lt_succ_of_lt hP.1, hP.2⟩]
  · rw [if_neg hP, if_neg]
    rintro ⟨h1, h2⟩
    rcases Nat.lt_succ_iff_lt_or_eq.mp h1 with hlt | heq
    · exact hP ⟨hlt, h2⟩
    · exact h heq h2

theorem checkForTimeOutLoop_spec (c : Constants) (s : Server) (w : World) (time : Time)
    (hall : ∀ b, b ∈ w.createPacketResults → b = true) :
    ∀ n,
      (∀ i, (Server.checkForTimeOutLoop time c s w n).1.m_clientConnected i
        = if i < n ∧ s.timedOut c time i = true then false else s.m_clientConnected i) ∧
      (∀ i, (Server.checkForTimeOutLoop time c s w n).1.m_clientId i
        = if i < n ∧ s.timedOut c time i = true then 0 else s.m_clientId i) ∧
      (∀ i, (Server.checkForTimeOutLoop time c s w n).1.m_clientAddress i
        = if i < n ∧ s.timedOut c time i = true then Address.undefined
          else s.m_clientAddress i) ∧
      (∀ i, (Server.checkForTimeOutLoop time c s w n).1.m_clientData i
        = if i < n ∧ s.timedOut c time i = true then ServerClientData.default
          else s.m_clientData i) ∧
      (Server.checkForTimeOutLoop time c s w n).1.m_numConnectedClients
        = s.m_numConnectedClients - (countConnected (s.timedOut c time) n : Int) ∧
      (Server.checkForTimeOutLoop time c s w n).2.trace
        = w.trace ++ s.timeOutEvents c time n ∧
      (∀ b, b ∈ (Server.checkForTimeOutLoop time c s w n).2.createPacketResults → b = true) := by
  intro n
  induction n with
  | zero =>
    refine ⟨?_, ?_, ?_, ?_, ?_, ?_, hall⟩
    · intro i; simp [Server.checkForTimeOutLoop]
    · intro i; simp [Server.checkForTimeOutLoop]
    · intro i; simp [Server.checkForTimeOutLoop]
    · intro i; simp [Server.checkForTimeOutLoop]
    · simp [Server.checkForTimeOutLoop, countConnected]
    · simp [Server.checkForTimeOutLoop, Server.timeOutEvents]
  | succ n ih =>
    obtain ⟨hconn, hid, haddr, hdata, hnum, htrace, hres⟩ := ih
    have hcn : (Server.checkForTimeOutLoop time c s w n).1.m_clientConnected n
        = s.m_clientConnected n := by
      rw [hconn n]; simp
    have hdn : (Server.checkForTimeOutLoop time c s w n).1.m_clientData n
        = s.m_clientData n := by
      rw [hdata n]; simp
    have han : (Server.checkForTimeOutLoop time c s w n).1.m_clientAddress n
        = s.m_clientAddress n := by
      rw [haddr n]; simp
    have hto := timedOut_eq_of_slot c s (Server.checkForTimeOutLoop time c s w n).1 time n
      hcn hdn
    rw [checkForTimeOutLoop_succ, hto]
    by_cases ht : s.timedOut c time n = true
    · rw [if_pos ht]
      have hw := DisconnectClient_world (Server.checkForTimeOutLoop time c s w n).1
        ((Server.checkForTimeOutLoop time c s w n).2.fire (Event.OnClientTimedOut n)) n time
        hres
      refine ⟨?_, ?_, ?_, ?_, ?_, ?_, hw.2⟩
      · intro i
        show Function.update (Server.checkForTimeOutLoop time c s w n).1.m_clientConnected
          n false i = _
        by_cases hin : i = n
        · subst hin; simp [ht]
        · rw [Function.update_noteq hin, hconn i,
            ite_lt_succ_and i n _ _ _ (fun h => absurd h hin)]
      · intro i
        show Function.update (Server.checkForTimeOutLoop time c s w n).1.m_clientId n 0 i = _
        by_cases hin : i = n
        · subst hin; simp [ht]
        · rw [Function.update_noteq hin, hid i,
            ite_lt_succ_and i n _ _ _ (fun h => absurd h hin)]
      · intro i
        show Function.update (Server.checkForTimeOutLoop time c s w n).1.m_clientAddress
          n Address.undefined i = _
        by_cases hin : i = n
        · subst hin; simp [ht]
        · rw [Function.update_noteq hin, haddr i,
            ite_lt_succ_and i n _ _ _ (fun h => absurd h hin)]
      · intro i
        show Function.update
          (Function.update (Server.checkForTimeOutLoop time c s w n).1.m_clientData n _)
          n ServerClientData.default i = _
        by_cases hin : i = n
        · subst hin; simp [ht]
        · rw [Function.update_noteq hin, Function.update_noteq hin, hdata i,
            ite_lt_succ_and i n _ _ _ (fun h => absurd h hin)]
      · show (Server.checkForTimeOutLoop time c s w n).1.m_numConnectedClients - 1 = _
        rw [hnum, countConnected, if_pos ht]
        push_cast
        omega
      · rw [hw.1, han]
        show ((Server.checkForTimeOutLoop time c s w n).2.trace ++ [Event.OnClientTimedOut n])
          ++ _ = _
        rw [htrace, Server.timeOutEvents, if_pos ht]
        simp
    · rw [if_neg ht]
      have hfalse : s.timedOut c time n = false := by simpa using ht
      have hlt : ∀ i, i = n → ¬ s.timedOut c time i = true := by
        intro i hin h2
        rw [hin, hfalse] at h2
        exact Bool.noConfusion h2
      refine ⟨?_, ?_, ?_, ?_, ?_, ?_, hres⟩
      · intro i; rw [ite_lt_succ_and i n _ _ _ (hlt i)]; exact hconn i
      · intro i; rw [ite_lt_succ_and i n _ _ _ (hlt i)]; exact hid i
      · intro i; rw [ite_lt_succ_and i n _ _ _ (hlt i)]; exact haddr i
      · intro i; rw [ite_lt_succ_and i n _ _ _ (hlt i)]; exact hdata i
      · rw [hnum, countConnected, if_neg ht]
        push_cast
        omega
      · rw [htrace, Server.timeOutEvents, if_neg ht]
        simp

/-- C15 as stated fails on the code: in `sameIdServer` slots 0 and 1 have
timed out at time 100000; while the first `CreatePacket` returns nothing,
`CheckForTimeOut` removes slot 0 and hands a null pointer to `SendPacket`
for it, so no `ConnectionDisconnect` packet goes to the former address of
slot 0. -/
theorem CheckForTimeOut_null_packet :
    sameIdServer.timedOut exampleConstants 100000 0 = true ∧
    sameIdServer.timedOut exampleConstants 100000 1 = true ∧
    (sameIdServer.CheckForTimeOut exampleConstants (exampleWorldFailing []) 100000).2.trace
      = [Event.OnClientTimedOut 0, Event.OnClientDisconnect 0,
         Event.SendPacket addressA none,
         Event.OnClientTimedOut 1, Event.OnClientDisconnect 1,
         Event.SendPacket addressB (some Packet.ConnectionDisconnect)] := by
  decide

/-- C15, amended: when every `CreatePacket` returns a packet, after
`CheckForTimeOut( now )` a slot below `MaxClients` is connected if and only
if it was connected before and the test
`lastPacketReceiveTime + ConnectionTimeOut < now` of the code fails, the sum
being the sum of two doubles (on the values of `Time` this is
`lastPacketReceiveTime + ConnectionTimeOut >= now`); the calls made are, for
exactly the removed slots in increasing index order,
`OnClientTimedOut( i )`, `OnClientDisconnect( i )` and a
`ConnectionDisconnect` packet to the former address of the slot; removed
slots are reset, the other slots are unchanged, and
`m_numConnectedClients` decreases by the number of removed slots. -/
theorem CheckForTimeOut_removes_timed_out (c : Constants) (s : Server) (w : World)
    (time : Time) (hall : ∀ b, b ∈ w.createPacketResults → b = true) :
    (∀ i, i < c.MaxClients →
      ((s.CheckForTimeOut c w time).1.m_clientConnected i = true ↔
        (s.m_clientConnected i = true ∧
         ¬ (addDouble (s.m_clientData i).lastPacketReceiveTime c.ConnectionTimeOut
              < time)))) ∧
    (s.CheckForTimeOut c w time).2.trace = w.trace ++ s.timeOutEvents c time c.MaxClients ∧
    (∀ i, i < c.MaxClients → s.timedOut c time i = true →
      (s.CheckForTimeOut c w time).1.m_clientConnected i = false ∧
      (s.CheckForTimeOut c w time).1.m_clientId i = 0 ∧
      (s.CheckForTimeOut c w time).1.m_clientAddress i = Address.undefined ∧
      (s.CheckForTimeOut c w time).1.m_clientData i = ServerClientData.default) ∧
    (∀ i, s.timedOut c time i = false →
      (s.CheckForTimeOut c w time).1.m_clientConnected i = s.m_clientConnected i ∧
      (s.CheckForTimeOut c w time).1.m_clientId i = s.m_clientId i ∧
      (s.CheckForTimeOut c w time).1.m_clientAddress i = s.m_clientAddress i ∧
      (s.CheckForTimeOut c w time).1.m_clientData i = s.m_clientData i) ∧
    (s.CheckForTimeOut c w time).1.m_numConnectedClients
      = s.m_numConnectedClients
        - (((Finset.range c.MaxClients).filter
            (fun i => s.timedOut c time i = true)).card : Int) := by
  obtain ⟨hconn, hid, haddr, hdata, hnum, htrace, _⟩ :=
    checkForTimeOutLoop_spec c s w time hall c.MaxClients
  have hnot : ∀ i, s.timedOut c time i = false →
      ¬ (i < c.MaxClients ∧ s.timedOut c time i = true) := by
    rintro i hf ⟨_, ht⟩
    rw [hf] at ht
    exact Bool.noConfusion ht
  unfold Server.CheckForTimeOut
  refine ⟨?_, htrace, ?_, ?_, ?_⟩
  · intro i hi
    rw [hconn i]
    by_cases ht : s.timedOut c time i = true
    · rw [if_pos ⟨hi, ht⟩]
      have ht' := ht
      simp only [Server.timedOut, Bool.and_eq_true, decide_eq_true_eq] at ht'
      constructor
      · intro h; exact Bool.noConfusion h
      · rintro ⟨_, hle⟩
        exact absurd ht'.2 hle
    · rw [if_neg (fun h => ht h.2)]
      constructor
      · intro hc
        refine ⟨hc, ?_⟩
        by_contra hlt
        apply ht
        simp only [Server.timedOut, Bool.and_eq_true, decide_eq_true_eq]
        exact ⟨hc, hlt⟩
      · intro h; exact h.1
  · intro i hi ht
    rw [hconn i, hid i, haddr i, hdata i, if_pos ⟨hi, ht⟩, if_pos ⟨hi, ht⟩, if_pos ⟨hi, ht⟩,
      if_pos ⟨hi, ht⟩]
    exact ⟨rfl, rfl, rfl, rfl⟩
  · intro i hf
    rw [hconn i, hid i, haddr i, hdata i, if_neg (hnot i hf), if_neg (hnot i hf),
      if_neg (hnot i hf), if_neg (hnot i hf)]
    exact ⟨rfl, rfl, rfl, rfl⟩
  · rw [hnum, countConnected_eq_card]

theorem CheckForTimeOut_removes_timed_out_witness :
    (∀ i, i < exampleConstants.MaxClients →
      ((sameIdServer.CheckForTimeOut exampleConstants (exampleWorld []) 100000).1.m_clientConnected
          i = true ↔
        (sameIdServer.m_clientConnected i = true ∧
         ¬ (addDouble (sameIdServer.m_clientData i).lastPacketReceiveTime
              exampleConstants.ConnectionTimeOut < 100000)))) ∧
    (sameIdServer.CheckForTimeOut exampleConstants (exampleWorld []) 100000).2.trace
      = (exampleWorld []).trace
        ++ sameIdServer.timeOutEvents exampleConstants 100000 exampleConstants.MaxClients ∧
    (∀ i, i < exampleConstants.MaxClients → sameIdServer.timedOut exampleConstants 100000 i = true →
      (sameIdServer.CheckForTimeOut exampleConstants (exampleWorld []) 100000).1.m_clientConnected i
        = false ∧
      (sameIdServer.CheckForTimeOut exampleConstants (exampleWorld []) 100000).1.m_clientId i
        = 0 ∧
      (sameIdServer.CheckForTimeOut exampleConstants (exampleWorld []) 100000).1.m_clientAddress i
        = Address.undefined ∧
      (sameIdServer.CheckForTimeOut exampleConstants (exampleWorld []) 100000).1.m_clientData i
        = ServerClientData.default) ∧
    (∀ i, sameIdServer.timedOut exampleConstants 100000 i = false →
      (sameIdServer.CheckForTimeOut exampleConstants (exampleWorld []) 100000).1.m_clientConnected i
        = sameIdServer.m_clientConnected i ∧
      (sameIdServer.CheckForTimeOut exampleConstants (exampleWorld []) 100000).1.m_clientId i
        = sameIdServer.m_clientId i ∧
      (sameIdServer.CheckForTimeOut exampleConstants (exampleWorld []) 100000).1.m_clientAddress i
        = sameIdServer.m_clientAddress i ∧
      (sameIdServer.CheckForTimeOut exampleConstants (exampleWorld []) 100000).1.m_clientData i
        = sameIdServer.m_clientData i) ∧
    (sameIdServer.CheckForTimeOut exampleConstants (exampleWorld []) 100000).1.m_numConnectedClients
      = sameIdServer.m_numConnectedClients
        - (((Finset.range exampleConstants.MaxClients).filter
            (fun i => sameIdServer.timedOut exampleConstants 100000 i = true)).card : Int) :=
  CheckForTimeOut_removes_timed_out exampleConstants sameIdServer (exampleWorld []) 100000
    (by decide)

/-! ### The client: packets received -/

theorem Client.Disconnect_clientState (c : Constants) (cl : Client) (w : World) (time : Time) :
    (cl.Disconnect c w time).1.m_clientState = ClientState.CLIENT_STATE_DISCONNECTED := by
  unfold Client.Disconnect
  split
  · dsimp only
    split <;> rfl
  · rfl

/-- C18: for a packet that comes from the stored server address, the state
of the client after the packet is the one the transition table gives
(`ConnectionDenied` in `SendingConnectionRequest` gives `ConnectionDenied`,
`ConnectionChallenge` in `SendingConnectionRequest` gives
`SendingChallengeResponse`, `ConnectionHeartBeat` in
`SendingChallengeResponse` gives `Connected`, `ConnectionDisconnect` in
`Connected` gives `Disconnected`, every other combination leaves
`m_clientState` unchanged); and a challenge accepted in
`SendingConnectionRequest` stores the token data and nonce of the packet and
sets `lastPacketReceiveTime = time`. -/
theorem Client.dispatch_follows_table (c : Constants) (cl : Client) (w : World)
    (address : Address) (packet : Packet) (time : Time)
    (haddr : address = cl.m_serverAddress) :
    (cl.dispatch c w address packet time).1.m_clientState
      = clientTransition cl.m_clientState packet ∧
    (∀ data nonce,
      cl.m_clientState = ClientState.CLIENT_STATE_SENDING_CONNECTION_REQUEST →
      packet = Packet.ConnectionChallenge data nonce →
      (cl.dispatch c w address packet time).1.m_challengeTokenData
        = data.take c.ChallengeTokenBytes ∧
      (cl.dispatch c w address packet time).1.m_challengeTokenNonce
        = nonce.take c.NonceBytes ∧
      (cl.dispatch c w address packet time).1.m_lastPacketReceiveTime = time) := by
  subst haddr
  constructor
  · cases packet with
    | ConnectionDenied =>
      cases hst : cl.m_clientState <;>
        simp [Client.dispatch, Client.ProcessConnectionDenied, clientTransition, hst]
    | ConnectionChallenge d n =>
      cases hst : cl.m_clientState <;>
        simp [Client.dispatch, Client.ProcessConnectionChallenge, clientTransition, hst]
    | ConnectionHeartBeat =>
      cases hst : cl.m_clientState <;>
        simp [Client.dispatch, Client.ProcessConnectionHeartBeat, clientTransition, hst,
          ClientState.toNat]
    | ConnectionDisconnect =>
      cases hst : cl.m_clientState <;>
        simp [Client.dispatch, Client.ProcessConnectionDisconnect, clientTransition, hst,
          Client.Disconnect_clientState]
    | ConnectionRequest d n =>
      cases hst : cl.m_clientState <;> simp [Client.dispatch, clientTransition, hst]
    | ConnectionResponse d n =>
      cases hst : cl.m_clientState <;> simp [Client.dispatch, clientTransition, hst]
    | Other t =>
      cases hst : cl.m_clientState <;> simp [Client.dispatch, clientTransition, hst]
  · intro data nonce hst hp
    subst hp
    simp [Client.dispatch, Client.ProcessConnectionChallenge, hst]

theorem Client.dispatch_follows_table_witness :
    (connectingClient.dispatch exampleConstants (exampleWorld []) addressS
        (Packet.ConnectionChallenge challengeA.1 challengeA.2) 10).1.m_clientState
      = clientTransition connectingClient.m_clientState
          (Packet.ConnectionChallenge challengeA.1 challengeA.2) ∧
    (∀ data nonce,
      connectingClient.m_clientState = ClientState.CLIENT_STATE_SENDING_CONNECTION_REQUEST →
      Packet.ConnectionChallenge challengeA.1 challengeA.2
        = Packet.ConnectionChallenge data nonce →
      (connectingClient.dispatch exampleConstants (exampleWorld []) addressS
          (Packet.ConnectionChallenge challengeA.1 challengeA.2) 10).1.m_challengeTokenData
        = data.take exampleConstants.ChallengeTokenBytes ∧
      (connectingClient.dispatch exampleConstants (exampleWorld []) addressS
          (Packet.ConnectionChallenge challengeA.1 challengeA.2) 10).1.m_challengeTokenNonce
        = nonce.take exampleConstants.NonceBytes ∧
      (connectingClient.dispatch exampleConstants (exampleWorld []) addressS
          (Packet.ConnectionChallenge challengeA.1 challengeA.2) 10).1.m_lastPacketReceiveTime
        = 10) :=
  Client.dispatch_follows_table exampleConstants connectingClient (exampleWorld []) addressS
    (Packet.ConnectionChallenge challengeA.1 challengeA.2) 10 (by decide)

theorem Client.dispatch_other_address (c : Constants) (cl : Client) (w : World)
    (address : Address) (packet : Packet) (time : Time)
    (haddr : address ≠ cl.m_serverAddress) :
    cl.dispatch c w address packet time = (cl, w) := by
  cases packet with
  | ConnectionDenied =>
    unfold Client.dispatch Client.ProcessConnectionDenied
    split_ifs <;> rfl
  | ConnectionChallenge d n =>
    unfold Client.dispatch Client.ProcessConnectionChallenge
    split_ifs <;> rfl
  | ConnectionHeartBeat =>
    unfold Client.dispatch Client.ProcessConnectionHeartBeat
    split_ifs <;> rfl
  | ConnectionDisconnect =>
    unfold Client.dispatch Client.ProcessConnectionDisconnect
    split_ifs <;> rfl
  | ConnectionRequest d n => rfl
  | ConnectionResponse d n => rfl
  | Other t => rfl

/-- C19: a received packet of any kind whose source address differs from
the stored `m_serverAddress` leaves the whole client state unchanged and
makes no call on the transport; so `ReceivePackets`, when every queued
packet comes from such an address, returns the client it was given and
emits no packet. -/
theorem Client.ReceivePackets_other_address (c : Constants) (cl : Client) (w : World)
    (time : Time)
    (hother : ∀ ap, ap ∈ w.incoming → ap.1 ≠ cl.m_serverAddress) :
    (cl.ReceivePackets c w time).1 = cl ∧
    (cl.ReceivePackets c w time).2.trace = w.trace ∧
    (∀ (address : Address) (packet : Packet), address ≠ cl.m_serverAddress →
      cl.dispatch c w address packet time = (cl, w)) := by
  have hloop : ∀ (queue : List (Address × Packet)) (w' : World),
      (∀ ap, ap ∈ queue → ap.1 ≠ cl.m_serverAddress) →
      Client.receivePacketsLoop c time queue cl w' = (cl, w') := by
    intro queue
    induction queue with
    | nil => intro w' _; rfl
    | cons head rest ih =>
      intro w' h
      obtain ⟨address, packet⟩ := head
      rw [Client.receivePacketsLoop]
      have hd := Client.dispatch_other_address c cl w' address packet time
        (h (address, packet) (List.mem_cons_self _ _))
      simp only [hd]
      exact ih w' (fun ap hap => h ap (List.mem_cons_of_mem _ hap))
  unfold Client.ReceivePackets
  rw [hloop w.incoming _ hother]
  exact ⟨rfl, rfl, fun address packet h => Client.dispatch_other_address c cl w address packet
    time h⟩

theorem Client.ReceivePackets_other_address_witness :
    (connectingClient.ReceivePackets exampleConstants
        (exampleWorld [(addressC, Packet.ConnectionChallenge challengeA.1 challengeA.2),
                       (addressC, Packet.ConnectionDenied)]) 10).1 = connectingClient ∧
    (connectingClient.ReceivePackets exampleConstants
        (exampleWorld [(addressC, Packet.ConnectionChallenge challengeA.1 challengeA.2),
                       (addressC, Packet.ConnectionDenied)]) 10).2.trace
      = (exampleWorld [(addressC, Packet.ConnectionChallenge challengeA.1 challengeA.2),
                       (addressC, Packet.ConnectionDenied)]).trace ∧
    (∀ (address : Address) (packet : Packet), address ≠ connectingClient.m_serverAddress →
      connectingClient.dispatch exampleConstants
        (exampleWorld [(addressC, Packet.ConnectionChallenge challengeA.1 challengeA.2),
                       (addressC, Packet.ConnectionDenied)]) address packet 10
        = (connectingClient,
           exampleWorld [(addressC, Packet.ConnectionChallenge challengeA.1 challengeA.2),
                         (addressC, Packet.ConnectionDenied)])) :=
  Client.ReceivePackets_other_address exampleConstants connectingClient
    (exampleWorld [(addressC, Packet.ConnectionChallenge challengeA.1 challengeA.2),
                   (addressC, Packet.ConnectionDenied)]) 10 (by decide)

/-! ### The client: token buffers while connected -/

theorem Client.SendPackets_fields (c : Constants) (cl : Client) (w : World) (time : Time) :
    (cl.SendPackets c w time).1 = cl ∨
    (cl.SendPackets c w time).1 = { cl with m_lastPacketSendTime := time } := by
  unfold Client.SendPackets
  split
  · split_ifs
    · exact Or.inl rfl
    · dsimp only
      split
      · exact Or.inr rfl
      · exact Or.inl rfl
  · split_ifs
    · exact Or.inl rfl
    · dsimp only
      split
      · exact Or.inr rfl
      · exact Or.inl rfl
  · split_ifs
    · exact Or.inl rfl
    · dsimp only
      split
      · exact Or.inr rfl
      · exact Or.inl rfl
  · exact Or.inl rfl

theorem Client.dispatch_connected_zero (c : Constants) (cl : Client) (w : World)
    (address : Address) (packet : Packet) (time : Time)
    (hinv : cl.m_clientState = ClientState.CLIENT_STATE_CONNECTED → cl.buffersZero c) :
    (cl.dispatch c w address packet time).1.m_clientState
        = ClientState.CLIENT_STATE_CONNECTED →
      (cl.dispatch c w address packet time).1.buffersZero c := by
  cases packet with
  | ConnectionDenied =>
    unfold Client.dispatch Client.ProcessConnectionDenied
    split_ifs
    · exact hinv
    · exact hinv
    · intro h; cases h
  | ConnectionChallenge d n =>
    unfold Client.dispatch Client.ProcessConnectionChallenge
    split_ifs
    · exact hinv
    · exact hinv
    · intro h; cases h
  | ConnectionHeartBeat =>
    unfold Client.dispatch Client.ProcessConnectionHeartBeat
    split_ifs
    · exact hinv
    · exact hinv
    · intro _; exact ⟨rfl, rfl, rfl, rfl⟩
    · exact hinv
  | ConnectionDisconnect =>
    unfold Client.dispatch Client.ProcessConnectionDisconnect
    split_ifs
    · exact hinv
    · exact hinv
    · intro h
      rw [Client.Disconnect_clientState] at h
      cases h
  | ConnectionRequest d n => exact hinv
  | ConnectionResponse d n => exact hinv
  | Other t => exact hinv

theorem Client.receivePacketsLoop_connected_zero (c : Constants) (time : Time) :
    ∀ (queue : List (Address × Packet)) (cl : Client) (w : World),
      (cl.m_clientState = ClientState.CLIENT_STATE_CONNECTED → cl.buffersZero c) →
      (Client.receivePacketsLoop c time queue cl w).1.m_clientState
          = ClientState.CLIENT_STATE_CONNECTED →
        (Client.receivePacketsLoop c time queue cl w).1.buffersZero c := by
  intro queue
  induction queue with
  | nil => intro cl w hinv; exact hinv
  | cons head rest ih =>
    intro cl w hinv
    obtain ⟨address, packet⟩ := head
    rw [Client.receivePacketsLoop]
    exact ih _ _ (Client.dispatch_connected_zero c cl w address packet time hinv)

theorem Client.CheckForTimeOut_connected_zero (c : Constants) (cl : Client) (w : World)
    (time : Time)
    (hinv : cl.m_clientState = ClientState.CLIENT_STATE_CONNECTED → cl.buffersZero c) :
    (cl.CheckForTimeOut c w time).1.m_clientState = ClientState.CLIENT_STATE_CONNECTED →
      (cl.CheckForTimeOut c w time).1.buffersZero c := by
  unfold Client.CheckForTimeOut
  split
  · split_ifs
    · intro h; cases h
    · exact hinv
  · split_ifs
    · intro h; cases h
    · exact hinv
  · split_ifs
    · intro h
      rw [Client.Disconnect_clientState] at h
      cases h
    · exact hinv
  · exact hinv

/-- C20: in every client state reachable from the constructor by `Connect`,
`Disconnect`, `SendPackets`, `ReceivePackets` and `CheckForTimeOut`, if
`m_clientState == CLIENT_STATE_CONNECTED` then `m_connectTokenData`,
`m_connectTokenNonce`, `m_challengeTokenData` and `m_challengeTokenNonce` are
all zero bytes. -/
theorem Client.reachable_connected_buffers_zero (c : Constants) (cl : Client)
    (h : Client.Reachable c cl)
    (hconnected : cl.m_clientState = ClientState.CLIENT_STATE_CONNECTED) :
    cl.m_connectTokenData = List.replicate c.ConnectTokenBytes 0 ∧
    cl.m_connectTokenNonce = List.replicate c.NonceBytes 0 ∧
    cl.m_challengeTokenData = List.replicate c.ChallengeTokenBytes 0 ∧
    cl.m_challengeTokenNonce = List.replicate c.NonceBytes 0 := by
  have hall : ∀ cl', Client.Reachable c cl' →
      cl'.m_clientState = ClientState.CLIENT_STATE_CONNECTED → cl'.buffersZero c := by
    intro cl' h'
    induction h' with
    | ctor raw w =>
      intro hst
      cases hst
    | Connect cl w address time clientId data nonce k1 k2 _ _ =>
      intro hst
      cases hst
    | Disconnect cl w time _ _ =>
      intro hst
      rw [Client.Disconnect_clientState] at hst
      cases hst
    | SendPackets cl w time _ ih =>
      rcases Client.SendPackets_fields c cl w time with hs | hs
      · rw [hs]; exact ih
      · rw [hs]; exact ih
    | ReceivePackets cl w time _ ih =>
      exact Client.receivePacketsLoop_connected_zero c time _ cl _ ih
    | CheckForTimeOut cl w time _ ih =>
      exact Client.CheckForTimeOut_connected_zero c cl w time ih
  exact hall cl h hconnected

theorem Client.reachable_connected_buffers_zero_witness :
    connectedClient.m_connectTokenData
      = List.replicate exampleConstants.ConnectTokenBytes 0 ∧
    connectedClient.m_connectTokenNonce = List.replicate exampleConstants.NonceBytes 0 ∧
    connectedClient.m_challengeTokenData
      = List.replicate exampleConstants.ChallengeTokenBytes 0 ∧
    connectedClient.m_challengeTokenNonce = List.replicate exampleConstants.NonceBytes 0 :=
  Client.reachable_connected_buffers_zero exampleConstants connectedClient
    (Client.Reachable.ReceivePackets _ _ 40
      (Client.Reachable.ReceivePackets _ _ 10
        (Client.Reachable.Connect _ _ addressS 0 7 (exampleConnectTokenData 7 1)
          (nonceBytes 0 8) (List.replicate 8 1) (List.replicate 8 2)
          (Client.Reachable.ctor exampleClientRaw (exampleWorld [])))))
    (by decide)

/-! ### The client: `Disconnect` -/

/-- C21: for every client state, every world and every time `t`, after
`Client::Disconnect( t )` the state is `CLIENT_STATE_DISCONNECTED`, the
connect-token data and nonce and the challenge-token data and nonce are all
zero bytes, `m_clientId == 0`, the server address is the default (invalid)
`Address()`, and both last-packet times are -1000 seconds. -/
theorem Client.Disconnect_resets (c : Constants) (cl : Client) (w : World) (t : Time) :
    (cl.Disconnect c w t).1.m_clientState = ClientState.CLIENT_STATE_DISCONNECTED ∧
    (cl.Disconnect c w t).1.m_connectTokenData = List.replicate c.ConnectTokenBytes 0 ∧
    (cl.Disconnect c w t).1.m_connectTokenNonce = List.replicate c.NonceBytes 0 ∧
    (cl.Disconnect c w t).1.m_challengeTokenData = List.replicate c.ChallengeTokenBytes 0 ∧
    (cl.Disconnect c w t).1.m_challengeTokenNonce = List.replicate c.NonceBytes 0 ∧
    (cl.Disconnect c w t).1.m_clientId = 0 ∧
    (cl.Disconnect c w t).1.m_serverAddress = Address.undefined ∧
    (cl.Disconnect c w t).1.m_serverAddress.IsValid = false ∧
    (cl.Disconnect c w t).1.m_lastPacketSendTime = -1000 * oneSecond ∧
    (cl.Disconnect c w t).1.m_lastPacketReceiveTime = -1000 * oneSecond := by
  unfold Client.Disconnect
  split
  · dsimp only
    split
    · exact ⟨rfl, rfl, rfl, rfl, rfl, rfl, rfl, rfl, rfl, rfl⟩
    · exact ⟨rfl, rfl, rfl, rfl, rfl, rfl, rfl, rfl, rfl, rfl⟩
  · exact ⟨rfl, rfl, rfl, rfl, rfl, rfl, rfl, rfl, rfl, rfl⟩

/-- C25: when `CreatePacket` returns a packet, the calls that
`Client::Disconnect( now )` makes on the transport for a client in state
`Connected` are exactly `SendPacket( m_serverAddress, ConnectionDisconnect )`,
then `WritePackets( now )`, then `ResetEncryptionMappings()`, in this order,
so the flush precedes the reset of the encryption mappings; for a client in
any other state the only call is `ResetEncryptionMappings()`: no packet is
sent and nothing is flushed. -/
theorem Client.Disconnect_transport_calls (c : Constants) (cl : Client) (w : World)
    (now : Time)
    (hcreate : (w.CreatePacket PacketType.PACKET_CONNECTION_DISCONNECT).1 ≠ none) :
    (cl.m_clientState = ClientState.CLIENT_STATE_CONNECTED →
      (cl.Disconnect c w now).2.trace
        = w.trace ++ [Event.SendPacket cl.m_serverAddress (some Packet.ConnectionDisconnect),
                      Event.WritePackets now, Event.ResetEncryptionMappings]) ∧
    (cl.m_clientState ≠ ClientState.CLIENT_STATE_CONNECTED →
      (cl.Disconnect c w now).2.trace = w.trace ++ [Event.ResetEncryptionMappings]) := by
  have hblank := World.CreatePacket_eq_blank w PacketType.PACKET_CONNECTION_DISCONNECT hcreate
  have htrace := World.CreatePacket_trace w PacketType.PACKET_CONNECTION_DISCONNECT
  constructor
  · intro hst
    unfold Client.Disconnect
    rw [if_pos hst]
    dsimp only
    rw [hblank]
    simp [Client.ResetConnectionData, Client.SendPacketToServer, World.SendPacket,
      World.WritePackets, World.ResetEncryptionMappings, htrace, Packet.blank]
  · intro hst
    unfold Client.Disconnect
    rw [if_neg hst]
    rfl

theorem Client.Disconnect_transport_calls_witness :
    (connectedClient.m_clientState = ClientState.CLIENT_STATE_CONNECTED →
      (connectedClient.Disconnect exampleConstants (exampleWorld []) 10).2.trace
        = (exampleWorld []).trace
          ++ [Event.SendPacket connectedClient.m_serverAddress
                (some Packet.ConnectionDisconnect),
              Event.WritePackets 10, Event.ResetEncryptionMappings]) ∧
    (connectedClient.m_clientState ≠ ClientState.CLIENT_STATE_CONNECTED →
      (connectedClient.Disconnect exampleConstants (exampleWorld []) 10).2.trace
        = (exampleWorld []).trace ++ [Event.ResetEncryptionMappings]) :=
  Client.Disconnect_transport_calls exampleConstants connectedClient (exampleWorld []) 10
    (by decide)

/-! ### The client: `CheckForTimeOut` -/

theorem Client.handshake_timeout_cases (c : Constants) (cl : Client) (w : World)
    (now : Time)
    (hstate : cl.m_clientState = ClientState.CLIENT_STATE_SENDING_CONNECTION_REQUEST ∨
      cl.m_clientState = ClientState.CLIENT_STATE_SENDING_CHALLENGE_RESPONSE) :
    ((cl.CheckForTimeOut c w now).1.m_clientState
        = ClientState.CLIENT_STATE_CONNECTION_REQUEST_TIMED_OUT ↔
      cl.m_clientState = ClientState.CLIENT_STATE_SENDING_CONNECTION_REQUEST ∧
      addDouble cl.m_lastPacketReceiveTime c.ConnectionRequestTimeOut < now) ∧
    ((cl.CheckForTimeOut c w now).1.m_clientState
        = ClientState.CLIENT_STATE_CHALLENGE_RESPONSE_TIMED_OUT ↔
      cl.m_clientState = ClientState.CLIENT_STATE_SENDING_CHALLENGE_RESPONSE ∧
      addDouble cl.m_lastPacketReceiveTime c.ChallengeResponseTimeOut < now) ∧
    ((cl.CheckForTimeOut c w now).1.m_clientState
        ≠ ClientState.CLIENT_STATE_CONNECTION_REQUEST_TIMED_OUT →
      (cl.CheckForTimeOut c w now).1.m_clientState
        ≠ ClientState.CLIENT_STATE_CHALLENGE_RESPONSE_TIMED_OUT →
      (cl.CheckForTimeOut c w now).1 = cl) ∧
    { (cl.CheckForTimeOut c w now).1 with m_clientState := cl.m_clientState } = cl ∧
    (cl.CheckForTimeOut c w now).2 = w := by
  rcases hstate with hst | hst
  · by_cases hlt : addDouble cl.m_lastPacketReceiveTime c.ConnectionRequestTimeOut < now
    · have hres : cl.CheckForTimeOut c w now
          = ({ cl with m_clientState := ClientState.CLIENT_STATE_CONNECTION_REQUEST_TIMED_OUT },
             w) := by
        unfold Client.CheckForTimeOut
        rw [hst]
        dsimp only
        rw [if_pos hlt]
      rw [hres]
      refine ⟨⟨fun _ => ⟨hst, hlt⟩, fun _ => rfl⟩, ⟨fun h => ?_, fun h => ?_⟩, fun h => ?_,
        rfl, rfl⟩
      · cases h
      · rw [hst] at h
        cases h.1
      · exact absurd rfl h
    · have hres : cl.CheckForTimeOut c w now = (cl, w) := by
        unfold Client.CheckForTimeOut
        rw [hst]
        dsimp only
        rw [if_neg hlt]
      rw [hres]
      refine ⟨⟨fun h => ?_, fun h => absurd h.2 hlt⟩, ⟨fun h => ?_, fun h => ?_⟩,
        fun _ _ => rfl, rfl, rfl⟩
      · dsimp only at h
        rw [hst] at h
        cases h
      · dsimp only at h
        rw [hst] at h
        cases h
      · rw [hst] at h
        cases h.1
  · by_cases hlt : addDouble cl.m_lastPacketReceiveTime c.ChallengeResponseTimeOut < now
    · have hres : cl.CheckForTimeOut c w now
          = ({ cl with m_clientState := ClientState.CLIENT_STATE_CHALLENGE_RESPONSE_TIMED_OUT },
             w) := by
        unfold Client.CheckForTimeOut
        rw [hst]
        dsimp only
        rw [if_pos hlt]
      rw [hres]
      refine ⟨⟨fun h => ?_, fun h => ?_⟩, ⟨fun _ => ⟨hst, hlt⟩, fun _ => rfl⟩, fun _ h => ?_,
        rfl, rfl⟩
      · cases h
      · rw [hst] at h
        cases h.1
      · exact absurd rfl h
    · have hres : cl.CheckForTimeOut c w now = (cl, w) := by
        unfold Client.CheckForTimeOut
        rw [hst]
        dsimp only
        rw [if_neg hlt]
      rw [hres]
      refine ⟨⟨fun h => ?_, fun h => ?_⟩, ⟨fun h => ?_, fun h => absurd h.2 hlt⟩,
        fun _ _ => rfl, rfl, rfl⟩
      · dsimp only at h
        rw [hst] at h
        cases h
      · rw [hst] at h
        cases h.1
      · dsimp only at h
        rw [hst] at h
        cases h

/-- C22: for a client in `SendingConnectionRequest`, `CheckForTimeOut( now )`
sets the state to `ConnectionRequestTimedOut` if and only if
`lastPacketReceiveTime + ConnectionRequestTimeOut < now`; for a client in
`SendingChallengeResponse` it sets the state to `ChallengeResponseTimedOut`
if and only if `lastPacketReceiveTime + ChallengeResponseTimeOut < now`.  The
sum is the sum of two doubles, as the code computes it, and the comparison
is strict: when the sum equals `now`, and whenever the state is not set to
one of the two, the client is returned as it was.  In both cases every
field other than `m_clientState` is unchanged and no call is made on the
transport. -/
theorem Client.CheckForTimeOut_handshake (c : Constants) (cl : Client) (w : World)
    (now : Time)
    (hstate : cl.m_clientState = ClientState.CLIENT_STATE_SENDING_CONNECTION_REQUEST ∨
      cl.m_clientState = ClientState.CLIENT_STATE_SENDING_CHALLENGE_RESPONSE) :
    ((cl.CheckForTimeOut c w now).1.m_clientState
        = ClientState.CLIENT_STATE_CONNECTION_REQUEST_TIMED_OUT ↔
      cl.m_clientState = ClientState.CLIENT_STATE_SENDING_CONNECTION_REQUEST ∧
      addDouble cl.m_lastPacketReceiveTime c.ConnectionRequestTimeOut < now) ∧
    ((cl.CheckForTimeOut c w now).1.m_clientState
        = ClientState.CLIENT_STATE_CHALLENGE_RESPONSE_TIMED_OUT ↔
      cl.m_clientState = ClientState.CLIENT_STATE_SENDING_CHALLENGE_RESPONSE ∧
      addDouble cl.m_lastPacketReceiveTime c.ChallengeResponseTimeOut < now) ∧
    ((cl.CheckForTimeOut c w now).1.m_clientState
        ≠ ClientState.CLIENT_STATE_CONNECTION_REQUEST_TIMED_OUT →
      (cl.CheckForTimeOut c w now).1.m_clientState
        ≠ ClientState.CLIENT_STATE_CHALLENGE_RESPONSE_TIMED_OUT →
      (cl.CheckForTimeOut c w now).1 = cl) ∧
    { (cl.CheckForTimeOut c w now).1 with m_clientState := cl.m_clientState } = cl ∧
    (cl.CheckForTimeOut c w now).2 = w ∧
    (cl.m_clientState = ClientState.CLIENT_STATE_SENDING_CONNECTION_REQUEST →
      addDouble cl.m_lastPacketReceiveTime c.ConnectionRequestTimeOut = now →
      (cl.CheckForTimeOut c w now).1 = cl) ∧
    (cl.m_clientState = ClientState.CLIENT_STATE_SENDING_CHALLENGE_RESPONSE →
      addDouble cl.m_lastPacketReceiveTime c.ChallengeResponseTimeOut = now →
      (cl.CheckForTimeOut c w now).1 = cl) := by
  have h := Client.handshake_timeout_cases c cl w now hstate
  refine ⟨h.1, h.2.1, h.2.2.1, h.2.2.2.1, h.2.2.2.2, ?_, ?_⟩
  · intro hst heq
    apply h.2.2.1
    · intro hto
      have hlt := (h.1.mp hto).2
      rw [heq] at hlt
      exact lt_irrefl _ hlt
    · intro hto
      have hst2 := (h.2.1.mp hto).1
      rw [hst] at hst2
      cases hst2
  · intro hst heq
    apply h.2.2.1
    · intro hto
      have hst2 := (h.1.mp hto).1
      rw [hst] at hst2
      cases hst2
    · intro hto
      have hlt := (h.2.1.mp hto).2
      rw [heq] at hlt
      exact lt_irrefl _ hlt

theorem Client.CheckForTimeOut_handshake_witness :
    ((clientReceivedAt0238.CheckForTimeOut scenarioConstants (exampleWorld [])
          (double 5897463712041665 (-50))).1.m_clientState
        = ClientState.CLIENT_STATE_CONNECTION_REQUEST_TIMED_OUT ↔
      clientReceivedAt0238.m_clientState
          = ClientState.CLIENT_STATE_SENDING_CONNECTION_REQUEST ∧
      addDouble clientReceivedAt0238.m_lastPacketReceiveTime
        scenarioConstants.ConnectionRequestTimeOut < double 5897463712041665 (-50)) ∧
    ((clientReceivedAt0238.CheckForTimeOut scenarioConstants (exampleWorld [])
          (double 5897463712041665 (-50))).1.m_clientState
        = ClientState.CLIENT_STATE_CHALLENGE_RESPONSE_TIMED_OUT ↔
      clientReceivedAt0238.m_clientState
          = ClientState.CLIENT_STATE_SENDING_CHALLENGE_RESPONSE ∧
      addDouble clientReceivedAt0238.m_lastPacketReceiveTime
        scenarioConstants.ChallengeResponseTimeOut < double 5897463712041665 (-50)) ∧
    ((clientReceivedAt0238.CheckForTimeOut scenarioConstants (exampleWorld [])
          (double 5897463712041665 (-50))).1.m_clientState
        ≠ ClientState.CLIENT_STATE_CONNECTION_REQUEST_TIMED_OUT →
      (clientReceivedAt0238.CheckForTimeOut scenarioConstants (exampleWorld [])
          (double 5897463712041665 (-50))).1.m_clientState
        ≠ ClientState.CLIENT_STATE_CHALLENGE_RESPONSE_TIMED_OUT →
      (clientReceivedAt0238.CheckForTimeOut scenarioConstants (exampleWorld [])
          (double 5897463712041665 (-50))).1 = clientReceivedAt0238) ∧
    { (clientReceivedAt0238.CheckForTimeOut scenarioConstants (exampleWorld [])
          (double 5897463712041665 (-50))).1 with
      m_clientState := clientReceivedAt0238.m_clientState } = clientReceivedAt0238 ∧
    (clientReceivedAt0238.CheckForTimeOut scenarioConstants (exampleWorld [])
        (double 5897463712041665 (-50))).2 = exampleWorld [] ∧
    (clientReceivedAt0238.m_clientState = ClientState.CLIENT_STATE_SENDING_CONNECTION_REQUEST →
      addDouble clientReceivedAt0238.m_lastPacketReceiveTime
          scenarioConstants.ConnectionRequestTimeOut = double 5897463712041665 (-50) →
      (clientReceivedAt0238.CheckForTimeOut scenarioConstants (exampleWorld [])
          (double 5897463712041665 (-50))).1 = clientReceivedAt0238) ∧
    (clientReceivedAt0238.m_clientState
        = ClientState.CLIENT_STATE_SENDING_CHALLENGE_RESPONSE →
      addDouble clientReceivedAt0238.m_lastPacketReceiveTime
          scenarioConstants.ChallengeResponseTimeOut = double 5897463712041665 (-50) →
      (clientReceivedAt0238.CheckForTimeOut scenarioConstants (exampleWorld [])
          (double 5897463712041665 (-50))).1 = clientReceivedAt0238) :=
  Client.CheckForTimeOut_handshake scenarioConstants clientReceivedAt0238 (exampleWorld [])
    (double 5897463712041665 (-50)) (by decide)

/-- C23 (what the code does): for a client in state `Connected` with
`lastPacketReceiveTime + ConnectionTimeOut < now`, the sum being the sum of
two doubles as the code computes it, `CheckForTimeOut( now )`
stores `CLIENT_STATE_CONNECTION_TIMED_OUT` and then calls `Disconnect( now )`,
whose `ResetConnectionData` overwrites the state: after the call the state is
`CLIENT_STATE_DISCONNECTED`, not `CLIENT_STATE_CONNECTION_TIMED_OUT`, the
client is the one a plain reset gives, and the only call on the transport is
`ResetEncryptionMappings()` (the state no longer being `Connected` when
`Disconnect` tests it, no `ConnectionDisconnect` packet is sent). -/
theorem Client.CheckForTimeOut_connected_ends_disconnected (c : Constants) (cl : Client)
    (w : World) (now : Time)
    (hstate : cl.m_clientState = ClientState.CLIENT_STATE_CONNECTED)
    (hlate : addDouble cl.m_lastPacketReceiveTime c.ConnectionTimeOut < now) :
    (cl.CheckForTimeOut c w now).1.m_clientState = ClientState.CLIENT_STATE_DISCONNECTED ∧
    (cl.CheckForTimeOut c w now).1.m_clientState
      ≠ ClientState.CLIENT_STATE_CONNECTION_TIMED_OUT ∧
    (cl.CheckForTimeOut c w now).1 = (cl.ResetConnectionData c w).1 ∧
    (cl.CheckForTimeOut c w now).2.trace = w.trace ++ [Event.ResetEncryptionMappings] := by
  have hres : cl.CheckForTimeOut c w now
      = Client.Disconnect c
          { cl with m_clientState := ClientState.CLIENT_STATE_CONNECTION_TIMED_OUT } w now := by
    unfold Client.CheckForTimeOut
    rw [hstate]
    dsimp only
    rw [if_pos hlate]
  have hdis : Client.Disconnect c
        { cl with m_clientState := ClientState.CLIENT_STATE_CONNECTION_TIMED_OUT } w now
      = Client.ResetConnectionData c
          { cl with m_clientState := ClientState.CLIENT_STATE_CONNECTION_TIMED_OUT } w := by
    unfold Client.Disconnect
    rw [if_neg (by intro h; cases h)]
  rw [hres, hdis]
  refine ⟨rfl, ?_, rfl, rfl⟩
  intro h
  cases h

theorem Client.CheckForTimeOut_connected_ends_disconnected_witness :
    (connectedClient.CheckForTimeOut exampleConstants (exampleWorld []) 5041).1.m_clientState
      = ClientState.CLIENT_STATE_DISCONNECTED ∧
    (connectedClient.CheckForTimeOut exampleConstants (exampleWorld []) 5041).1.m_clientState
      ≠ ClientState.CLIENT_STATE_CONNECTION_TIMED_OUT ∧
    (connectedClient.CheckForTimeOut exampleConstants (exampleWorld []) 5041).1
      = (connectedClient.ResetConnectionData exampleConstants (exampleWorld [])).1 ∧
    (connectedClient.CheckForTimeOut exampleConstants (exampleWorld []) 5041).2.trace
      = (exampleWorld []).trace ++ [Event.ResetEncryptionMappings] :=
  Client.CheckForTimeOut_connected_ends_disconnected exampleConstants connectedClient
    (exampleWorld []) 5041 (by decide) (by decide)

/-! ### The token envelopes: decrypting what was encrypted -/

theorem bufferPrefix_eq_padded (written : List Nat) (capacity n : Nat)
    (hlen : written.length ≤ n) (hn : n ≤ capacity) :
    bufferPrefix written capacity n = written ++ List.replicate (n - written.length) 0 := by
  unfold bufferPrefix
  rw [List.take_take, Nat.min_eq_left hn, List.take_append_eq_append_take,
    List.take_of_length_le hlen, List.take_replicate]
  congr 2
  omega

theorem bufferPrefix_length (written : List Nat) (capacity n : Nat)
    (hlen : written.length ≤ n) (hn : n ≤ capacity) :
    (bufferPrefix written capacity n).length = n := by
  rw [bufferPrefix_eq_padded written capacity n hlen hn, List.length_append,
    List.length_replicate]
  omega

theorem decrypt_of_encrypt (p : Primitives) (authBytes tokenBytes : Nat)
    (hauth : authBytes ≤ tokenBytes)
    (hAEAD : ∀ message additional nonce key encrypted,
      p.Encrypt_AEAD message additional nonce key = some encrypted →
      encrypted.length = message.length + authBytes ∧
      p.Decrypt_AEAD encrypted additional nonce key = some message)
    (written additional nonce key encrypted : List Nat)
    (hlen : written.length ≤ tokenBytes - authBytes)
    (henc : p.Encrypt_AEAD (bufferPrefix written tokenBytes (tokenBytes - authBytes))
      additional nonce key = some encrypted) :
    p.Decrypt_AEAD (encrypted.take tokenBytes) additional nonce key
        = some (written ++ List.replicate (tokenBytes - authBytes - written.length) 0) ∧
    (written ++ List.replicate (tokenBytes - authBytes - written.length) 0).take
        (tokenBytes - authBytes)
      = written ++ List.replicate (tokenBytes - authBytes - written.length) 0 := by
  obtain ⟨hl, hd⟩ := hAEAD _ _ _ _ _ henc
  have hsub : tokenBytes - authBytes ≤ tokenBytes := Nat.sub_le _ _
  rw [bufferPrefix_length written tokenBytes _ hlen hsub] at hl
  rw [bufferPrefix_eq_padded written tokenBytes _ hlen hsub] at hd
  have hfull : encrypted.take tokenBytes = encrypted := by
    apply List.take_of_length_le
    omega
  rw [hfull]
  refine ⟨hd, ?_⟩
  apply List.take_of_length_le
  rw [List.length_append, List.length_replicate]
  omega

theorem examplePrimitives_AEAD :
    ∀ message additional nonce key encrypted,
      examplePrimitives.Encrypt_AEAD message additional nonce key = some encrypted →
      encrypted.length = message.length + exampleConstants.AuthBytes ∧
      examplePrimitives.Decrypt_AEAD encrypted additional nonce key = some message := by
  intro message additional nonce key encrypted h
  simp only [examplePrimitives, Option.some.injEq] at h
  subst h
  constructor
  · simp [exampleConstants]
  · simp [examplePrimitives]

theorem exampleConnectToken_wellFormed :
    ∀ written, examplePrimitives.writeConnectToken (exampleConnectToken 7 1) = some written →
      written.length ≤ exampleConstants.ConnectTokenBytes - exampleConstants.AuthBytes ∧
      examplePrimitives.readConnectToken
          (written ++ List.replicate
            (exampleConstants.ConnectTokenBytes - exampleConstants.AuthBytes - written.length) 0)
        = some (exampleConnectToken 7 1) := by
  intro written h
  have hw : written = ((examplePrimitives.writeConnectToken (exampleConnectToken 7 1)).getD []) := by
    rw [h]
    rfl
  subst hw
  decide

theorem challengeTokenA_wellFormed :
    ∀ written, examplePrimitives.writeChallengeToken challengeTokenA = some written →
      written.length ≤ exampleConstants.ChallengeTokenBytes - exampleConstants.AuthBytes ∧
      examplePrimitives.readChallengeToken
          (written ++ List.replicate
            (exampleConstants.ChallengeTokenBytes - exampleConstants.AuthBytes
              - written.length) 0)
        = some challengeTokenA := by
  intro written h
  have hw : written = ((examplePrimitives.writeChallengeToken challengeTokenA).getD []) := by
    rw [h]
    rfl
  subst hw
  decide

/-- C26: relative to an AEAD whose decrypt inverts encrypt, the ciphertext
being `AuthBytes` longer than the plaintext, with `AuthBytes` at most the two
token sizes, and for a connect token and a challenge token that are
well-formed, which is to say that the serializer writes each within
`ConnectTokenBytes - AuthBytes` (resp. `ChallengeTokenBytes - AuthBytes`)
bytes and reads it back from the zero-padded buffer of that size: if
`EncryptConnectToken` succeeds and produces a ciphertext, then
`DecryptConnectToken` of that ciphertext with the same additional data,
nonce and key succeeds and yields the original token, equal in every field;
likewise for `EncryptChallengeToken` and `DecryptChallengeToken`. -/
theorem Decrypt_inverts_Encrypt (c : Constants) (p : Primitives)
    (hAuthConnect : c.AuthBytes ≤ c.ConnectTokenBytes)
    (hAuthChallenge : c.AuthBytes ≤ c.ChallengeTokenBytes)
    (hAEAD : ∀ message additional nonce key encrypted,
      p.Encrypt_AEAD message additional nonce key = some encrypted →
      encrypted.length = message.length + c.AuthBytes ∧
      p.Decrypt_AEAD encrypted additional nonce key = some message)
    (connectToken : ConnectToken) (challengeToken : ChallengeToken)
    (hConnect : ∀ written, p.writeConnectToken connectToken = some written →
      written.length ≤ c.ConnectTokenBytes - c.AuthBytes ∧
      p.readConnectToken
          (written ++ List.replicate (c.ConnectTokenBytes - c.AuthBytes - written.length) 0)
        = some connectToken)
    (hChallenge : ∀ written, p.writeChallengeToken challengeToken = some written →
      written.length ≤ c.ChallengeTokenBytes - c.AuthBytes ∧
      p.readChallengeToken
          (written ++ List.replicate (c.ChallengeTokenBytes - c.AuthBytes - written.length) 0)
        = some challengeToken)
    (additional nonce key : List Nat) :
    (∀ encrypted, EncryptConnectToken c p connectToken additional nonce key = some encrypted →
      DecryptConnectToken c p encrypted additional nonce key = some connectToken) ∧
    (∀ encrypted,
      EncryptChallengeToken c p challengeToken additional nonce key = some encrypted →
      DecryptChallengeToken c p encrypted additional nonce key = some challengeToken) := by
  constructor
  · intro encrypted henc
    unfold EncryptConnectToken at henc
    rcases hwr : p.writeConnectToken connectToken with _ | written
    · rw [hwr] at henc
      cases henc
    · rw [hwr] at henc
      dsimp only at henc
      obtain ⟨hlen, hread⟩ := hConnect written hwr
      have hfit : ¬ c.ConnectTokenBytes < written.length := by omega
      rw [if_neg hfit] at henc
      obtain ⟨hd, htake⟩ := decrypt_of_encrypt p c.AuthBytes c.ConnectTokenBytes hAuthConnect
        hAEAD written additional nonce key encrypted hlen henc
      unfold DecryptConnectToken
      rw [hd]
      dsimp only
      rw [htake]
      exact hread
  · intro encrypted henc
    unfold EncryptChallengeToken at henc
    rcases hwr : p.writeChallengeToken challengeToken with _ | written
    · rw [hwr] at henc
      cases henc
    · rw [hwr] at henc
      dsimp only at henc
      obtain ⟨hlen, hread⟩ := hChallenge written hwr
      have hfit : ¬ c.ChallengeTokenBytes < written.length := by omega
      rw [if_neg hfit] at henc
      obtain ⟨hd, htake⟩ := decrypt_of_encrypt p c.AuthBytes c.ChallengeTokenBytes
        hAuthChallenge hAEAD written additional nonce key encrypted hlen henc
      unfold DecryptChallengeToken
      rw [hd]
      dsimp only
      rw [htake]
      exact hread

theorem Decrypt_inverts_Encrypt_witness :
    ((∀ encrypted,
        EncryptConnectToken exampleConstants examplePrimitives (exampleConnectToken 7 1) []
          (nonceBytes 0 8) exampleServer.m_privateKey = some encrypted →
        DecryptConnectToken exampleConstants examplePrimitives encrypted []
          (nonceBytes 0 8) exampleServer.m_privateKey = some (exampleConnectToken 7 1)) ∧
      (∀ encrypted,
        EncryptChallengeToken exampleConstants examplePrimitives challengeTokenA []
          (nonceBytes 0 8) exampleServer.m_privateKey = some encrypted →
        DecryptChallengeToken exampleConstants examplePrimitives encrypted []
          (nonceBytes 0 8) exampleServer.m_privateKey = some challengeTokenA)) ∧
    EncryptConnectToken exampleConstants examplePrimitives (exampleConnectToken 7 1) []
      (nonceBytes 0 8) exampleServer.m_privateKey = some (exampleConnectTokenData 7 1) ∧
    EncryptChallengeToken exampleConstants examplePrimitives challengeTokenA []
      (nonceBytes 0 8) exampleServer.m_privateKey = some challengeA.1 :=
  ⟨Decrypt_inverts_Encrypt exampleConstants examplePrimitives (by decide) (by decide)
      examplePrimitives_AEAD (exampleConnectToken 7 1) challengeTokenA
      exampleConnectToken_wellFormed challengeTokenA_wellFormed [] (nonceBytes 0 8)
      exampleServer.m_privateKey,
    by decide, by decide⟩

/-! ### Assertions on the way into `ConnectClient` -/

theorem countConnected_all_true (connected : Nat → Bool) (n : Nat)
    (h : ∀ i, i < n → connected i = true) : countConnected connected n = n := by
  induction n with
  | zero => rfl
  | succ n ih =>
    rw [countConnected, ih (fun i hi => h i (Nat.lt_succ_of_lt hi)), h n (Nat.lt_succ_self n)]
    simp

theorem ProcessConnectionResponse_assertions_path (c : Constants) (p : Primitives)
    (s : Server) (challengeTokenData challengeTokenNonce : List Nat) (address : Address)
    (a : ConnectAssertions)
    (ha : s.ProcessConnectionResponse_assertions c p challengeTokenData challengeTokenNonce
      address = some a) :
    a = s.connectAssertions c (s.FindFreeClientIndex c) ∧
    s.m_numConnectedClients ≠ (c.MaxClients : Int) ∧
    ∃ challengeToken,
      DecryptChallengeToken c p challengeTokenData [] challengeTokenNonce s.m_privateKey
        = some challengeToken ∧
      ∀ (w : World) (time : Time), s.FindFreeClientIndex c ≠ -1 →
        s.ProcessConnectionResponse c p w challengeTokenData challengeTokenNonce address time
          = s.ConnectClient w (s.FindFreeClientIndex c).toNat challengeToken time := by
  unfold Server.ProcessConnectionResponse_assertions at ha
  rcases hdec : DecryptChallengeToken c p challengeTokenData [] challengeTokenNonce
    s.m_privateKey with _ | challengeToken
  · rw [hdec] at ha
    cases ha
  · rw [hdec] at ha
    dsimp only at ha
    by_cases h1 : challengeToken.clientAddress ≠ address
    · rw [if_pos h1] at ha
      cases ha
    · rw [if_neg h1] at ha
      by_cases h2 : challengeToken.serverAddress ≠ s.m_serverAddress
      · rw [if_pos h2] at ha
        cases ha
      · rw [if_neg h2] at ha
        by_cases h3 : s.FindExistingClientIndex_address_clientId c address
            challengeToken.clientId ≠ -1
        · rw [if_pos h3] at ha
          cases ha
        · rw [if_neg h3] at ha
          by_cases h4 : s.m_numConnectedClients = (c.MaxClients : Int)
          · rw [if_pos h4] at ha
            cases ha
          · rw [if_neg h4] at ha
            refine ⟨(Option.some.inj ha).symm, h4, challengeToken, rfl, ?_⟩
            intro w time hfree
            unfold Server.ProcessConnectionResponse
            rw [hdec]
            dsimp only
            rw [if_neg h1, if_neg h2, if_neg h3, if_neg h4, if_neg hfree]

theorem ProcessConnectionResponse_assertions_reachable (c : Constants) (p : Primitives)
    (s : Server) (h : Server.Reachable c p s)
    (challengeTokenData challengeTokenNonce : List Nat) (address : Address)
    (a : ConnectAssertions)
    (ha : s.ProcessConnectionResponse_assertions c p challengeTokenData challengeTokenNonce
      address = some a) :
    a.clientIndexFound = true ∧ a.countNotNegative = true ∧ a.slotNotConnected = true ∧
    s.m_numConnectedClients < (c.MaxClients : Int) ∧
    (a.countBelowLimit = true ↔ s.m_numConnectedClients < (c.MaxClients : Int) - 1) := by
  obtain ⟨hval, hnotfull, _⟩ := ProcessConnectionResponse_assertions_path c p s
    challengeTokenData challengeTokenNonce address a ha
  have hcount := count_reachable c p s h
  have hle := countConnected_le s.m_clientConnected c.MaxClients
  subst hval
  rcases FindFreeClientIndex_spec c s with ⟨_, hall⟩ | ⟨k, hk, _, hfree, _⟩
  · exfalso
    apply hnotfull
    rw [← hcount, countConnected_all_true _ _ hall]
  · rw [hk]
    refine ⟨?_, ?_, ?_, ?_, ?_⟩
    · simp only [Server.connectAssertions, decide_eq_true_eq]
      omega
    · simp only [Server.connectAssertions, decide_eq_true_eq]
      omega
    · simp [Server.connectAssertions, hfree]
    · omega
    · simp only [Server.connectAssertions, decide_eq_true_eq]

/-- C27 (the code at a concrete input): the example server (`MaxClients = 4`)
has answered the requests of four clients.  On the responses of the first
three, every assertion on the way into `ConnectClient` holds; the server that
has connected them is reachable and has `m_numConnectedClients == 3`.  On the
response of the fourth, `ProcessConnectionResponse` reaches its call of
`ConnectClient` with the free slot 3, and
`assert( m_numConnectedClients < MaxClients - 1 )` is false (`3 < 3`) while the
other three assertions hold: the last slot cannot be filled without an
assertion failing.  With assertions compiled out the call connects the
fourth client. -/
theorem ConnectClient_assertion_fails_on_last_slot :
    (∀ k, k < 3 → nextResponseAssertions k
      = some { clientIndexFound := true, countNotNegative := true,
               countBelowLimit := true, slotNotConnected := true }) ∧
    Server.Reachable exampleConstants examplePrimitives (serverAfterResponses 3) ∧
    (serverAfterResponses 3).m_numConnectedClients = 3 ∧
    (serverAfterResponses 3).FindFreeClientIndex exampleConstants = 3 ∧
    nextResponseAssertions 3
      = some { clientIndexFound := true, countNotNegative := true,
               countBelowLimit := false, slotNotConnected := true } ∧
    (serverAfterResponses 4).m_numConnectedClients = (exampleConstants.MaxClients : Int) := by
  refine ⟨by decide, ?_, by decide, by decide, by decide, by decide⟩
  exact Server.Reachable.ReceivePackets _ _ 26
    (Server.Reachable.ReceivePackets _ _ 25 (Server.Reachable.ctor exampleRaw))

/-! ### The client: `SendPackets` -/

theorem Client.receivePacketsLoop_reachableWith (c : Constants) (time : Time) :
    ∀ (queue : List (Address × Packet)) (cl : Client) (w : World) (h : ClientHistory),
      Client.ReachableWith c cl h →
      ∃ h', Client.ReachableWith c (Client.receivePacketsLoop c time queue cl w).1 h' := by
  intro queue
  induction queue with
  | nil => intro cl w h hr; exact ⟨h, hr⟩
  | cons head rest ih =>
    intro cl w h hr
    obtain ⟨address, packet⟩ := head
    rw [Client.receivePacketsLoop]
    exact ih _ _ _ (Client.ReachableWith.Receive cl h w address packet time hr)

theorem Client.reachableWith_of_reachable (c : Constants) (cl : Client)
    (hr : Client.Reachable c cl) : ∃ h, Client.ReachableWith c cl h := by
  induction hr with
  | ctor raw w => exact ⟨⟨[], [], [], []⟩, Client.ReachableWith.ctor raw w _⟩
  | Connect cl w address time clientId data nonce k1 k2 _ ih =>
    obtain ⟨h, hh⟩ := ih
    exact ⟨_, Client.ReachableWith.Connect cl h w address time clientId data nonce k1 k2 hh⟩
  | Disconnect cl w time _ ih =>
    obtain ⟨h, hh⟩ := ih
    exact ⟨h, Client.ReachableWith.Disconnect cl h w time hh⟩
  | SendPackets cl w time _ ih =>
    obtain ⟨h, hh⟩ := ih
    exact ⟨h, Client.ReachableWith.SendPackets cl h w time hh⟩
  | ReceivePackets cl w time _ ih =>
    obtain ⟨h, hh⟩ := ih
    exact Client.receivePacketsLoop_reachableWith c time _ cl _ h hh
  | CheckForTimeOut cl w time _ ih =>
    obtain ⟨h, hh⟩ := ih
    exact ⟨h, Client.ReachableWith.CheckForTimeOut cl h w time hh⟩

/-- The sums of doubles at which rounding decides the test of the code:
`0.05 + 0.1` is above `0.15`, `0.238 + 5.0` is below `5.238` and `0.7 + 0.1`
is below `0.8`. -/
theorem addDouble_rounds :
    addDouble (double 3602879701896397 (-56)) (double 3602879701896397 (-55))
      > double 5404319552844595 (-55) ∧
    addDouble (double 535928355657089 (-51)) (double 5 0) < double 5897463712041665 (-50) ∧
    addDouble (double 3152519739159347 (-52)) (double 3602879701896397 (-55))
      < double 3602879701896397 (-52) := by
  decide

/-- Method `Client::SendPackets` at `lastPacketSendTime = 0.05`, rate `0.1`
and time `0.15`: the sum is above `0.15`, the method returns without
sending. -/
theorem Client.SendPackets_at_rounded_sum :
    clientSentAt005.m_clientState = ClientState.CLIENT_STATE_CONNECTED ∧
    (clientSentAt005.SendPackets scenarioConstants (exampleWorld [])
        (double 5404319552844595 (-55))).1 = clientSentAt005 ∧
    (clientSentAt005.SendPackets scenarioConstants (exampleWorld [])
        (double 5404319552844595 (-55))).2.trace = [] := by
  decide

/-- Method `Client::CheckForTimeOut` at `lastPacketReceiveTime = 0.238`,
timeout `5.0` and time `5.238`: the sum is below `5.238`, the request times
out. -/
theorem Client.CheckForTimeOut_at_rounded_sum :
    clientReceivedAt0238.m_clientState
      = ClientState.CLIENT_STATE_SENDING_CONNECTION_REQUEST ∧
    (clientReceivedAt0238.CheckForTimeOut scenarioConstants (exampleWorld [])
        (double 5897463712041665 (-50))).1.m_clientState
      = ClientState.CLIENT_STATE_CONNECTION_REQUEST_TIMED_OUT := by
  decide

/-- Method `Server::CheckForTimeOut` at `lastPacketReceiveTime = 0.238`,
timeout `5.0` and time `5.238`: the sum is below `5.238`, slot 0 is
removed. -/
theorem slot_removed_at_rounded_sum :
    serverReceivedAt0238.m_clientConnected 0 = true ∧
    (serverReceivedAt0238.m_clientData 0).lastPacketReceiveTime
      = double 535928355657089 (-51) ∧
    (serverReceivedAt0238.CheckForTimeOut scenarioConstants (exampleWorld [])
        (double 5897463712041665 (-50))).1.m_clientConnected 0 = false := by
  decide

/-- Method `Server::ProcessConnectionResponse` for a connected client at
`lastPacketSendTime = 0.7`, rate `0.1` and time `0.8`: the sum is below
`0.8`, a heartbeat is sent. -/
theorem ProcessConnectionResponse_at_rounded_sum :
    (serverSentAt07.m_clientData 0).lastPacketSendTime = double 3152519739159347 (-52) ∧
    packetsSent
        (serverSentAt07.ProcessConnectionResponse scenarioConstants examplePrimitives
          (exampleWorld []) challengeA.1 challengeA.2 addressA
          (double 3602879701896397 (-52))).2.trace
      = [(addressA, some Packet.ConnectionHeartBeat)] := by
  decide

end yojimbo
